import Mathlib

/-!
# Collision / kinematic state engine of `trajopt_ros`

A shallow embedding of the allowed-collision matrix
(`tesseract_ros/ros_basic_types.h`), of the state keeping, the queries and the
collision object builders of `BulletEnv` (`trajopt_scene/src/bullet_env.cpp`)
and of `CartVelCalculator` (`trajopt/src/kinematic_terms.cpp`), with the
properties the specification states about them.

Conventions of the embedding:

* `std::map` and `std::unordered_map` keyed by `std::string` are association
  lists (`StrMap`); the observable operations are `find`, `insert`
  (no overwrite), `assign` (`m[k] = v`) and `erase`.  New keys are placed in
  key order, which is the iteration order of `std::map`.
* `double` values are elements of an arbitrary type `V`: the state engine only
  stores and copies them.
* `Eigen::Affine3d` poses are elements of an arbitrary type `P` with a product
  and an identity; no algebraic law is assumed of them.
* A `KDL::JntArray` is the list of its entries.  The source does not check an
  index before it reads or writes the array; here a read outside the array
  gives `default` and a write outside it changes nothing.  Initialization
  keeps every joint index inside the array (`Initialized.qnr_in_range`).
* The kinematic tree is an inductive tree of `KDL::TreeElement`s: the child
  iterators of an element are its subtrees.  Overloads of one C++ name get one
  Lean name each (`setStateMap`, `setStateNames`, ...).
* A function that reports through the ROS log returns the severities it logs
  next to its result.
* A read through an iterator or a pointer gives an `Access`: the value, or
  `pastEnd` / `nullDeref` when the iterator is `end()` or the pointer is null.
  A function that ends without a return statement hands back `none`.
* The narrow phase is a pair of arbitrary functions (`NarrowPhase`), and the
  NaN test of `double` an arbitrary predicate `isNaN`.  The trajectory checks
  record the requests they hand to `calcCollisionsContinuous`, in order.
* A `btTransform` is an element of an arbitrary type `B` with a product and an
  inverse; the group laws are assumed only where a statement needs them.  The
  shape of a collision object is taken from outside (`getCollisionShape`), as
  convex, compound or other, and so is the conversion `convertEigenToBt`.
-/

namespace TrajOpt

/-! ## String-keyed maps -/

/-- A map keyed by `std::string`, as the list of its entries. -/
abbrev StrMap (β : Type) := List (String × β)

namespace StrMap

variable {β : Type}

/-- Lexicographic comparison of two character sequences by code point. -/
def ltChars : List Char → List Char → Bool
  | [], [] => false
  | [], _ :: _ => true
  | _ :: _, [] => false
  | a :: as, b :: bs =>
    if a.toNat < b.toNat then true
    else if b.toNat < a.toNat then false
    else ltChars as bs

/-- The order of `std::string` keys (`operator<`, lexicographic). -/
def keyLt (a b : String) : Bool := ltChars a.data b.data

/-- The entry stored under `k`, as `m.find(k)` gives it (`none` is `end()`). -/
def find : StrMap β → String → Option β
  | [], _ => none
  | (k', v) :: rest, k => if k' = k then some v else find rest k

/-- Overwrite the value stored under an existing key. -/
def replace : StrMap β → String → β → StrMap β
  | [], _, _ => []
  | (k', v') :: rest, k, v =>
    if k' = k then (k', v) :: replace rest k v else (k', v') :: replace rest k v

/-- Put a new key at its place in key order. -/
def place : StrMap β → String → β → StrMap β
  | [], k, v => [(k, v)]
  | (k', v') :: rest, k, v =>
    if keyLt k k' then (k, v) :: (k', v') :: rest else (k', v') :: place rest k v

/-- Model of `m.insert(std::make_pair(k, v))`: an existing entry is kept. -/
def insert (m : StrMap β) (k : String) (v : β) : StrMap β :=
  if (find m k).isSome then m else place m k v

/-- Model of `m[k] = v`: an existing entry is overwritten. -/
def assign (m : StrMap β) (k : String) (v : β) : StrMap β :=
  if (find m k).isSome then replace m k v else place m k v

/-- Model of `m.erase(k)`. -/
def erase : StrMap β → String → StrMap β
  | [], _ => []
  | (k', v') :: rest, k => if k' = k then erase rest k else (k', v') :: erase rest k

/-- The keys of the map in iteration order. -/
def keys (m : StrMap β) : List String := m.map Prod.fst

/-- Model of reading `m[k]` on a `std::map`: the value stored under `k` and the
map afterwards; a key that has no entry is first inserted with the
value-initialized `dflt`. -/
def index (m : StrMap β) (k : String) (dflt : β) : β × StrMap β :=
  match find m k with
  | some v => (v, m)
  | none => (dflt, place m k dflt)

end StrMap

/-! ## Allowed-collision matrix (`ros_basic_types.h`) -/

/-- The allowed-collision matrix: `lookup_table_` maps a key string to the
reason the pair was disabled. -/
structure ROSAllowedCollisionMatrix where
  lookup_table_ : StrMap String := []
  deriving DecidableEq, Repr

namespace ROSAllowedCollisionMatrix

/-- Store the reason under both concatenations of the two names. -/
def addAllowedCollision (acm : ROSAllowedCollisionMatrix)
    (link_name1 link_name2 reason : String) : ROSAllowedCollisionMatrix :=
  let t1 := StrMap.assign acm.lookup_table_ (link_name1 ++ link_name2) reason
  { lookup_table_ := StrMap.assign t1 (link_name2 ++ link_name1) reason }

/-- Erase both concatenations of the two names. -/
def removeAllowedCollision (acm : ROSAllowedCollisionMatrix)
    (link_name1 link_name2 : String) : ROSAllowedCollisionMatrix :=
  let t1 := StrMap.erase acm.lookup_table_ (link_name1 ++ link_name2)
  { lookup_table_ := StrMap.erase t1 (link_name2 ++ link_name1) }

/-- Whether the concatenation `link_name1 + link_name2` is a stored key. -/
def isCollisionAllowed (acm : ROSAllowedCollisionMatrix)
    (link_name1 link_name2 : String) : Bool :=
  (StrMap.find acm.lookup_table_ (link_name1 ++ link_name2)).isSome

end ROSAllowedCollisionMatrix

/-! ## Kinematic tree (`KDL::Tree`, as `bullet_env.cpp` uses it) -/

/-- A `KDL::Segment`: its name, the name and kind of its joint, and the local
pose of the segment as a function of the joint value (`pose(q)`). -/
structure Segment (V P : Type) where
  name : String
  joint_name : String
  joint_none : Bool
  pose : V → P

/-- A `KDL::TreeElement`: the segment, the index of its joint in the
joint-value array, and the child elements. -/
inductive TreeElement (V P : Type) where
  | mk (segment : Segment V P) (q_nr : Nat) (children : List (TreeElement V P))

namespace TreeElement

variable {V P : Type}

/-- The `segment` member. -/
def segment : TreeElement V P → Segment V P
  | mk s _ _ => s

/-- The `q_nr` member. -/
def q_nr : TreeElement V P → Nat
  | mk _ q _ => q

/-- The `children` member. -/
def children : TreeElement V P → List (TreeElement V P)
  | mk _ _ cs => cs

mutual
/-- The segment names of the subtree below (and including) an element. -/
def names : TreeElement V P → List String
  | mk s _ cs => s.name :: namesList cs
/-- The segment names of a list of subtrees. -/
def namesList : List (TreeElement V P) → List String
  | [] => []
  | c :: cs => names c ++ namesList cs
end

mutual
/-- The elements of the subtree below (and including) an element. -/
def elements : TreeElement V P → List (TreeElement V P)
  | mk s q cs => mk s q cs :: elementsList cs
/-- The elements of a list of subtrees. -/
def elementsList : List (TreeElement V P) → List (TreeElement V P)
  | [] => []
  | c :: cs => elements c ++ elementsList cs
end

end TreeElement

/-- `IsPath e path last`: `path` lists the tree elements met from `e` down to
`last`, both included, each one a child of the one before it. -/
inductive IsPath {V P : Type} :
    TreeElement V P → List (TreeElement V P) → TreeElement V P → Prop
  | here (e : TreeElement V P) : IsPath e [e] e
  | step (e c : TreeElement V P) (p : List (TreeElement V P)) (last : TreeElement V P) :
      c ∈ e.children → IsPath c p last → IsPath e (e :: p) last

/-- The ordered product, starting from `parent_frame`, of the local poses of
the elements of a path, each taken at its joint value in `q_in`. -/
def poseAlong {V P : Type} [Inhabited V] [Mul P] (q_in : List V) (parent_frame : P)
    (path : List (TreeElement V P)) : P :=
  path.foldl (fun acc e => acc * e.segment.pose (q_in.getD e.q_nr default)) parent_frame

/-! ## Environment state (`bullet_env.cpp`) -/

/-- A state of the environment: joint values and link transforms by name. -/
structure EnvState (V P : Type) where
  joints : StrMap V := []
  transforms : StrMap P := []

/-- How a body is attached to the environment. -/
structure AttachedBodyInfo where
  name : String
  parent_link_name : String
  object_name : String
  touch_links : List String
  deriving DecidableEq, Repr

/-- An attachable object; `G` is the type of its geometry data. -/
structure AttachableObject (G : Type) where
  name : String
  visual : G
  collision : G
  deriving DecidableEq, Repr

/-- An attached body: the attach info and the object it refers to. -/
structure AttachedBody (G : Type) where
  info : AttachedBodyInfo
  obj : AttachableObject G
  deriving DecidableEq, Repr

/-- What a collision object wraps (`ptr.m_link` or `ptr.m_ab`). -/
inductive COWSource (G : Type) where
  | m_link (link_name : String)
  | m_ab (ab : AttachedBody G)
  deriving DecidableEq, Repr

/-- Modelled from the spec: the collision object wrapper `COW`, whose class is
not among the sources.  It keeps what it wraps and its contact distance. -/
structure COW (V G : Type) where
  ptr : COWSource G
  contact_distance : Option V := none
  deriving DecidableEq, Repr

namespace COW

variable {V G : Type}

/-- Modelled from the spec: `new COW(attached_body)`. -/
def ofAttachedBody (ab : AttachedBody G) : COW V G := { ptr := COWSource.m_ab ab }

/-- Modelled from the spec: `getID()`, the name of the wrapped link or body
(the attached-body registry is keyed by `info.name`). -/
def getID (cow : COW V G) : String :=
  match cow.ptr with
  | COWSource.m_link n => n
  | COWSource.m_ab ab => ab.info.name

/-- Modelled from the spec: `setContactDistance(cow, d)`. -/
def setContactDistance (cow : COW V G) (d : V) : COW V G :=
  { cow with contact_distance := some d }

end COW

/-- The outcome of reading through an iterator or a pointer: the value read,
`pastEnd` when the iterator read through is `end()` (no entry is there), and
`nullDeref` when the pointer read through is null.  The source does not
define what the last two give. -/
inductive Access (α : Type) where
  | value (a : α)
  | pastEnd
  | nullDeref
  deriving DecidableEq, Repr

namespace Access

variable {α β : Type}

/-- Apply a function to the value read, if there is one. -/
def map (f : α → β) : Access α → Access β
  | value a => value (f a)
  | pastEnd => pastEnd
  | nullDeref => nullDeref

/-- Apply a function to two values read; without both values the outcome is the
first failed read. -/
def map2 {γ : Type} (f : α → β → γ) : Access α → Access β → Access γ
  | value a, value b => value (f a b)
  | value _, pastEnd => pastEnd
  | value _, nullDeref => nullDeref
  | pastEnd, _ => pastEnd
  | nullDeref, _ => nullDeref

/-- Model of `it->second` for the iterator `it` that a `find` returned. -/
def ofIterator : Option α → Access α
  | some a => value a
  | none => pastEnd

/-- Model of `*ptr` for a pointer that may be null. -/
def ofPointer : Option α → Access α
  | some a => value a
  | none => nullDeref

end Access

/-- A manipulator (`KDLChainKin`) as the environment uses it: the arguments of
its `init` and the joint names `getJointNames()` gives. -/
structure KDLChainKin where
  base_link : String
  tip_link : String
  name : String
  joint_names : List String
  deriving DecidableEq, Repr

/-- An `Eigen::Vector3d`. -/
structure Vector3 (V : Type) where
  x : V
  y : V
  z : V
  deriving DecidableEq, Repr, Inhabited

/-- Modelled from the spec: the kind of body behind a collision object, a link
of the robot or an attached body. -/
inductive BodyType where
  | ROBOT_LINK
  | ROBOT_ATTACHED
  deriving DecidableEq, Repr, Inhabited

/-- Modelled from the spec: the continuous-collision classification of a
result (none, at time 0, at time 1, between). -/
inductive ContinouseCollisionType where
  | CCType_None
  | CCType_Time0
  | CCType_Time1
  | CCType_Between
  deriving DecidableEq, Repr, Inhabited

/-- Modelled from the spec: the mode of a distance request, stop at the first
result or collect all. -/
inductive DistanceRequestType where
  | SINGLE
  | ALL
  deriving DecidableEq, Repr, Inhabited

/-- Modelled from the spec: a distance request with the members the engine
sets or reads.  `default` is the request as its default constructor leaves
it. -/
structure DistanceRequest (V : Type) where
  type : DistanceRequestType
  joint_names : List String
  link_names : List String
  joint_angles1 : List V
  joint_angles2 : List V
  contact_distance : V
  acm : ROSAllowedCollisionMatrix
  deriving DecidableEq, Repr

instance {V : Type} [Inhabited V] : Inhabited (DistanceRequest V) :=
  ⟨{ type := default, joint_names := [], link_names := [], joint_angles1 := [],
     joint_angles2 := [], contact_distance := default, acm := {} }⟩

/-- One entry of the narrow phase's result map, with the members the engine
reads from it. -/
structure BulletDistanceResult (V : Type) where
  distance : V
  body_types : BodyType × BodyType
  link_names : String × String
  nearest_points : Vector3 V × Vector3 V
  normal : Vector3 V
  cc_type : ContinouseCollisionType
  cc_nearest_points : Vector3 V × Vector3 V
  cc_time : V
  deriving DecidableEq, Repr, Inhabited

/-- The narrow phase's result map: per pair of object names the results found
for it. -/
abbrev BulletDistanceMap (V : Type) := List ((String × String) × List (BulletDistanceResult V))

/-- Modelled from the spec: a distance result as handed to the caller.  A
link-name slot holds the outcome of the read that fills it.  `default` is the
result as its default constructor leaves it. -/
structure DistanceResult (V : Type) where
  distance : V
  valid : Bool
  link_names : Access String × Access String
  nearest_points : Vector3 V × Vector3 V
  normal : Vector3 V
  cc_type : ContinouseCollisionType
  cc_nearest_points : Vector3 V × Vector3 V
  cc_time : V
  deriving DecidableEq, Repr

instance {V : Type} [Inhabited V] : Inhabited (DistanceResult V) :=
  ⟨{ distance := default, valid := false, link_names := (Access.value "", Access.value ""),
     nearest_points := default, normal := default, cc_type := default,
     cc_nearest_points := default, cc_time := default }⟩

/-- Severity of a message handed to the ROS log. -/
inductive RosLog where
  | debug
  | warn
  | error
  deriving DecidableEq, Repr

/-- The members of `BulletEnv` that the state engine reads and writes. -/
structure BulletEnv (V P G : Type) where
  kdl_tree_ : TreeElement V P
  joint_to_qnr_ : StrMap Nat := []
  kdl_jnt_array_ : List V := []
  current_state_ : EnvState V P := {}
  attachable_objects_ : StrMap (AttachableObject G) := []
  attached_bodies_ : StrMap (AttachedBody G) := []
  attached_link2cow_ : StrMap (COW V G) := []
  robot_link2cow_ : StrMap (COW V G) := []
  manipulators_ : StrMap KDLChainKin := []
  allowed_collision_matrix_ : ROSAllowedCollisionMatrix := {}

namespace BulletEnv

variable {V P G : Type}

mutual
/-- Body of `calculateTransforms` for a valid iterator: record the global
frame of the element, then visit the children with it as parent frame. -/
def calculateTransformsAt [Inhabited V] [Mul P] (q_in : List V) :
    TreeElement V P → P → StrMap P → StrMap P
  | TreeElement.mk segment q_nr children, parent_frame, transforms =>
    let global_frame := parent_frame * segment.pose (q_in.getD q_nr default)
    calculateTransformsChildren q_in children global_frame
      (StrMap.assign transforms segment.name global_frame)
/-- The loop over `current_element.children`. -/
def calculateTransformsChildren [Inhabited V] [Mul P] (q_in : List V) :
    List (TreeElement V P) → P → StrMap P → StrMap P
  | [], _, transforms => transforms
  | child :: rest, global_frame, transforms =>
    calculateTransformsChildren q_in rest global_frame
      (calculateTransformsAt q_in child global_frame transforms)
end

/-- Model of `calculateTransforms(transforms, q_in, it, parent_frame)`; the
iterator is `none` for `getSegments().end()`. -/
def calculateTransforms [Inhabited V] [Mul P] (transforms : StrMap P) (q_in : List V)
    (it : Option (TreeElement V P)) (parent_frame : P) : StrMap P :=
  match it with
  | some current_element => calculateTransformsAt q_in current_element parent_frame transforms
  | none => transforms

/-- Model of `kdl_tree_->getRootSegment()`. -/
def getRootSegment (env : BulletEnv V P G) : Option (TreeElement V P) := some env.kdl_tree_

/-- Model of `setJointValuesHelper(q, joint_name, joint_value)`: the updated
array and the returned flag (false is reported through `ROS_ERROR`). -/
def setJointValuesHelper (env : BulletEnv V P G) (q : List V) (joint_name : String)
    (joint_value : V) : List V × Bool :=
  match StrMap.find env.joint_to_qnr_ joint_name with
  | some qnr => (q.set qnr joint_value, true)
  | none => (q, false)

/-- The loop shared by `setState` and `getState`: for each (name, value) in
turn, call `setJointValuesHelper` on the array and, when it succeeds, store
the value in the joints map. -/
def setJointValuesLoop (env : BulletEnv V P G) :
    List (String × V) → List V × StrMap V → List V × StrMap V
  | [], acc => acc
  | (joint_name, joint_value) :: rest, (q, joints) =>
    let r := setJointValuesHelper env q joint_name joint_value
    setJointValuesLoop env rest
      (r.1, if r.2 then StrMap.assign joints joint_name joint_value else joints)

/-- Model of the range insert `m.insert(first, last)`. -/
def insertRange (m : StrMap V) : List (String × V) → StrMap V
  | [] => m
  | (k, v) :: rest => insertRange (StrMap.insert m k v) rest

/-- Model of `setState(const std::map<const std::string, double>& joints)`. -/
def setStateMap [Inhabited V] [Mul P] [One P] (env : BulletEnv V P G)
    (joints : StrMap V) : BulletEnv V P G :=
  let inserted := insertRange env.current_state_.joints joints
  let r := setJointValuesLoop env joints (env.kdl_jnt_array_, inserted)
  { env with
    kdl_jnt_array_ := r.1
    current_state_ :=
      { joints := r.2
        transforms :=
          calculateTransforms env.current_state_.transforms r.1 env.getRootSegment 1 } }

/-- Model of `setState(joint_names, joint_values)`; entry `i` of the names is
paired with entry `i` of the values (the values are at least as many as the
names). -/
def setStateNames [Inhabited V] [Mul P] [One P] (env : BulletEnv V P G)
    (joint_names : List String) (joint_values : List V) : BulletEnv V P G :=
  let r := setJointValuesLoop env (List.zip joint_names joint_values)
    (env.kdl_jnt_array_, env.current_state_.joints)
  { env with
    kdl_jnt_array_ := r.1
    current_state_ :=
      { joints := r.2
        transforms :=
          calculateTransforms env.current_state_.transforms r.1 env.getRootSegment 1 } }

/-- Model of `getState(const std::map<const std::string, double>& joints)`. -/
def getStateMap [Inhabited V] [Mul P] [One P] (env : BulletEnv V P G)
    (joints : StrMap V) : EnvState V P :=
  let r := setJointValuesLoop env joints (env.kdl_jnt_array_, env.current_state_.joints)
  { joints := r.2
    transforms := calculateTransforms env.current_state_.transforms r.1 env.getRootSegment 1 }

/-- Model of `getState(joint_names, joint_values)`. -/
def getStateNames [Inhabited V] [Mul P] [One P] (env : BulletEnv V P G)
    (joint_names : List String) (joint_values : List V) : EnvState V P :=
  let r := setJointValuesLoop env (List.zip joint_names joint_values)
    (env.kdl_jnt_array_, env.current_state_.joints)
  { joints := r.2
    transforms := calculateTransforms env.current_state_.transforms r.1 env.getRootSegment 1 }

/-- Model of `getCurrentJointValues()`: the values of the joints map of the
current state, in the order of the map. -/
def getCurrentJointValues (env : BulletEnv V P G) : List V :=
  env.current_state_.joints.map Prod.snd

/-- Model of `getLinkTransform(link_name)`, which reads
`current_state_->transforms[link_name]`: the transform returned and the
environment afterwards.  `default` stands for a default-constructed
`Eigen::Affine3d`. -/
def getLinkTransform [Inhabited P] (env : BulletEnv V P G) (link_name : String) :
    P × BulletEnv V P G :=
  let r := StrMap.index env.current_state_.transforms link_name default
  (r.1, { env with current_state_ := { env.current_state_ with transforms := r.2 } })

/-- The loop of `getCurrentJointValues(manipulator_name)` over the joint names
of the manipulator: entry `j` of the result is `current_state_->joints[name_j]`. -/
def jointValuesLoop [Zero V] : List String → StrMap V → List V × StrMap V
  | [], joints => ([], joints)
  | joint_name :: rest, joints =>
    let r := StrMap.index joints joint_name 0
    let r2 := jointValuesLoop rest r.2
    (r.1 :: r2.1, r2.2)

/-- Model of `getCurrentJointValues(manipulator_name)`: the vector returned
(empty for an unknown manipulator) and the environment afterwards. -/
def getCurrentJointValuesOf [Zero V] (env : BulletEnv V P G) (manipulator_name : String) :
    List V × BulletEnv V P G :=
  match StrMap.find env.manipulators_ manipulator_name with
  | some manip =>
    let r := jointValuesLoop manip.joint_names env.current_state_.joints
    (r.1, { env with current_state_ := { env.current_state_ with joints := r.2 } })
  | none => ([], env)

/-- Model of `addAttachableObject(attachable_object)`, with the messages it
hands to the log. -/
def addAttachableObject (env : BulletEnv V P G) (attachable_object : AttachableObject G) :
    BulletEnv V P G × List RosLog :=
  match StrMap.find env.attachable_objects_ attachable_object.name with
  | some _ => (env, [RosLog.error])
  | none =>
    ({ env with
       attachable_objects_ :=
         StrMap.insert env.attachable_objects_ attachable_object.name attachable_object }, [])

/-- Model of `attachBody(attached_body_info)`, with the messages it hands to
the log.  The iterator `it` is the entry found under the name right after the
insertion; the collision object is built from it and stored under its ID.
The last case stands for the source's `else` branch (no collision object);
it is never taken, as the lookup right after the insertion succeeds. -/
def attachBody (BULLET_DEFAULT_CONTACT_DISTANCE : V) (env : BulletEnv V P G)
    (attached_body_info : AttachedBodyInfo) : BulletEnv V P G × List RosLog :=
  match StrMap.find env.attached_bodies_ attached_body_info.name,
        StrMap.find env.attachable_objects_ attached_body_info.object_name with
  | some _, _ => (env, [RosLog.error])
  | none, none => (env, [RosLog.error])
  | none, some obj =>
    let attached_body : AttachedBody G := { info := attached_body_info, obj := obj }
    let bodies := StrMap.insert env.attached_bodies_ attached_body_info.name attached_body
    match StrMap.find bodies attached_body_info.name with
    | some it =>
      let new_cow :=
        COW.setContactDistance (COW.ofAttachedBody it) BULLET_DEFAULT_CONTACT_DISTANCE
      ({ env with
         attached_bodies_ := bodies
         attached_link2cow_ := StrMap.assign env.attached_link2cow_ new_cow.getID new_cow },
       [RosLog.debug])
    | none => ({ env with attached_bodies_ := bodies }, [RosLog.warn])

/-- Model of `getAttachedBody(name)`: the body is looked up, a failed lookup is
reported through `ROS_ERROR`, and in either case `body->second` is returned,
which reads through `end()` when the lookup failed. -/
def getAttachedBody (env : BulletEnv V P G) (name : String) :
    Access (AttachedBody G) × List RosLog :=
  let body := StrMap.find env.attached_bodies_ name
  (Access.ofIterator body, if body.isNone then [RosLog.error] else [])

/-- The narrow phase as the engine drives it, taken from outside: for a
discrete query the result map it fills for the objects built from the state
(`constructBulletObject`, `processCollisionObjects`, `contactDiscreteTest`),
for a continuous query the one for the objects built from the two states
(`contactCastTest`). -/
structure NarrowPhase (V P G : Type) where
  discrete : BulletEnv V P G → EnvState V P → DistanceRequest V → BulletDistanceMap V
  continuous : BulletEnv V P G → EnvState V P → EnvState V P → DistanceRequest V →
    BulletDistanceMap V

/-- Model of `(v.array().isNaN()).all()`: every component is NaN. -/
def allNaN (isNaN : V → Bool) (v : Vector3 V) : Bool :=
  isNaN v.x && isNaN v.y && isNaN v.z

/-- The link name put into a slot of a result: for a side of body type
`ROBOT_ATTACHED` the parent link name read from `getAttachedBody(name)`,
for any other side the name itself. -/
def resultLinkName (env : BulletEnv V P G) (body_type : BodyType) (link_name : String) :
    Access String :=
  if body_type = BodyType.ROBOT_ATTACHED then
    (getAttachedBody env link_name).1.map (fun body => body.info.parent_link_name)
  else Access.value link_name

/-- The body of the conversion loop of `calcDistancesDiscrete`: the
`DistanceResult` made of one narrow-phase result `it`. -/
def toDistanceResultDiscrete [Inhabited V] (isNaN : V → Bool) (env : BulletEnv V P G)
    (it : BulletDistanceResult V) : DistanceResult V :=
  let d : DistanceResult V := default
  let d := { d with distance := it.distance, valid := true }
  let d := { d with
    link_names := (resultLinkName env it.body_types.1 it.link_names.1,
      resultLinkName env it.body_types.2 it.link_names.2) }
  let d := { d with nearest_points := it.nearest_points, normal := it.normal }
  if allNaN isNaN d.nearest_points.1 || allNaN isNaN d.nearest_points.2 ||
      allNaN isNaN d.normal then
    { d with valid := false }
  else d

/-- The body of the conversion loop of `calcDistancesContinuous`. -/
def toDistanceResultContinuous [Inhabited V] (isNaN : V → Bool) (env : BulletEnv V P G)
    (it : BulletDistanceResult V) : DistanceResult V :=
  let d : DistanceResult V := default
  let d := { d with distance := it.distance, valid := true }
  let d := { d with
    link_names := (resultLinkName env it.body_types.1 it.link_names.1,
      resultLinkName env it.body_types.2 it.link_names.2) }
  let d := { d with
    nearest_points := it.nearest_points, normal := it.normal, cc_type := it.cc_type,
    cc_nearest_points := it.cc_nearest_points, cc_time := it.cc_time }
  let d :=
    if allNaN isNaN d.nearest_points.1 || allNaN isNaN d.nearest_points.2 ||
        allNaN isNaN d.normal then
      { d with valid := false }
    else d
  if decide (d.cc_type ≠ ContinouseCollisionType.CCType_None) &&
      (allNaN isNaN d.cc_nearest_points.1 || allNaN isNaN d.cc_nearest_points.2) then
    { d with valid := false }
  else d

/-- Model of `calcDistancesDiscrete(req, dists)`: the state of the request is
built, the narrow phase fills its result map, and every result of the map is
converted and pushed onto `dists`. -/
def calcDistancesDiscrete [Inhabited V] [Mul P] [One P] (isNaN : V → Bool)
    (narrow : NarrowPhase V P G) (env : BulletEnv V P G) (req : DistanceRequest V)
    (dists : List (DistanceResult V)) : List (DistanceResult V) :=
  let state := getStateNames env req.joint_names req.joint_angles1
  let res := narrow.discrete env state req
  dists ++ res.flatMap (fun pair => pair.2.map (toDistanceResultDiscrete isNaN env))

/-- Model of `calcDistancesContinuous(req, dists)`. -/
def calcDistancesContinuous [Inhabited V] [Mul P] [One P] (isNaN : V → Bool)
    (narrow : NarrowPhase V P G) (env : BulletEnv V P G) (req : DistanceRequest V)
    (dists : List (DistanceResult V)) : List (DistanceResult V) :=
  let state1 := getStateNames env req.joint_names req.joint_angles1
  let state2 := getStateNames env req.joint_names req.joint_angles2
  let res := narrow.continuous env state1 state2 req
  dists ++ res.flatMap (fun pair => pair.2.map (toDistanceResultContinuous isNaN env))

/-- Model of `calcCollisionsDiscrete(req, collisions)`. -/
def calcCollisionsDiscrete [Inhabited V] [Mul P] [One P] (isNaN : V → Bool)
    (narrow : NarrowPhase V P G) (env : BulletEnv V P G) (req : DistanceRequest V)
    (collisions : List (DistanceResult V)) : List (DistanceResult V) :=
  calcDistancesDiscrete isNaN narrow env req collisions

/-- Model of `calcCollisionsContinuous(req, collisions)`. -/
def calcCollisionsContinuous [Inhabited V] [Mul P] [One P] (isNaN : V → Bool)
    (narrow : NarrowPhase V P G) (env : BulletEnv V P G) (req : DistanceRequest V)
    (collisions : List (DistanceResult V)) : List (DistanceResult V) :=
  calcDistancesContinuous isNaN narrow env req collisions

/-- Model of `getAllowedCollisions()`. -/
def getAllowedCollisions (env : BulletEnv V P G) : ROSAllowedCollisionMatrix :=
  env.allowed_collision_matrix_

/-- What a call of the single-result overload of
`continuousCollisionCheckTrajectory` does: the value returned, the result
written to `collision` (`none` when nothing is written), and the requests
handed to `calcCollisionsContinuous`, in order. -/
structure TrajectoryCheckSingle (V : Type) where
  found : Bool
  collision : Option (DistanceResult V)
  queries : List (DistanceRequest V)
  deriving DecidableEq, Repr

/-- The loop of the single-result overload from step `iStep` on: `row` is
`traj.row(iStep)` and the list holds the rows after it. -/
def singleLoop [Inhabited V] [Mul P] [One P] (isNaN : V → Bool) (narrow : NarrowPhase V P G)
    (env : BulletEnv V P G) :
    List V → List (List V) → DistanceRequest V → List (DistanceResult V) →
      List (DistanceRequest V) → TrajectoryCheckSingle V
  | _, [], _, _, issued => { found := false, collision := none, queries := issued }
  | row, next :: rest, req, collisions, issued =>
    let req := { req with joint_angles1 := row, joint_angles2 := next }
    let collisions := calcCollisionsContinuous isNaN narrow env req collisions
    if collisions.length > 0 then
      { found := true, collision := collisions.head?, queries := issued ++ [req] }
    else singleLoop isNaN narrow env next rest req collisions (issued ++ [req])

/-- Model of `continuousCollisionCheckTrajectory(joint_names, link_names, traj,
DistanceResult& collision)`; `traj` is the list of the rows. -/
def continuousCollisionCheckTrajectorySingle [Inhabited V] [Mul P] [One P]
    (isNaN : V → Bool) (narrow : NarrowPhase V P G) (env : BulletEnv V P G)
    (joint_names link_names : List String) (traj : List (List V)) :
    TrajectoryCheckSingle V :=
  let req : DistanceRequest V := default
  let req := { req with
    type := DistanceRequestType.SINGLE, joint_names := joint_names,
    link_names := link_names, acm := env.getAllowedCollisions }
  match traj with
  | [] => { found := false, collision := none, queries := [] }
  | row :: rest => singleLoop isNaN narrow env row rest req [] []

/-- What a call of the result-vector overload does: the value returned, the
vector `collisions` afterwards, and the requests handed to
`calcCollisionsContinuous`, in order. -/
structure TrajectoryCheckAll (V : Type) where
  found : Bool
  collisions : List (DistanceResult V)
  queries : List (DistanceRequest V)
  deriving DecidableEq, Repr

/-- The loop of the result-vector overload from step `iStep` on. -/
def allLoop [Inhabited V] [Mul P] [One P] (isNaN : V → Bool) (narrow : NarrowPhase V P G)
    (env : BulletEnv V P G) :
    List V → List (List V) → DistanceRequest V → Bool → List (DistanceResult V) →
      List (DistanceRequest V) → TrajectoryCheckAll V
  | _, [], _, found, collisions, issued =>
    { found := found, collisions := collisions, queries := issued }
  | row, next :: rest, req, found, collisions, issued =>
    let req := { req with joint_angles1 := row, joint_angles2 := next }
    let collisions := calcCollisionsContinuous isNaN narrow env req collisions
    allLoop isNaN narrow env next rest req (if collisions.length > 0 then true else found)
      collisions (issued ++ [req])

/-- Model of `continuousCollisionCheckTrajectory(joint_names, link_names, traj,
DistanceResultVector& collisions)`. -/
def continuousCollisionCheckTrajectoryAll [Inhabited V] [Mul P] [One P]
    (isNaN : V → Bool) (narrow : NarrowPhase V P G) (env : BulletEnv V P G)
    (joint_names link_names : List String) (traj : List (List V))
    (collisions : List (DistanceResult V)) : TrajectoryCheckAll V :=
  let req : DistanceRequest V := default
  let req := { req with
    type := DistanceRequestType.ALL, joint_names := joint_names,
    link_names := link_names, acm := env.getAllowedCollisions }
  match traj with
  | [] => { found := false, collisions := collisions, queries := [] }
  | row :: rest => allLoop isNaN narrow env row rest req false collisions []

/-- The segments of a trajectory: the pairs of adjacent rows, in order. -/
def segments (traj : List (List V)) : List (List V × List V) :=
  List.zip traj traj.tail

/-- The request of a trajectory check for one segment. -/
def segmentRequest [Inhabited V] (env : BulletEnv V P G) (type : DistanceRequestType)
    (joint_names link_names : List String) (seg : List V × List V) : DistanceRequest V :=
  { (default : DistanceRequest V) with
    type := type, joint_names := joint_names, link_names := link_names,
    acm := env.getAllowedCollisions, joint_angles1 := seg.1, joint_angles2 := seg.2 }

/-- The results of the continuous query of one segment. -/
def segmentResults [Inhabited V] [Mul P] [One P] (isNaN : V → Bool)
    (narrow : NarrowPhase V P G) (env : BulletEnv V P G) (type : DistanceRequestType)
    (joint_names link_names : List String) (seg : List V × List V) :
    List (DistanceResult V) :=
  calcCollisionsContinuous isNaN narrow env
    (segmentRequest env type joint_names link_names seg) []

/-- Model of `detachBody(name)`. -/
def detachBody (env : BulletEnv V P G) (name : String) : BulletEnv V P G :=
  { env with
    attached_bodies_ := StrMap.erase env.attached_bodies_ name
    attached_link2cow_ := StrMap.erase env.attached_link2cow_ name }

/-- What initialization establishes of the joint bookkeeping and every later
call keeps: distinct joints have distinct indices, every index lies inside
the joint-value array, and every joint of the model has an entry in the
joints map of the current state. -/
structure Initialized (env : BulletEnv V P G) : Prop where
  qnr_injective : ∀ a b q, StrMap.find env.joint_to_qnr_ a = some q →
    StrMap.find env.joint_to_qnr_ b = some q → a = b
  qnr_in_range : ∀ a q, StrMap.find env.joint_to_qnr_ a = some q →
    q < env.kdl_jnt_array_.length
  joints_known : ∀ a q, StrMap.find env.joint_to_qnr_ a = some q →
    (StrMap.find env.current_state_.joints a).isSome = true

/-- Model of `kdl_tree_->getSegments()`: the segment map of the tree, keyed by
segment name. -/
def getSegments (tree : TreeElement V P) : StrMap (TreeElement V P) :=
  (TreeElement.elements tree).foldl (fun m e => StrMap.insert m e.segment.name e) []

/-- Model of `kdl_tree_->getNrOfJoints()`: the number of segments whose joint
is not of type `None`. -/
def getNrOfJoints (tree : TreeElement V P) : Nat :=
  ((TreeElement.elements tree).filter (fun e => !e.segment.joint_none)).length

/-- The loop of `init` over the segments: a segment with a joint of type
`None` is skipped; for any other the joint name is inserted into
`joint_to_qnr_` with the segment's `q_nr`, the array entry at `q_nr` is set to
zero, and the joint name is inserted into the joints map with value zero. -/
def initJointsLoop [Zero V] :
    List (String × TreeElement V P) → StrMap Nat × List V × StrMap V →
      StrMap Nat × List V × StrMap V
  | [], acc => acc
  | (_, seg) :: rest, (j2q, arr, joints) =>
    if seg.segment.joint_none then initJointsLoop rest (j2q, arr, joints)
    else
      initJointsLoop rest
        (StrMap.insert j2q seg.segment.joint_name seg.q_nr, arr.set seg.q_nr 0,
          StrMap.insert joints seg.segment.joint_name 0)

/-- Model of the state set-up of `init` once the tree is built (lines 68-83):
the array is resized to the number of joints (new entries are zero), the loop
over the segments fills the bookkeeping, and the transforms are computed from
the root with the identity as parent pose. -/
def initJointState [Inhabited V] [Zero V] [Mul P] [One P] (tree : TreeElement V P) :
    BulletEnv V P G :=
  let r := initJointsLoop (getSegments tree)
    ([], List.replicate (getNrOfJoints tree) 0, [])
  { kdl_tree_ := tree
    joint_to_qnr_ := r.1
    kdl_jnt_array_ := r.2.1
    current_state_ :=
      { joints := r.2.2
        transforms := calculateTransforms [] r.2.1 (some tree) 1 } }

/-- What the tree builder guarantees of the joint indices: two segments with
moving joints and the same `q_nr` have the same joint, and every `q_nr` of a
moving joint is below the number of joints. -/
structure JointIndicesWellFormed (tree : TreeElement V P) : Prop where
  qnr_distinct : ∀ n1 e1 n2 e2, (n1, e1) ∈ getSegments tree → (n2, e2) ∈ getSegments tree →
    e1.segment.joint_none = false → e2.segment.joint_none = false →
    e1.q_nr = e2.q_nr → e1.segment.joint_name = e2.segment.joint_name
  qnr_in_range : ∀ n e, (n, e) ∈ getSegments tree → e.segment.joint_none = false →
    e.q_nr < getNrOfJoints tree

/-- A call that changes the attachment state of the environment. -/
inductive AttachOp (G : Type) where
  | addAttachableObject (attachable_object : AttachableObject G)
  | attachBody (attached_body_info : AttachedBodyInfo)
  | detachBody (name : String)

/-- The environment after one attachment call. -/
def applyAttachOp (BULLET_DEFAULT_CONTACT_DISTANCE : V) (env : BulletEnv V P G) :
    AttachOp G → BulletEnv V P G
  | AttachOp.addAttachableObject o => (addAttachableObject env o).1
  | AttachOp.attachBody info => (attachBody BULLET_DEFAULT_CONTACT_DISTANCE env info).1
  | AttachOp.detachBody name => detachBody env name

/-- The environment after a sequence of attachment calls. -/
def applyAttachOps (BULLET_DEFAULT_CONTACT_DISTANCE : V) (env : BulletEnv V P G)
    (ops : List (AttachOp G)) : BulletEnv V P G :=
  ops.foldl (applyAttachOp BULLET_DEFAULT_CONTACT_DISTANCE) env

/-- The attached-body map and the collision-object registry are in step: every
body is stored under its own name, and the registry holds under each name the
collision object built from the body stored under that name, with the default
contact distance (and nothing where no body is stored). -/
def RegistryInStep (BULLET_DEFAULT_CONTACT_DISTANCE : V) (env : BulletEnv V P G) : Prop :=
  ∀ k : String,
    (∀ b, StrMap.find env.attached_bodies_ k = some b → b.info.name = k) ∧
    StrMap.find env.attached_link2cow_ k =
      (StrMap.find env.attached_bodies_ k).map
        (fun b => COW.setContactDistance (COW.ofAttachedBody b)
          BULLET_DEFAULT_CONTACT_DISTANCE)

end BulletEnv

/-! ## Collision object builders (`constructBulletObject`) -/

/-- Modelled from the spec: the broad-phase filter bit of static objects
(`btBroadphaseProxy::StaticFilter`). -/
def StaticFilter : Nat := 2

/-- Modelled from the spec: the broad-phase filter bit of kinematic objects
(`btBroadphaseProxy::KinematicFilter`). -/
def KinematicFilter : Nat := 4

/-- Modelled from the spec: `a.inverseTimes(b)` of a `btTransform`, the inverse
of `a` times `b`. -/
def inverseTimes {B : Type} [Inv B] [Mul B] (a b : B) : B := a⁻¹ * b

/-- The collision shape of a registry object as the builders tell shapes
apart: a convex shape, a compound of children (local transform, child shape),
or any other kind.  `S` is the type of shape handles, `B` of `btTransform`. -/
inductive BtShape (S B : Type) where
  | convex (shape : S)
  | compound (children : List (B × S))
  | other (shape : S)
  deriving DecidableEq, Repr

/-- The shape of a collision object a builder has made: the shape of the
registry object, a `CastHullShape` of a convex shape with a relative
transform, or a new compound of such cast shapes, each child with its local
transform. -/
inductive BuiltShape (S B : Type) where
  | unchanged (shape : BtShape S B)
  | castHull (convex : S) (t : Access B)
  | castCompound (children : List (B × S × Access B))
  deriving DecidableEq, Repr

/-- A collision object as a builder hands it to the query: the clone of a
registry object with its shape, the world transform (`none` as long as the
builder has not set it) and the filter group and mask. -/
structure TransientCOW (V G S B : Type) where
  cow : COW V G
  shape : BuiltShape S B
  world_transform : Option (Access B) := none
  m_collisionFilterGroup : Nat := 0
  m_collisionFilterMask : Nat := 0
  deriving DecidableEq, Repr

/-- Modelled from the spec: the group/mask rule of the broad phase, a pair is a
candidate only when each object's group meets the other's mask. -/
def needsCollision {V G S B : Type} (a b : TransientCOW V G S B) : Bool :=
  (a.m_collisionFilterGroup &&& b.m_collisionFilterMask != 0) &&
    (b.m_collisionFilterGroup &&& a.m_collisionFilterMask != 0)

/-- What a builder fills: the transient map of collision objects, the list of
active objects, and the messages handed to the log. -/
structure BuilderOutput (V G S B : Type) where
  collision_objects : StrMap (TransientCOW V G S B) := []
  active_objects : List String := []
  log : List RosLog := []
  deriving DecidableEq, Repr

namespace BulletEnv

variable {V P G S B : Type}

/-- The test both builders make for a link name: the list of active links is
not empty and does not hold the name. -/
def isStaticLink (active_links : List String) (link_name : String) : Bool :=
  !active_links.isEmpty && !active_links.contains link_name

/-- Model of `convertEigenToBt(state->transforms.find(link_name)->second)`. -/
def lookupTransform (convertEigenToBt : P → B) (state : EnvState V P) (link_name : String) :
    Access B :=
  (Access.ofIterator (StrMap.find state.transforms link_name)).map convertEigenToBt

/-- Model of `element.second->ptr.m_ab->info.parent_link_name` for an entry of
the attached-body registry.  The registry holds objects made of attached
bodies only; for an object made of a link the name of the link stands in. -/
def parentLinkName (cow : COW V G) : String :=
  match cow.ptr with
  | COWSource.m_ab ab => ab.info.parent_link_name
  | COWSource.m_link n => n

/-- The body of the loops of the discrete builder for the registry entry
`key ↦ source`: the clone is posed at the transform of `frame` (the link
itself, or the parent link of an attached body), gets its group and mask, is
put on the list of active objects unless static, gets the contact distance
and is stored under `key`. -/
def discreteStep (convertEigenToBt : P → B) (getCollisionShape : COW V G → BtShape S B)
    (contact_distance : V) (state : EnvState V P) (active_links : List String)
    (continuous : Bool) (key frame : String) (source : COW V G)
    (acc : BuilderOutput V G S B) : BuilderOutput V G S B :=
  let new_cow : TransientCOW V G S B :=
    { cow := source, shape := BuiltShape.unchanged (getCollisionShape source) }
  let new_cow := { new_cow with
    world_transform := some (lookupTransform convertEigenToBt state frame) }
  let new_cow := { new_cow with
    m_collisionFilterGroup :=
      if isStaticLink active_links frame then StaticFilter else KinematicFilter }
  let r : TransientCOW V G S B × List String :=
    if new_cow.m_collisionFilterGroup = StaticFilter then
      ({ new_cow with m_collisionFilterMask := KinematicFilter }, acc.active_objects)
    else
      ({ new_cow with
         m_collisionFilterMask :=
           if continuous then StaticFilter else StaticFilter ||| KinematicFilter },
       acc.active_objects ++ [key])
  let new_cow := { r.1 with cow := COW.setContactDistance r.1.cow contact_distance }
  { acc with
    collision_objects := StrMap.assign acc.collision_objects key new_cow
    active_objects := r.2 }

/-- The collision object the discrete builder stores for a registry object
`source` posed by the link `frame`, written out field by field. -/
def discreteEntry (convertEigenToBt : P → B) (getCollisionShape : COW V G → BtShape S B)
    (contact_distance : V) (state : EnvState V P) (active_links : List String)
    (continuous : Bool) (frame : String) (source : COW V G) : TransientCOW V G S B :=
  { cow := COW.setContactDistance source contact_distance
    shape := BuiltShape.unchanged (getCollisionShape source)
    world_transform := some (lookupTransform convertEigenToBt state frame)
    m_collisionFilterGroup :=
      if isStaticLink active_links frame then StaticFilter else KinematicFilter
    m_collisionFilterMask :=
      if isStaticLink active_links frame then KinematicFilter
      else if continuous then StaticFilter else StaticFilter ||| KinematicFilter }

/-- The loop of the discrete builder over `robot_link2cow_`. -/
def discreteRobotLoop (convertEigenToBt : P → B) (getCollisionShape : COW V G → BtShape S B)
    (contact_distance : V) (state : EnvState V P) (active_links : List String)
    (continuous : Bool) :
    List (String × COW V G) → BuilderOutput V G S B → BuilderOutput V G S B
  | [], acc => acc
  | (key, source) :: rest, acc =>
    discreteRobotLoop convertEigenToBt getCollisionShape contact_distance state active_links
      continuous rest
      (discreteStep convertEigenToBt getCollisionShape contact_distance state active_links
        continuous key key source acc)

/-- The loop of the discrete builder over `attached_link2cow_`. -/
def discreteAttachedLoop (convertEigenToBt : P → B)
    (getCollisionShape : COW V G → BtShape S B) (contact_distance : V) (state : EnvState V P)
    (active_links : List String) (continuous : Bool) :
    List (String × COW V G) → BuilderOutput V G S B → BuilderOutput V G S B
  | [], acc => acc
  | (key, source) :: rest, acc =>
    discreteAttachedLoop convertEigenToBt getCollisionShape contact_distance state
      active_links continuous rest
      (discreteStep convertEigenToBt getCollisionShape contact_distance state active_links
        continuous key (parentLinkName source) source acc)

/-- Model of `constructBulletObject(collision_objects, active_objects,
contact_distance, state, active_links, continuous)`, the builder of the
discrete query. -/
def constructBulletObjectDiscrete (convertEigenToBt : P → B)
    (getCollisionShape : COW V G → BtShape S B) (env : BulletEnv V P G)
    (acc : BuilderOutput V G S B) (contact_distance : V) (state : EnvState V P)
    (active_links : List String) (continuous : Bool) : BuilderOutput V G S B :=
  discreteAttachedLoop convertEigenToBt getCollisionShape contact_distance state active_links
    continuous env.attached_link2cow_
    (discreteRobotLoop convertEigenToBt getCollisionShape contact_distance state active_links
      continuous env.robot_link2cow_ acc)

/-- The swept shape and the pose the continuous builder gives an active clone,
from the shape of the clone and the transforms `tf1`, `tf2` of its frame in
the two states: a convex shape becomes a cast shape with the relative
transform `tf1.inverseTimes(tf2)`; a compound becomes a compound of cast
children, child `i` with the relative transform of `tf1 * g_i` and
`tf2 * g_i`; both are posed at `tf1`.  For any other shape there is none. -/
def sweptShape [Inv B] [Mul B] (shape : BtShape S B) (tf1 tf2 : Access B) :
    Option (BuiltShape S B × Access B) :=
  match shape with
  | BtShape.convex convex =>
    some (BuiltShape.castHull convex (Access.map2 inverseTimes tf1 tf2), tf1)
  | BtShape.compound children =>
    some (BuiltShape.castCompound
        (children.map (fun child =>
          (child.1, child.2,
            Access.map2 (fun a b => inverseTimes (a * child.1) (b * child.1)) tf1 tf2))),
      tf1)
  | BtShape.other _ => none

/-- The body of the loops of the continuous builder for the registry entry
`key ↦ source`, with `frame` the link whose transforms pose it.  A static
clone is posed at the transform of the first state; an active one is put on
the list of active objects and, when its shape is convex or compound, gets
the swept shape and the pose of the first state, while for any other shape
the error is reported and shape and pose are left as they are. -/
def continuousStep [Inv B] [Mul B] (convertEigenToBt : P → B)
    (getCollisionShape : COW V G → BtShape S B) (contact_distance : V)
    (state1 state2 : EnvState V P) (active_links : List String) (key frame : String)
    (source : COW V G) (acc : BuilderOutput V G S B) : BuilderOutput V G S B :=
  let new_cow : TransientCOW V G S B :=
    { cow := source, shape := BuiltShape.unchanged (getCollisionShape source) }
  let new_cow := { new_cow with
    m_collisionFilterGroup :=
      if isStaticLink active_links frame then StaticFilter else KinematicFilter }
  let r : TransientCOW V G S B × List String × List RosLog :=
    if new_cow.m_collisionFilterGroup = StaticFilter then
      ({ new_cow with
         world_transform := some (lookupTransform convertEigenToBt state1 frame)
         m_collisionFilterMask := KinematicFilter },
       acc.active_objects, [])
    else
      let swept :=
        match sweptShape (getCollisionShape source)
            (lookupTransform convertEigenToBt state1 frame)
            (lookupTransform convertEigenToBt state2 frame) with
        | some (shape, tf1) =>
          ({ new_cow with shape := shape, world_transform := some tf1 }, [])
        | none => (new_cow, [RosLog.error])
      ({ swept.1 with m_collisionFilterMask := StaticFilter },
       acc.active_objects ++ [key], swept.2)
  let new_cow := { r.1 with cow := COW.setContactDistance r.1.cow contact_distance }
  { collision_objects := StrMap.assign acc.collision_objects key new_cow
    active_objects := r.2.1
    log := acc.log ++ r.2.2 }

/-- The collision object the continuous builder stores for a registry object
`source` posed by the link `frame`, written out case by case. -/
def continuousEntry [Inv B] [Mul B] (convertEigenToBt : P → B)
    (getCollisionShape : COW V G → BtShape S B) (contact_distance : V)
    (state1 state2 : EnvState V P) (active_links : List String) (frame : String)
    (source : COW V G) : TransientCOW V G S B :=
  if isStaticLink active_links frame then
    { cow := COW.setContactDistance source contact_distance
      shape := BuiltShape.unchanged (getCollisionShape source)
      world_transform := some (lookupTransform convertEigenToBt state1 frame)
      m_collisionFilterGroup := StaticFilter
      m_collisionFilterMask := KinematicFilter }
  else
    match sweptShape (getCollisionShape source)
        (lookupTransform convertEigenToBt state1 frame)
        (lookupTransform convertEigenToBt state2 frame) with
    | some (shape, tf1) =>
      { cow := COW.setContactDistance source contact_distance
        shape := shape
        world_transform := some tf1
        m_collisionFilterGroup := KinematicFilter
        m_collisionFilterMask := StaticFilter }
    | none =>
      { cow := COW.setContactDistance source contact_distance
        shape := BuiltShape.unchanged (getCollisionShape source)
        world_transform := none
        m_collisionFilterGroup := KinematicFilter
        m_collisionFilterMask := StaticFilter }

/-- The messages the continuous builder reports for a registry object: an
error for an active object whose shape is neither convex nor compound. -/
def continuousReport (getCollisionShape : COW V G → BtShape S B)
    (active_links : List String) (frame : String) (source : COW V G) : List RosLog :=
  if isStaticLink active_links frame then []
  else
    match getCollisionShape source with
    | BtShape.other _ => [RosLog.error]
    | _ => []

/-- The loop of the continuous builder over `robot_link2cow_`. -/
def continuousRobotLoop [Inv B] [Mul B] (convertEigenToBt : P → B)
    (getCollisionShape : COW V G → BtShape S B) (contact_distance : V)
    (state1 state2 : EnvState V P) (active_links : List String) :
    List (String × COW V G) → BuilderOutput V G S B → BuilderOutput V G S B
  | [], acc => acc
  | (key, source) :: rest, acc =>
    continuousRobotLoop convertEigenToBt getCollisionShape contact_distance state1 state2
      active_links rest
      (continuousStep convertEigenToBt getCollisionShape contact_distance state1 state2
        active_links key key source acc)

/-- The loop of the continuous builder over `attached_link2cow_`. -/
def continuousAttachedLoop [Inv B] [Mul B] (convertEigenToBt : P → B)
    (getCollisionShape : COW V G → BtShape S B) (contact_distance : V)
    (state1 state2 : EnvState V P) (active_links : List String) :
    List (String × COW V G) → BuilderOutput V G S B → BuilderOutput V G S B
  | [], acc => acc
  | (key, source) :: rest, acc =>
    continuousAttachedLoop convertEigenToBt getCollisionShape contact_distance state1 state2
      active_links rest
      (continuousStep convertEigenToBt getCollisionShape contact_distance state1 state2
        active_links key (parentLinkName source) source acc)

/-- Model of `constructBulletObject(collision_objects, active_objects,
contact_distance, state1, state2, active_links)`, the builder of the
continuous query. -/
def constructBulletObjectContinuous [Inv B] [Mul B] (convertEigenToBt : P → B)
    (getCollisionShape : COW V G → BtShape S B) (env : BulletEnv V P G)
    (acc : BuilderOutput V G S B) (contact_distance : V) (state1 state2 : EnvState V P)
    (active_links : List String) : BuilderOutput V G S B :=
  continuousAttachedLoop convertEigenToBt getCollisionShape contact_distance state1 state2
    active_links env.attached_link2cow_
    (continuousRobotLoop convertEigenToBt getCollisionShape contact_distance state1 state2
      active_links env.robot_link2cow_ acc)

end BulletEnv

/-! ## Trajectory display (`plotTrajectory`) -/

namespace BulletEnv

variable {V P G : Type}

/-- The inner loop of the second double loop of `plotTrajectory` for the
columns `j` still to visit: each step evaluates
`joint_to_qnr_[joint_names[j]]`, a read of the map through `operator[]`.
The result is `none` when a column has no name in `joint_names`. -/
def plotTrajectoryCols (joint_names : List String) :
    List Nat → StrMap Nat → Option (StrMap Nat)
  | [], joint_to_qnr => some joint_to_qnr
  | j :: rest, joint_to_qnr =>
    match joint_names.get? j with
    | none => none
    | some joint_name =>
      plotTrajectoryCols joint_names rest (StrMap.index joint_to_qnr joint_name 0).2

/-- The outer loop of the second double loop of `plotTrajectory` over the rows
of `traj`; every row has `traj.cols()` entries. -/
def plotTrajectoryRows (joint_names : List String) :
    List (List V) → StrMap Nat → Option (StrMap Nat)
  | [], joint_to_qnr => some joint_to_qnr
  | row :: rest, joint_to_qnr =>
    match plotTrajectoryCols joint_names (List.range row.length) joint_to_qnr with
    | none => none
    | some joint_to_qnr => plotTrajectoryRows joint_names rest joint_to_qnr

/-- Model of `plotTrajectory(name, joint_names, traj)` as far as it acts on the
members of the environment: the environment after the call.  The message that
is built and published is left out; the first double loop only reads
`joint_to_qnr_` and `kdl_jnt_array_`. -/
def plotTrajectory (env : BulletEnv V P G) (_name : String) (joint_names : List String)
    (traj : List (List V)) : Option (BulletEnv V P G) :=
  (plotTrajectoryRows joint_names traj env.joint_to_qnr_).map
    (fun joint_to_qnr => { env with joint_to_qnr_ := joint_to_qnr })

end BulletEnv

/-! ## Cartesian velocity term (`kinematic_terms.cpp`) -/

/-- The members of a `CartVelCalculator`.  Of the manipulator `manip_` the
calculator uses `numJoints()` and `calcFwdKin(joint_angles, pose, link_name)`;
the latter is taken from outside, as the translation of the pose it fills. -/
structure CartVelCalculator (R : Type) where
  numJoints : Nat
  calcFwdKin : List R → String → Vector3 R
  link_ : String
  limit_ : R

namespace CartVelCalculator

variable {R : Type}

/-- Model of `v.topRows(n)`: the first `n` entries. -/
def topRows (v : List R) (n : Nat) : List R := v.take n

/-- Model of `v.bottomRows(n)`: the last `n` entries. -/
def bottomRows (v : List R) (n : Nat) : List R := v.drop (v.length - n)

/-- Model of `CartVelCalculator::operator()(dof_vals)`: the six entries of
`out`. -/
def apply [Sub R] (c : CartVelCalculator R) (dof_vals : List R) : List R :=
  let n_dof := c.numJoints
  let pose0 := c.calcFwdKin (topRows dof_vals n_dof) c.link_
  let pose1 := c.calcFwdKin (bottomRows dof_vals n_dof) c.link_
  [pose1.x - pose0.x - c.limit_, pose1.y - pose0.y - c.limit_, pose1.z - pose0.z - c.limit_,
   pose0.x - pose1.x - c.limit_, pose0.y - pose1.y - c.limit_, pose0.z - pose1.z - c.limit_]

end CartVelCalculator

/-! ## The environment object and `init` -/

/-- A link of the URDF model as `init` reads it: its name and its collision
geometries. -/
structure UrdfLink (G : Type) where
  name : String
  collision_array : List G
  deriving DecidableEq, Repr

/-- The URDF model as the environment uses it: whether `getRoot()` is
non-null, the links, the tree `kdl_parser::treeFromUrdfModel` builds from the
model (`none` when it fails), and the joint names of the chain between two
links as `KDLChainKin::init` finds them. -/
structure UrdfModel (V P G : Type) where
  root_ : Bool
  links_ : StrMap (UrdfLink G)
  kdl_tree : Option (TreeElement V P)
  chain_joint_names : String → String → List String

/-- A group of the SRDF model: its name and its chains (base link, tip link). -/
structure SrdfGroup where
  name_ : String
  chains_ : List (String × String)
  deriving DecidableEq, Repr

/-- A disabled collision pair of the SRDF model. -/
structure DisabledCollisionPair where
  link1_ : String
  link2_ : String
  reason_ : String
  deriving DecidableEq, Repr

/-- The SRDF model as `init` reads it. -/
structure SrdfModel where
  groups : List SrdfGroup
  disabled_collision_pairs : List DisabledCollisionPair
  deriving DecidableEq, Repr

/-- The `BulletEnv` object with the members that `init` sets first:
`initialized_`, `model_`, and the rest of the members, which are `none` as
long as `kdl_tree_` and `current_state_` are null pointers (no `init` has
succeeded on the object yet). -/
structure BulletEnvObject (V P G : Type) where
  initialized_ : Bool := false
  model_ : Option (UrdfModel V P G) := none
  members : Option (BulletEnv V P G) := none

namespace BulletEnv

variable {V P G : Type}

/-- Modelled from the spec: `new COW(link)`, the collision object of a robot
link. -/
def cowOfLink (link : UrdfLink G) : COW V G := { ptr := COWSource.m_link link.name }

/-- The loop of `init` over `urdf_model->links_`: every link with a collision
geometry gets a collision object with the default contact distance, stored
under its ID; each one is reported through `ROS_DEBUG`. -/
def initRobotLinks (BULLET_DEFAULT_CONTACT_DISTANCE : V) :
    List (String × UrdfLink G) → StrMap (COW V G) × List RosLog →
      StrMap (COW V G) × List RosLog
  | [], acc => acc
  | (_, link) :: rest, (robot_link2cow, log) =>
    if link.collision_array.length > 0 then
      let new_cow :=
        COW.setContactDistance (cowOfLink link) BULLET_DEFAULT_CONTACT_DISTANCE
      initRobotLinks BULLET_DEFAULT_CONTACT_DISTANCE rest
        (StrMap.assign robot_link2cow new_cow.getID new_cow, log ++ [RosLog.debug])
    else initRobotLinks BULLET_DEFAULT_CONTACT_DISTANCE rest (robot_link2cow, log)

/-- Model of `kdl_jnt_array_.resize(n)`: entries kept up to the new size, new
entries zero. -/
def resizeJntArray [Zero V] (q : List V) (n : Nat) : List V :=
  (q ++ List.replicate n 0).take n

/-- The loops of `init` over the groups of the SRDF model: one manipulator per
chain, inserted under the name of the group. -/
def initManipulators (model : UrdfModel V P G) :
    List SrdfGroup → StrMap KDLChainKin → StrMap KDLChainKin
  | [], manipulators => manipulators
  | group :: rest, manipulators =>
    initManipulators model rest
      (group.chains_.foldl
        (fun m chain =>
          StrMap.insert m group.name_
            { base_link := chain.1, tip_link := chain.2, name := group.name_,
              joint_names := model.chain_joint_names chain.1 chain.2 })
        manipulators)

/-- The loop of `init` over the disabled collision pairs of the SRDF model. -/
def initAllowedCollisions :
    List DisabledCollisionPair → ROSAllowedCollisionMatrix → ROSAllowedCollisionMatrix
  | [], acm => acm
  | pair :: rest, acm =>
    initAllowedCollisions rest
      (ROSAllowedCollisionMatrix.addAllowedCollision acm pair.link1_ pair.link2_ pair.reason_)

end BulletEnv

namespace BulletEnvObject

variable {V P G : Type}

open BulletEnv

/-- Model of `init(urdf_model, srdf_model)`: the object afterwards, the value
returned, and the messages handed to the log.  The publishers set up at the
end are left out. -/
def init [Inhabited V] [Zero V] [Mul P] [One P] (BULLET_DEFAULT_CONTACT_DISTANCE : V)
    (obj : BulletEnvObject V P G) (urdf_model : Option (UrdfModel V P G))
    (srdf_model : Option SrdfModel) : BulletEnvObject V P G × Bool × List RosLog :=
  let obj := { obj with initialized_ := false, model_ := urdf_model }
  match urdf_model with
  | none => (obj, obj.initialized_, [RosLog.error])
  | some model =>
    if !model.root_ then (obj, obj.initialized_, [RosLog.error])
    else
      match model.kdl_tree with
      | none => (obj, obj.initialized_, [RosLog.error])
      | some kdl_tree =>
        let env : BulletEnv V P G :=
          match obj.members with
          | some env => { env with kdl_tree_ := kdl_tree }
          | none => { kdl_tree_ := kdl_tree }
        let links := initRobotLinks BULLET_DEFAULT_CONTACT_DISTANCE model.links_
          (env.robot_link2cow_, [])
        let r := initJointsLoop (getSegments kdl_tree)
          (env.joint_to_qnr_, resizeJntArray env.kdl_jnt_array_ (getNrOfJoints kdl_tree), [])
        let env := { env with
          robot_link2cow_ := links.1
          joint_to_qnr_ := r.1
          kdl_jnt_array_ := r.2.1
          current_state_ :=
            { joints := r.2.2
              transforms := calculateTransforms [] r.2.1 (some kdl_tree) 1 } }
        let env :=
          match srdf_model with
          | none => env
          | some srdf =>
            { env with
              manipulators_ := initManipulators model srdf.groups env.manipulators_
              allowed_collision_matrix_ :=
                initAllowedCollisions srdf.disabled_collision_pairs
                  env.allowed_collision_matrix_ }
        ({ obj with initialized_ := true, members := some env }, true, links.2)

/-- Model of the one-argument `init(urdf_model)`: it calls
`init(urdf_model, nullptr)` and ends without a return statement, so no value
is handed back (`none`). -/
def initUrdf [Inhabited V] [Zero V] [Mul P] [One P] (BULLET_DEFAULT_CONTACT_DISTANCE : V)
    (obj : BulletEnvObject V P G) (urdf_model : Option (UrdfModel V P G)) :
    BulletEnvObject V P G × Option Bool × List RosLog :=
  let r := init BULLET_DEFAULT_CONTACT_DISTANCE obj urdf_model none
  (r.1, none, r.2.2)

/-- Model of `checkInitialized()`. -/
def checkInitialized (obj : BulletEnvObject V P G) : Bool := obj.initialized_

/-- `getState(joint_names, joint_values)` on the object: it copies
`*current_state_`, which is a read through a null pointer as long as no
`init` has succeeded. -/
def getState [Inhabited V] [Mul P] [One P] (obj : BulletEnvObject V P G)
    (joint_names : List String) (joint_values : List V) : Access (EnvState V P) :=
  (Access.ofPointer obj.members).map
    (fun env => getStateNames env joint_names joint_values)

/-- `calcDistancesDiscrete(req, dists)` on the object; it starts with
`getState`. -/
def calcDistancesDiscrete [Inhabited V] [Mul P] [One P] (isNaN : V → Bool)
    (narrow : NarrowPhase V P G) (obj : BulletEnvObject V P G) (req : DistanceRequest V)
    (dists : List (DistanceResult V)) : Access (List (DistanceResult V)) :=
  (Access.ofPointer obj.members).map
    (fun env => BulletEnv.calcDistancesDiscrete isNaN narrow env req dists)

/-- `calcDistancesContinuous(req, dists)` on the object; it starts with
`getState`. -/
def calcDistancesContinuous [Inhabited V] [Mul P] [One P] (isNaN : V → Bool)
    (narrow : NarrowPhase V P G) (obj : BulletEnvObject V P G) (req : DistanceRequest V)
    (dists : List (DistanceResult V)) : Access (List (DistanceResult V)) :=
  (Access.ofPointer obj.members).map
    (fun env => BulletEnv.calcDistancesContinuous isNaN narrow env req dists)

/-- The single-result overload of `continuousCollisionCheckTrajectory` on the
object: with fewer than two rows no query is made and false is returned;
otherwise the first query reads `*current_state_`. -/
def continuousCollisionCheckTrajectorySingle [Inhabited V] [Mul P] [One P]
    (isNaN : V → Bool) (narrow : NarrowPhase V P G) (obj : BulletEnvObject V P G)
    (joint_names link_names : List String) (traj : List (List V)) :
    Access (TrajectoryCheckSingle V) :=
  match obj.members with
  | some env =>
    Access.value
      (BulletEnv.continuousCollisionCheckTrajectorySingle isNaN narrow env joint_names
        link_names traj)
  | none =>
    if traj.length ≤ 1 then Access.value { found := false, collision := none, queries := [] }
    else Access.nullDeref

/-- The result-vector overload of `continuousCollisionCheckTrajectory` on the
object. -/
def continuousCollisionCheckTrajectoryAll [Inhabited V] [Mul P] [One P]
    (isNaN : V → Bool) (narrow : NarrowPhase V P G) (obj : BulletEnvObject V P G)
    (joint_names link_names : List String) (traj : List (List V))
    (collisions : List (DistanceResult V)) : Access (TrajectoryCheckAll V) :=
  match obj.members with
  | some env =>
    Access.value
      (BulletEnv.continuousCollisionCheckTrajectoryAll isNaN narrow env joint_names
        link_names traj collisions)
  | none =>
    if traj.length ≤ 1 then
      Access.value { found := false, collisions := collisions, queries := [] }
    else Access.nullDeref

end BulletEnvObject

/-! ## A small concrete environment

A chain `base → link1 → link2` with integer joint values and integer poses
(the product of poses is the product of integers), as left by initialization:
all joint values zero and the transforms computed from them. -/

/-- The segment `link2`, moved by joint `j2` (index 1). -/
def chainLink2 : TreeElement Int Int :=
  TreeElement.mk ⟨"link2", "j2", false, fun q => 3 * q + 1⟩ 1 []

/-- The segment `link1`, moved by joint `j1` (index 0), parent of `link2`. -/
def chainLink1 : TreeElement Int Int :=
  TreeElement.mk ⟨"link1", "j1", false, fun q => q + 2⟩ 0 [chainLink2]

/-- The root segment `base`, whose joint is fixed. -/
def chainTree : TreeElement Int Int :=
  TreeElement.mk ⟨"base", "NoName", true, fun _ => 1⟩ 0 [chainLink1]

/-- The environment of the chain right after initialization: joints `j1` and
`j2` at indices 0 and 1, both at value zero. -/
def chainEnv : BulletEnv Int Int Nat := BulletEnv.initJointState chainTree

/-- An attachable object named `box`. -/
def boxObject : AttachableObject Nat := { name := "box", visual := 0, collision := 0 }

/-- The attach info of a body `gripper_box` made of `box`, mounted on `link2`. -/
def boxInfo : AttachedBodyInfo :=
  { name := "gripper_box", parent_link_name := "link2", object_name := "box",
    touch_links := [] }

/-- The chain environment once `box` is stored and `gripper_box` is attached. -/
def chainEnvAttached : BulletEnv Int Int Nat :=
  (BulletEnv.attachBody 0 (BulletEnv.addAttachableObject chainEnv boxObject).1 boxInfo).1

/-- An environment with a single fixed segment whose numbers are integers or
NaN (`none`). -/
def nanEnv : BulletEnv (Option Int) Int Nat :=
  { kdl_tree_ := TreeElement.mk ⟨"base", "NoName", true, fun _ => 1⟩ 0 [] }

/-- A narrow-phase result between the links `base` and `table` in which only
the first component of the first nearest point and the second component of
the first cast nearest point are NaN. -/
def partlyNaNResult : BulletDistanceResult (Option Int) :=
  { distance := some 1
    body_types := (BodyType.ROBOT_LINK, BodyType.ROBOT_LINK)
    link_names := ("base", "table")
    nearest_points := (⟨none, some 0, some 0⟩, ⟨some 0, some 0, some 1⟩)
    normal := ⟨some 0, some 0, some 1⟩
    cc_type := ContinouseCollisionType.CCType_Between
    cc_nearest_points := (⟨some 0, none, some 0⟩, ⟨some 0, some 0, some 1⟩)
    cc_time := some 0 }

/-- The URDF model of the chain: `link1` and `link2` have a collision
geometry, and the tree builder gives `chainTree`. -/
def chainModel : UrdfModel Int Int Nat :=
  { root_ := true
    links_ := [("base", ⟨"base", []⟩), ("link1", ⟨"link1", [0]⟩), ("link2", ⟨"link2", [0]⟩)]
    kdl_tree := some chainTree
    chain_joint_names := fun _ _ => ["j1", "j2"] }

/-- An object on which no `init` has run. -/
def freshObject : BulletEnvObject Int Int Nat := {}

/-- The object after a successful `init` with the chain model followed by an
`init` with a null model. -/
def staleObject : BulletEnvObject Int Int Nat :=
  (BulletEnvObject.init 0 (BulletEnvObject.init 0 freshObject (some chainModel) none).1
    none none).1

/-- A narrow-phase result between `link1` and `link2` at distance 0. -/
def touchingResult : BulletDistanceResult Int :=
  { distance := 0
    body_types := (BodyType.ROBOT_LINK, BodyType.ROBOT_LINK)
    link_names := ("link1", "link2")
    nearest_points := (⟨0, 0, 0⟩, ⟨0, 0, 0⟩)
    normal := ⟨0, 0, 1⟩
    cc_type := ContinouseCollisionType.CCType_Between
    cc_nearest_points := (⟨0, 0, 0⟩, ⟨0, 0, 0⟩)
    cc_time := 0 }

/-- A narrow phase that finds `touchingResult` in every query. -/
def touchingNarrow : BulletEnv.NarrowPhase Int Int Nat :=
  { discrete := fun _ _ _ => [(("link1", "link2"), [touchingResult])]
    continuous := fun _ _ _ _ => [(("link1", "link2"), [touchingResult])] }

/-- The chain environment as `init` leaves it, with the collision objects of
`link1` and `link2` in the robot-link registry. -/
def chainEnvLinks : BulletEnv Int Int Nat :=
  ((BulletEnvObject.init 0 freshObject (some chainModel) none).1.members).getD chainEnv

/-- The conversion of a pose of the chain to a `btTransform`: poses are
integers, transforms the integers written multiplicatively. -/
def chainConvert : Int → Multiplicative Int := Multiplicative.ofAdd

/-- The collision shapes of the chain: `link2` has a shape that is neither
convex nor compound, the attached body `gripper_box` a compound of two
children, every other object a convex shape. -/
def chainShapes (cow : COW Int Nat) : BtShape Nat (Multiplicative Int) :=
  if cow.getID = "link2" then BtShape.other 7
  else if cow.getID = "gripper_box" then
    BtShape.compound [(Multiplicative.ofAdd 1, 3), (Multiplicative.ofAdd 2, 4)]
  else BtShape.convex 5

/-- The attach info of a body `stray` made of `box` whose parent link name is
not a link of the chain. -/
def strayInfo : AttachedBodyInfo :=
  { name := "stray", parent_link_name := "nowhere", object_name := "box", touch_links := [] }

/-- The chain environment after `box` is stored and `stray` is attached. -/
def chainEnvStray : BulletEnv Int Int Nat :=
  BulletEnv.applyAttachOps 0 chainEnvLinks
    [BulletEnv.AttachOp.addAttachableObject boxObject, BulletEnv.AttachOp.attachBody strayInfo]

/-- The chain environment after `box` is stored and `gripper_box` is attached
to `link2`. -/
def chainEnvGripper : BulletEnv Int Int Nat :=
  BulletEnv.applyAttachOps 0 chainEnvLinks
    [BulletEnv.AttachOp.addAttachableObject boxObject, BulletEnv.AttachOp.attachBody boxInfo]

/-- The state of the chain for the joint values `j1 = 5`, `j2 = 0`. -/
def chainStateMoved : EnvState Int Int := BulletEnv.getStateNames chainEnv ["j1"] [5]

/-- A narrow phase that finds nothing in any query. -/
def quietNarrow : BulletEnv.NarrowPhase Int Int Nat :=
  { discrete := fun _ _ _ => []
    continuous := fun _ _ _ _ => [] }

/-- A result left in the vector of the caller by an earlier query. -/
def staleResult : DistanceResult Int :=
  { distance := 0
    valid := true
    link_names := (Access.value "link1", Access.value "link2")
    nearest_points := (⟨0, 0, 0⟩, ⟨0, 0, 0⟩)
    normal := ⟨0, 0, 1⟩
    cc_type := ContinouseCollisionType.CCType_Between
    cc_nearest_points := (⟨0, 0, 0⟩, ⟨0, 0, 0⟩)
    cc_time := 0 }

/-- A calculator for a manipulator with one joint whose link is moved along
`x` by the joint value, with limit 2. -/
def slideCalculator : CartVelCalculator Int :=
  { numJoints := 1
    calcFwdKin := fun joint_angles _ => ⟨joint_angles.sum, 0, 0⟩
    link_ := "link1"
    limit_ := 2 }

/-! ## Lemmas on string-keyed maps -/

namespace StrMap

variable {β : Type}

theorem find_replace (m : StrMap β) (k k' : String) (v : β) :
    find (replace m k v) k' = if k' = k then (find m k).map (fun _ => v) else find m k' := by
  induction m with
  | nil => simp [replace, find]
  | cons e rest ih =>
    obtain ⟨a, b⟩ := e
    by_cases h1 : a = k
    · subst h1
      by_cases h2 : k' = a
      · subst h2; simp [replace, find]
      · have h3 : ¬ a = k' := fun h => h2 h.symm
        simp [replace, find, h2, h3, ih]
    · by_cases h2 : k' = k
      · subst h2
        simp [replace, find, h1, ih]
      · by_cases h3 : a = k'
        · simp [replace, find, h1, h2, h3]
        · simp [replace, find, h1, h2, h3, ih]

theorem find_place_ne (m : StrMap β) (k k' : String) (v : β) (h : k' ≠ k) :
    find (place m k v) k' = find m k' := by
  induction m with
  | nil =>
    have h2 : ¬ k = k' := fun e => h e.symm
    simp [place, find, h2]
  | cons e rest ih =>
    obtain ⟨a, b⟩ := e
    have h2 : ¬ k = k' := fun e => h e.symm
    by_cases h1 : keyLt k a = true
    · simp [place, find, h1, h2]
    · simp [place, find, h1, ih]

theorem find_place_self (m : StrMap β) (k : String) (v : β) (h : find m k = none) :
    find (place m k v) k = some v := by
  induction m with
  | nil => simp [place, find]
  | cons e rest ih =>
    obtain ⟨a, b⟩ := e
    by_cases h2 : a = k
    · simp [find, h2] at h
    · simp only [find, h2, if_false] at h
      by_cases h1 : keyLt k a = true
      · simp [place, find, h1]
      · simp [place, find, h1, h2, ih h]

theorem find_assign (m : StrMap β) (k k' : String) (v : β) :
    find (assign m k v) k' = if k' = k then some v else find m k' := by
  unfold assign
  by_cases hs : (find m k).isSome = true
  · rw [if_pos hs, find_replace]
    by_cases h : k' = k
    · obtain ⟨w, hw⟩ := Option.isSome_iff_exists.mp hs
      simp [h, hw]
    · simp [h]
  · rw [if_neg hs]
    by_cases h : k' = k
    · subst h
      have hn : find m k' = none := by
        cases hf : find m k' with
        | none => rfl
        | some w => simp [hf] at hs
      simp [find_place_self m k' v hn]
    · simp [h, find_place_ne m k k' v h]

theorem find_insert (m : StrMap β) (k k' : String) (v : β) :
    find (insert m k v) k' = if k' = k then some ((find m k).getD v) else find m k' := by
  unfold insert
  by_cases hs : (find m k).isSome = true
  · rw [if_pos hs]
    by_cases h : k' = k
    · obtain ⟨w, hw⟩ := Option.isSome_iff_exists.mp hs
      simp [h, hw]
    · simp [h]
  · rw [if_neg hs]
    have hn : find m k = none := by
      cases hf : find m k with
      | none => rfl
      | some w => simp [hf] at hs
    by_cases h : k' = k
    · subst h
      simp [find_place_self m k' v hn, hn]
    · simp [h, find_place_ne m k k' v h]

theorem find_erase (m : StrMap β) (k k' : String) :
    find (erase m k) k' = if k' = k then none else find m k' := by
  induction m with
  | nil => simp [erase, find]
  | cons e rest ih =>
    obtain ⟨a, b⟩ := e
    by_cases h1 : a = k
    · subst h1
      by_cases h2 : k' = a
      · subst h2
        simpa [erase, find] using ih
      · have h3 : ¬ a = k' := fun h => h2 h.symm
        simpa [erase, find, h2, h3] using ih
    · by_cases h3 : a = k'
      · subst h3
        simp [erase, find, h1]
      · simpa [erase, find, h1, h3] using ih

theorem find_eq_none_iff (m : StrMap β) (k : String) :
    find m k = none ↔ k ∉ keys m := by
  induction m with
  | nil => simp [find, keys]
  | cons e rest ih =>
    obtain ⟨a, b⟩ := e
    by_cases h : a = k
    · simp [find, keys, h]
    · have h2 : ¬ k = a := fun e => h e.symm
      simp only [keys] at ih
      simp [find, keys, h, h2, ih]

theorem erase_of_find_none (m : StrMap β) (k : String) (h : find m k = none) :
    erase m k = m := by
  induction m with
  | nil => rfl
  | cons e rest ih =>
    obtain ⟨a, b⟩ := e
    by_cases h2 : a = k
    · simp [find, h2] at h
    · simp only [find, h2, if_false] at h
      simp [erase, h2, ih h]

theorem erase_place (m : StrMap β) (k : String) (v : β) (h : find m k = none) :
    erase (place m k v) k = m := by
  induction m with
  | nil => simp [place, erase]
  | cons e rest ih =>
    obtain ⟨a, b⟩ := e
    by_cases h2 : a = k
    · simp [find, h2] at h
    · simp only [find, h2, if_false] at h
      by_cases h1 : keyLt k a = true
      · simp [place, h1, erase, h2, erase_of_find_none rest k h]
      · simp [place, h1, erase, h2, ih h]

theorem erase_assign (m : StrMap β) (k : String) (v : β) (h : find m k = none) :
    erase (assign m k v) k = m := by
  simp [assign, h, erase_place m k v h]

theorem erase_insert (m : StrMap β) (k : String) (v : β) (h : find m k = none) :
    erase (insert m k v) k = m := by
  simp [insert, h, erase_place m k v h]

theorem erase_erase (m : StrMap β) (k : String) :
    erase (erase m k) k = erase m k :=
  erase_of_find_none _ _ (by rw [find_erase]; simp)

end StrMap

/-! ## Allowed-collision matrix: properties -/

namespace ROSAllowedCollisionMatrix

/-- Claim C1, evaluated on the code: after the single call
`addAllowedCollision("ab", "c", "adjacent")` on the empty matrix the lookup
answers true for the pair ("a", "bc"), which was never added: both pairs
concatenate to the key "abc". -/
theorem isCollisionAllowed_key_clash :
    isCollisionAllowed (addAllowedCollision {} "ab" "c" "adjacent") "a" "bc" = true ∧
    ("a" ≠ "ab" ∧ "a" ≠ "c") := by
  decide

/-- Claim C2, evaluated on the code: after `addAllowedCollision("ab", "c", _)`
and `removeAllowedCollision("a", "bc")` from the empty matrix, the lookup is
true for ("c", "ab") and false for ("ab", "c"). -/
theorem isCollisionAllowed_asymmetric :
    isCollisionAllowed
      (removeAllowedCollision (addAllowedCollision {} "ab" "c" "adjacent") "a" "bc")
      "c" "ab" = true ∧
    isCollisionAllowed
      (removeAllowedCollision (addAllowedCollision {} "ab" "c" "adjacent") "a" "bc")
      "ab" "c" = false := by
  decide

/-- Claim C3: in every matrix state, right after `addAllowedCollision(A, B, r)`
the lookup is true for (A, B) and for (B, A), and right after a following
`removeAllowedCollision(A, B)` it is false for (A, B) and for (B, A). -/
theorem add_then_remove_both_directions (acm : ROSAllowedCollisionMatrix)
    (A B r : String) :
    isCollisionAllowed (addAllowedCollision acm A B r) A B = true ∧
    isCollisionAllowed (addAllowedCollision acm A B r) B A = true ∧
    isCollisionAllowed (removeAllowedCollision (addAllowedCollision acm A B r) A B) A B
      = false ∧
    isCollisionAllowed (removeAllowedCollision (addAllowedCollision acm A B r) A B) B A
      = false := by
  refine ⟨?_, ?_, ?_, ?_⟩
  · simp only [isCollisionAllowed, addAllowedCollision, StrMap.find_assign]
    by_cases h : A ++ B = B ++ A <;> simp [h]
  · simp [isCollisionAllowed, addAllowedCollision, StrMap.find_assign]
  · simp only [isCollisionAllowed, removeAllowedCollision, StrMap.find_erase]
    by_cases h : A ++ B = B ++ A <;> simp [h]
  · simp [isCollisionAllowed, removeAllowedCollision, StrMap.find_erase]

end ROSAllowedCollisionMatrix

/-! ## Kinematic state: lemmas -/

namespace BulletEnv

variable {V P G : Type}

mutual
theorem last_name_mem_names : ∀ (e : TreeElement V P) (p : List (TreeElement V P))
    (last : TreeElement V P), IsPath e p last →
    last.segment.name ∈ TreeElement.names e
  | TreeElement.mk s q cs, p, last, hp => by
    cases hp with
    | here => simp [TreeElement.names, TreeElement.segment]
    | step _ c p' _ hc hp' =>
      simp only [TreeElement.names, List.mem_cons]
      right
      exact last_name_mem_namesList cs c p' last hc hp'
theorem last_name_mem_namesList : ∀ (cs : List (TreeElement V P)) (c : TreeElement V P)
    (p : List (TreeElement V P)) (last : TreeElement V P), c ∈ cs → IsPath c p last →
    last.segment.name ∈ TreeElement.namesList cs
  | [], c, p, last, hc, _ => by simp at hc
  | c0 :: rest, c, p, last, hc, hp => by
    simp only [TreeElement.namesList, List.mem_append]
    rcases List.mem_cons.mp hc with h | h
    · subst h
      left
      exact last_name_mem_names c p last hp
    · right
      exact last_name_mem_namesList rest c p last h hp
end

mutual
theorem exists_path_of_mem_elements : ∀ (e seg : TreeElement V P),
    seg ∈ TreeElement.elements e → ∃ p, IsPath e p seg
  | TreeElement.mk s q cs, seg, h => by
    simp only [TreeElement.elements, List.mem_cons] at h
    rcases h with h | h
    · subst h
      exact ⟨[TreeElement.mk s q cs], IsPath.here _⟩
    · obtain ⟨c, hc, p, hp⟩ := exists_path_of_mem_elementsList cs seg h
      exact ⟨TreeElement.mk s q cs :: p, IsPath.step _ c p seg hc hp⟩
theorem exists_path_of_mem_elementsList : ∀ (cs : List (TreeElement V P))
    (seg : TreeElement V P), seg ∈ TreeElement.elementsList cs →
    ∃ c, c ∈ cs ∧ ∃ p, IsPath c p seg
  | [], seg, h => by simp [TreeElement.elementsList] at h
  | c0 :: rest, seg, h => by
    simp only [TreeElement.elementsList, List.mem_append] at h
    rcases h with h | h
    · obtain ⟨p, hp⟩ := exists_path_of_mem_elements c0 seg h
      exact ⟨c0, List.mem_cons_self _ _, p, hp⟩
    · obtain ⟨c, hc, p, hp⟩ := exists_path_of_mem_elementsList rest seg h
      exact ⟨c, List.mem_cons_of_mem _ hc, p, hp⟩
end

theorem poseAlong_cons [Inhabited V] [Mul P] (q_in : List V) (parent : P)
    (e : TreeElement V P) (p : List (TreeElement V P)) :
    poseAlong q_in parent (e :: p) =
      poseAlong q_in (parent * e.segment.pose (q_in.getD e.q_nr default)) p := by
  simp [poseAlong]

mutual
theorem calculateTransformsAt_spec [Inhabited V] [Mul P] (q_in : List V) :
    ∀ (e : TreeElement V P) (parent : P) (t : StrMap P), (TreeElement.names e).Nodup →
      (∀ n, n ∉ TreeElement.names e →
        StrMap.find (calculateTransformsAt q_in e parent t) n = StrMap.find t n) ∧
      (∀ p last, IsPath e p last →
        StrMap.find (calculateTransformsAt q_in e parent t) last.segment.name =
          some (poseAlong q_in parent p))
  | TreeElement.mk s q cs, parent, t, hnd => by
    simp only [TreeElement.names, List.nodup_cons] at hnd
    obtain ⟨hs, hcs⟩ := hnd
    have ih := calculateTransformsChildren_spec q_in cs (parent * s.pose (q_in.getD q default))
      (StrMap.assign t s.name (parent * s.pose (q_in.getD q default))) hcs
    refine ⟨?_, ?_⟩
    · intro n hn
      simp only [TreeElement.names, List.mem_cons, not_or] at hn
      simp only [calculateTransformsAt]
      rw [ih.1 n hn.2, StrMap.find_assign, if_neg hn.1]
    · intro p last hp
      simp only [calculateTransformsAt]
      cases hp with
      | here =>
        have hseg : (TreeElement.mk s q cs).segment.name = s.name := rfl
        rw [hseg, ih.1 _ hs, StrMap.find_assign]
        simp [poseAlong, TreeElement.segment, TreeElement.q_nr]
      | step _ c p' _ hc hp' =>
        rw [poseAlong_cons]
        exact ih.2 c hc p' last hp'
theorem calculateTransformsChildren_spec [Inhabited V] [Mul P] (q_in : List V) :
    ∀ (cs : List (TreeElement V P)) (g : P) (t : StrMap P),
      (TreeElement.namesList cs).Nodup →
      (∀ n, n ∉ TreeElement.namesList cs →
        StrMap.find (calculateTransformsChildren q_in cs g t) n = StrMap.find t n) ∧
      (∀ c, c ∈ cs → ∀ p last, IsPath c p last →
        StrMap.find (calculateTransformsChildren q_in cs g t) last.segment.name =
          some (poseAlong q_in g p))
  | [], g, t, _ => by
    refine ⟨fun n _ => by simp [calculateTransformsChildren], ?_⟩
    intro c hc
    simp at hc
  | c0 :: rest, g, t, hnd => by
    simp only [TreeElement.namesList] at hnd
    have hd := List.nodup_append.mp hnd
    obtain ⟨h0, hr, hdisj⟩ := hd
    have ih0 := calculateTransformsAt_spec q_in c0 g t h0
    have ihr := calculateTransformsChildren_spec q_in rest g
      (calculateTransformsAt q_in c0 g t) hr
    refine ⟨?_, ?_⟩
    · intro n hn
      simp only [TreeElement.namesList, List.mem_append, not_or] at hn
      simp only [calculateTransformsChildren]
      rw [ihr.1 n hn.2, ih0.1 n hn.1]
    · intro c hc p last hp
      simp only [calculateTransformsChildren]
      rcases List.mem_cons.mp hc with h | h
      · subst h
        have hmem := last_name_mem_names c p last hp
        have hnot : last.segment.name ∉ TreeElement.namesList rest :=
          fun hin => hdisj hmem hin
        rw [ihr.1 _ hnot]
        exact ih0.2 p last hp
      · exact ihr.2 c h p last hp
end

/-! ### The joint-value loop -/

theorem setJointValuesLoop_append (env : BulletEnv V P G) (l1 l2 : List (String × V))
    (acc : List V × StrMap V) :
    setJointValuesLoop env (l1 ++ l2) acc =
      setJointValuesLoop env l2 (setJointValuesLoop env l1 acc) := by
  induction l1 generalizing acc with
  | nil => rfl
  | cons e rest ih =>
    obtain ⟨k, v⟩ := e
    obtain ⟨q, js⟩ := acc
    simp only [List.cons_append, setJointValuesLoop]
    exact ih _

theorem setJointValuesLoop_joints_frame (env : BulletEnv V P G) (l : List (String × V))
    (acc : List V × StrMap V) (n : String) (hn : n ∉ l.map Prod.fst) :
    StrMap.find (setJointValuesLoop env l acc).2 n = StrMap.find acc.2 n := by
  induction l generalizing acc with
  | nil => rfl
  | cons e rest ih =>
    obtain ⟨k, v⟩ := e
    obtain ⟨q, js⟩ := acc
    simp only [List.map_cons, List.mem_cons, not_or] at hn
    simp only [setJointValuesLoop]
    rw [ih _ hn.2]
    by_cases hb : (setJointValuesHelper env q k v).2 = true
    · simp only [hb, if_true]
      rw [StrMap.find_assign, if_neg hn.1]
    · simp [hb]

theorem setJointValuesLoop_array_frame (env : BulletEnv V P G)
    (hinj : ∀ a b q, StrMap.find env.joint_to_qnr_ a = some q →
      StrMap.find env.joint_to_qnr_ b = some q → a = b)
    (l : List (String × V)) (acc : List V × StrMap V) (n : String) (qn : Nat)
    (hq : StrMap.find env.joint_to_qnr_ n = some qn) (hn : n ∉ l.map Prod.fst) :
    (setJointValuesLoop env l acc).1[qn]? = acc.1[qn]? := by
  induction l generalizing acc with
  | nil => rfl
  | cons e rest ih =>
    obtain ⟨k, v⟩ := e
    obtain ⟨q, js⟩ := acc
    simp only [List.map_cons, List.mem_cons, not_or] at hn
    simp only [setJointValuesLoop]
    rw [ih _ hn.2]
    simp only [setJointValuesHelper]
    cases hk : StrMap.find env.joint_to_qnr_ k with
    | none => rfl
    | some qk =>
      have hne : qk ≠ qn := by
        intro h
        subst h
        exact hn.1 (hinj n k qk hq hk)
      simp [List.getElem?_set_ne hne]

theorem setJointValuesLoop_last (env : BulletEnv V P G) (pre post : List (String × V))
    (n : String) (v : V) (acc : List V × StrMap V)
    (hknown : (StrMap.find env.joint_to_qnr_ n).isSome = true)
    (hpost : n ∉ post.map Prod.fst) :
    StrMap.find (setJointValuesLoop env (pre ++ (n, v) :: post) acc).2 n = some v := by
  rw [setJointValuesLoop_append]
  obtain ⟨q, js⟩ := setJointValuesLoop env pre acc
  obtain ⟨qn, hqn⟩ := Option.isSome_iff_exists.mp hknown
  simp only [setJointValuesLoop]
  rw [setJointValuesLoop_joints_frame env post _ n hpost]
  simp [setJointValuesHelper, hqn, StrMap.find_assign]

theorem insertRange_frame (m : StrMap V) (l : List (String × V)) (n : String)
    (hn : n ∉ l.map Prod.fst) :
    StrMap.find (insertRange m l) n = StrMap.find m n := by
  induction l generalizing m with
  | nil => rfl
  | cons e rest ih =>
    obtain ⟨k, v⟩ := e
    simp only [List.map_cons, List.mem_cons, not_or] at hn
    simp only [insertRange]
    rw [ih _ hn.2, StrMap.find_insert, if_neg hn.1]

theorem zip_split_at (names : List String) (values : List V) (i : Nat)
    (hi : i < names.length) (hv : i < values.length) :
    List.zip names values =
      List.zip (names.take i) (values.take i) ++
        (names.get ⟨i, hi⟩, values.get ⟨i, hv⟩) ::
          List.zip (names.drop (i + 1)) (values.drop (i + 1)) := by
  induction names generalizing values i with
  | nil => simp at hi
  | cons a as ih =>
    cases values with
    | nil => simp at hv
    | cons b bs =>
      cases i with
      | zero => simp
      | succ j =>
        simp only [List.length_cons, Nat.add_lt_add_iff_right] at hi hv
        simp [ih bs j hi hv]

theorem not_mem_fst_zip_drop (names : List String) (values : List V) (i : Nat)
    (hi : i < names.length)
    (hlast : ∀ j (hj : j < names.length), i < j → names.get ⟨j, hj⟩ ≠ names.get ⟨i, hi⟩) :
    names.get ⟨i, hi⟩ ∉
      (List.zip (names.drop (i + 1)) (values.drop (i + 1))).map Prod.fst := by
  intro hmem
  have h1 : names.get ⟨i, hi⟩ ∈ names.drop (i + 1) := by
    rcases List.mem_map.mp hmem with ⟨⟨a, b⟩, hab, hfst⟩
    have := (List.of_mem_zip hab).1
    simp only at hfst
    rw [← hfst]
    exact this
  rcases List.mem_iff_getElem.mp h1 with ⟨j, hj, hjeq⟩
  have hj2 : i + 1 + j < names.length := by
    simp only [List.length_drop] at hj
    omega
  have := hlast (i + 1 + j) hj2 (by omega)
  apply this
  rw [List.getElem_drop] at hjeq
  simpa using hjeq
theorem setJointValuesLoop_length (env : BulletEnv V P G) (l : List (String × V))
    (acc : List V × StrMap V) :
    (setJointValuesLoop env l acc).1.length = acc.1.length := by
  induction l generalizing acc with
  | nil => rfl
  | cons e rest ih =>
    obtain ⟨k, v⟩ := e
    obtain ⟨q, js⟩ := acc
    simp only [setJointValuesLoop]
    rw [ih]
    simp only [setJointValuesHelper]
    cases StrMap.find env.joint_to_qnr_ k <;> simp

theorem setJointValuesLoop_keeps_keys (env : BulletEnv V P G) (l : List (String × V))
    (acc : List V × StrMap V) (a : String) (h : (StrMap.find acc.2 a).isSome = true) :
    (StrMap.find (setJointValuesLoop env l acc).2 a).isSome = true := by
  induction l generalizing acc with
  | nil => exact h
  | cons e rest ih =>
    obtain ⟨k, v⟩ := e
    obtain ⟨q, js⟩ := acc
    simp only [setJointValuesLoop]
    apply ih
    by_cases hb : (setJointValuesHelper env q k v).2 = true
    · simp only [hb, if_true, StrMap.find_assign]
      by_cases ha : a = k
      · simp [ha]
      · simpa [ha] using h
    · simpa [hb] using h

theorem insertRange_keeps_keys (m : StrMap V) (l : List (String × V)) (a : String)
    (h : (StrMap.find m a).isSome = true) :
    (StrMap.find (insertRange m l) a).isSome = true := by
  induction l generalizing m with
  | nil => exact h
  | cons e rest ih =>
    obtain ⟨k, v⟩ := e
    simp only [insertRange]
    apply ih
    rw [StrMap.find_insert]
    by_cases ha : a = k
    · simp [ha]
    · simpa [ha] using h

theorem initialized_setStateMap [Inhabited V] [Mul P] [One P] (env : BulletEnv V P G)
    (joints : StrMap V) (h : Initialized env) : Initialized (setStateMap env joints) := by
  refine ⟨h.qnr_injective, ?_, ?_⟩
  · intro a q ha
    simp only [setStateMap]
    rw [setJointValuesLoop_length]
    exact h.qnr_in_range a q ha
  · intro a q ha
    simp only [setStateMap]
    exact setJointValuesLoop_keeps_keys env joints _ a
      (insertRange_keeps_keys _ joints a (h.joints_known a q ha))

theorem initialized_setStateNames [Inhabited V] [Mul P] [One P] (env : BulletEnv V P G)
    (joint_names : List String) (joint_values : List V) (h : Initialized env) :
    Initialized (setStateNames env joint_names joint_values) := by
  refine ⟨h.qnr_injective, ?_, ?_⟩
  · intro a q ha
    simp only [setStateNames]
    rw [setJointValuesLoop_length]
    exact h.qnr_in_range a q ha
  · intro a q ha
    simp only [setStateNames]
    exact setJointValuesLoop_keeps_keys env _ _ a (h.joints_known a q ha)

end BulletEnv

/-! ## Initialization of the joint bookkeeping -/

namespace BulletEnv

variable {V P G : Type}

theorem initJointsLoop_spec [Zero V] (segs : List (String × TreeElement V P))
    (acc : StrMap Nat × List V × StrMap V)
    (hacc : ∀ a, (StrMap.find acc.1 a).isSome = true → (StrMap.find acc.2.2 a).isSome = true) :
    (∀ a q, StrMap.find (initJointsLoop segs acc).1 a = some q →
      StrMap.find acc.1 a = some q ∨
      ∃ n e, (n, e) ∈ segs ∧ e.segment.joint_none = false ∧
        e.segment.joint_name = a ∧ e.q_nr = q) ∧
    (initJointsLoop segs acc).2.1.length = acc.2.1.length ∧
    (∀ a, (StrMap.find (initJointsLoop segs acc).1 a).isSome = true →
      (StrMap.find (initJointsLoop segs acc).2.2 a).isSome = true) := by
  induction segs generalizing acc with
  | nil => exact ⟨fun a q h => Or.inl h, rfl, hacc⟩
  | cons x rest ih =>
    obtain ⟨n, seg⟩ := x
    obtain ⟨j2q, arr, joints⟩ := acc
    by_cases hnone : seg.segment.joint_none = true
    · simp only [initJointsLoop, hnone, if_true]
      obtain ⟨h1, h2, h3⟩ := ih (j2q, arr, joints) hacc
      refine ⟨?_, h2, h3⟩
      intro a q h
      rcases h1 a q h with h | ⟨n', e, hm, hr⟩
      · exact Or.inl h
      · exact Or.inr ⟨n', e, List.mem_cons_of_mem _ hm, hr⟩
    · have hfalse : seg.segment.joint_none = false := by
        cases hj : seg.segment.joint_none with
        | true => exact absurd hj hnone
        | false => rfl
      simp only [initJointsLoop, hfalse, Bool.false_eq_true, if_false]
      have hacc' : ∀ a,
          (StrMap.find (StrMap.insert j2q seg.segment.joint_name seg.q_nr) a).isSome = true →
          (StrMap.find (StrMap.insert joints seg.segment.joint_name (0 : V)) a).isSome = true := by
        intro a
        rw [StrMap.find_insert, StrMap.find_insert]
        by_cases ha : a = seg.segment.joint_name
        · simp [ha]
        · simp only [ha, if_false]
          exact hacc a
      obtain ⟨h1, h2, h3⟩ := ih (StrMap.insert j2q seg.segment.joint_name seg.q_nr,
        arr.set seg.q_nr 0, StrMap.insert joints seg.segment.joint_name (0 : V)) hacc'
      refine ⟨?_, ?_, h3⟩
      · intro a q h
        rcases h1 a q h with h | ⟨n', e, hm, hr⟩
        · rw [StrMap.find_insert] at h
          by_cases ha : a = seg.segment.joint_name
          · simp only [ha, if_true, Option.some.injEq] at h
            cases hf : StrMap.find j2q seg.segment.joint_name with
            | some w =>
              left
              simp only [hf, Option.getD_some] at h
              simp [ha, hf, h]
            | none =>
              right
              simp only [hf, Option.getD_none] at h
              exact ⟨n, seg, List.mem_cons_self _ _, hfalse, ha.symm, h⟩
          · simp only [ha, if_false] at h
            exact Or.inl h
        · exact Or.inr ⟨n', e, List.mem_cons_of_mem _ hm, hr⟩
      · simpa using h2

theorem initJointState_initialized [Inhabited V] [Zero V] [Mul P] [One P]
    (tree : TreeElement V P) (hwf : JointIndicesWellFormed tree) :
    Initialized (initJointState tree : BulletEnv V P G) := by
  have hspec := initJointsLoop_spec (getSegments tree)
    (([] : StrMap Nat), List.replicate (getNrOfJoints tree) (0 : V), ([] : StrMap V))
    (by intro a h; simp [StrMap.find] at h)
  obtain ⟨h1, h2, h3⟩ := hspec
  have key : ∀ a q, StrMap.find (initJointState tree : BulletEnv V P G).joint_to_qnr_ a = some q →
      ∃ n e, (n, e) ∈ getSegments tree ∧ e.segment.joint_none = false ∧
        e.segment.joint_name = a ∧ e.q_nr = q := by
    intro a q h
    rcases h1 a q h with h | h
    · simp [StrMap.find] at h
    · exact h
  refine ⟨?_, ?_, ?_⟩
  · intro a b q ha hb
    obtain ⟨n1, e1, hm1, hn1, hj1, hq1⟩ := key a q ha
    obtain ⟨n2, e2, hm2, hn2, hj2, hq2⟩ := key b q hb
    rw [← hj1, ← hj2]
    exact hwf.qnr_distinct n1 e1 n2 e2 hm1 hm2 hn1 hn2 (hq1.trans hq2.symm)
  · intro a q ha
    obtain ⟨n1, e1, hm1, hn1, _, hq1⟩ := key a q ha
    have := hwf.qnr_in_range n1 e1 hm1 hn1
    simp only [initJointState]
    rw [h2]
    simpa [hq1] using this
  · intro a q ha
    apply h3 a
    simp only [initJointState] at ha
    rw [ha]
    rfl

theorem chainTree_wellFormed : JointIndicesWellFormed chainTree := by
  have hseg : getSegments chainTree =
      [("base", chainTree), ("link1", chainLink1), ("link2", chainLink2)] := by
    rfl
  refine ⟨?_, ?_⟩
  · intro n1 e1 n2 e2 h1 h2
    rw [hseg] at h1 h2
    simp only [List.mem_cons, Prod.mk.injEq, List.mem_nil_iff, or_false] at h1 h2
    rcases h1 with ⟨_, rfl⟩ | ⟨_, rfl⟩ | ⟨_, rfl⟩ <;>
      rcases h2 with ⟨_, rfl⟩ | ⟨_, rfl⟩ | ⟨_, rfl⟩ <;>
      simp [chainTree, chainLink1, chainLink2, TreeElement.segment, TreeElement.q_nr]
  · intro n e h
    rw [hseg] at h
    simp only [List.mem_cons, Prod.mk.injEq, List.mem_nil_iff, or_false] at h
    rcases h with ⟨_, rfl⟩ | ⟨_, rfl⟩ | ⟨_, rfl⟩ <;>
      simp [chainTree, chainLink1, chainLink2, TreeElement.segment, TreeElement.q_nr,
        getNrOfJoints, TreeElement.elements, TreeElement.elementsList]

theorem chainEnv_initialized : Initialized chainEnv :=
  initJointState_initialized chainTree chainTree_wellFormed

end BulletEnv

/-! ## Kinematic state: properties -/

namespace BulletEnv

variable {V P G : Type}

/-- Claim C4, evaluated on the code: in the chain environment (joints `j1`,
`j2`) the name `zz` is no joint of the model; after the map overload
`setState` with the single entry `zz ↦ 5` the joints map of the current state
has an entry for `zz` and `getCurrentJointValues()` has three values instead
of two (a later `setState` with `zz ↦ 9` leaves that entry at 5), while the
names-and-values overload `setState(["zz"], [5])` leaves the joints map
unchanged.  The joint-value array is unchanged in both. -/
theorem setStateMap_unknown_name_grows_joints :
    StrMap.find chainEnv.joint_to_qnr_ "zz" = none ∧
    getCurrentJointValues chainEnv = [0, 0] ∧
    getCurrentJointValues (setStateMap chainEnv [("zz", 5)]) = [0, 0, 5] ∧
    StrMap.find (setStateMap chainEnv [("zz", 5)]).current_state_.joints "zz" = some 5 ∧
    StrMap.find (setStateMap (setStateMap chainEnv [("zz", 5)]) [("zz", 9)]).current_state_.joints
      "zz" = some 5 ∧
    (setStateMap chainEnv [("zz", 5)]).kdl_jnt_array_ = chainEnv.kdl_jnt_array_ ∧
    getCurrentJointValues (setStateNames chainEnv ["zz"] [5]) = [0, 0] ∧
    (setStateNames chainEnv ["zz"] [5]).kdl_jnt_array_ = chainEnv.kdl_jnt_array_ := by
  decide

/-- Claim C5: let `joint_names` and `joint_values` have the same length, and
let position `i` be the last occurrence of its name in `joint_names`, that
name being a joint of the model.  Then the joints map of the current state
after `setState(joint_names, joint_values)`, the joints map of the state
returned by `getState(joint_names, joint_values)`, and the one returned by the
same `getState` call made after the `setState` call all hold
`joint_values[i]` under that name, whatever the other names of the call are. -/
theorem setState_getState_roundtrip [Inhabited V] [Mul P] [One P]
    (env : BulletEnv V P G) (joint_names : List String) (joint_values : List V)
    (hlen : joint_names.length = joint_values.length) (i : Nat)
    (hi : i < joint_names.length)
    (hlast : ∀ j (hj : j < joint_names.length), i < j →
      joint_names.get ⟨j, hj⟩ ≠ joint_names.get ⟨i, hi⟩)
    (hknown : (StrMap.find env.joint_to_qnr_ (joint_names.get ⟨i, hi⟩)).isSome = true) :
    StrMap.find (setStateNames env joint_names joint_values).current_state_.joints
        (joint_names.get ⟨i, hi⟩) = some (joint_values.get ⟨i, hlen ▸ hi⟩) ∧
    StrMap.find (getStateNames env joint_names joint_values).joints
        (joint_names.get ⟨i, hi⟩) = some (joint_values.get ⟨i, hlen ▸ hi⟩) ∧
    StrMap.find
        (getStateNames (setStateNames env joint_names joint_values)
          joint_names joint_values).joints
        (joint_names.get ⟨i, hi⟩) = some (joint_values.get ⟨i, hlen ▸ hi⟩) := by
  have hv : i < joint_values.length := hlen ▸ hi
  have hsplit := zip_split_at joint_names joint_values i hi hv
  have hpost := not_mem_fst_zip_drop joint_names joint_values i hi hlast
  refine ⟨?_, ?_, ?_⟩
  · simp only [setStateNames]
    rw [hsplit]
    exact setJointValuesLoop_last env _ _ _ _ _ hknown hpost
  · simp only [getStateNames]
    rw [hsplit]
    exact setJointValuesLoop_last env _ _ _ _ _ hknown hpost
  · simp only [getStateNames]
    rw [hsplit]
    exact setJointValuesLoop_last _ _ _ _ _ _ hknown hpost

/-- Witness of C5 in the chain environment: the call names `j2` twice and the
unknown `zz`; position 2 is the last occurrence of `j2`. -/
theorem setState_getState_roundtrip_witness :
    StrMap.find (setStateNames chainEnv ["j2", "zz", "j2", "j1"] [5, 6, 7, 8]).current_state_.joints
        "j2" = some 7 ∧
    StrMap.find (getStateNames chainEnv ["j2", "zz", "j2", "j1"] [5, 6, 7, 8]).joints
        "j2" = some 7 ∧
    StrMap.find
        (getStateNames (setStateNames chainEnv ["j2", "zz", "j2", "j1"] [5, 6, 7, 8])
          ["j2", "zz", "j2", "j1"] [5, 6, 7, 8]).joints
        "j2" = some 7 :=
  setState_getState_roundtrip chainEnv ["j2", "zz", "j2", "j1"] [5, 6, 7, 8] rfl 2
    (by decide)
    (by
      intro j hj hij
      have h3 : j = 3 := by
        simp only [List.length_cons, List.length_nil] at hj
        omega
      subst h3
      exact (by decide : "j1" ≠ "j2"))
    (by decide)

theorem not_mem_fst_zip (names : List String) (values : List V) (n : String)
    (hn : n ∉ names) : n ∉ (List.zip names values).map Prod.fst := by
  intro hmem
  rcases List.mem_map.mp hmem with ⟨⟨a, b⟩, hab, hfst⟩
  have := (List.of_mem_zip hab).1
  simp only at hfst
  rw [hfst] at this
  exact hn this

/-- Claim C6: in an initialized environment, a joint of the model (index `qn`
in the joint-value array) whose name does not occur in a `setState` call keeps
its entry of the persistent joint-value array and its entry of the joints map
of the current state, for the map overload and for the names-and-values
overload. -/
theorem setState_keeps_unnamed_joints [Inhabited V] [Mul P] [One P]
    (env : BulletEnv V P G) (hinit : Initialized env) (name : String) (qn : Nat)
    (hq : StrMap.find env.joint_to_qnr_ name = some qn) :
    (∀ joints : StrMap V, name ∉ StrMap.keys joints →
      (setStateMap env joints).kdl_jnt_array_[qn]? = env.kdl_jnt_array_[qn]? ∧
      StrMap.find (setStateMap env joints).current_state_.joints name =
        StrMap.find env.current_state_.joints name) ∧
    (∀ (joint_names : List String) (joint_values : List V), name ∉ joint_names →
      (setStateNames env joint_names joint_values).kdl_jnt_array_[qn]? =
        env.kdl_jnt_array_[qn]? ∧
      StrMap.find (setStateNames env joint_names joint_values).current_state_.joints name =
        StrMap.find env.current_state_.joints name) := by
  refine ⟨?_, ?_⟩
  · intro joints hn
    refine ⟨?_, ?_⟩
    · simp only [setStateMap]
      exact setJointValuesLoop_array_frame env hinit.qnr_injective joints _ name qn hq hn
    · simp only [setStateMap]
      rw [setJointValuesLoop_joints_frame env joints _ name hn]
      exact insertRange_frame _ joints name hn
  · intro joint_names joint_values hn
    have hz := not_mem_fst_zip joint_names joint_values name hn
    refine ⟨?_, ?_⟩
    · simp only [setStateNames]
      exact setJointValuesLoop_array_frame env hinit.qnr_injective _ _ name qn hq hz
    · simp only [setStateNames]
      exact setJointValuesLoop_joints_frame env _ _ name hz

/-- Witness of C6 in the chain environment, for joint `j1` (index 0). -/
theorem setState_keeps_unnamed_joints_witness :
    (∀ joints : StrMap Int, "j1" ∉ StrMap.keys joints →
      (setStateMap chainEnv joints).kdl_jnt_array_[0]? = chainEnv.kdl_jnt_array_[0]? ∧
      StrMap.find (setStateMap chainEnv joints).current_state_.joints "j1" =
        StrMap.find chainEnv.current_state_.joints "j1") ∧
    (∀ (joint_names : List String) (joint_values : List Int), "j1" ∉ joint_names →
      (setStateNames chainEnv joint_names joint_values).kdl_jnt_array_[0]? =
        chainEnv.kdl_jnt_array_[0]? ∧
      StrMap.find (setStateNames chainEnv joint_names joint_values).current_state_.joints
        "j1" = StrMap.find chainEnv.current_state_.joints "j1") :=
  setState_keeps_unnamed_joints chainEnv chainEnv_initialized "j1" 0 (by decide)

/-- Claim C7: for a kinematic tree whose segment names are pairwise distinct
and any joint-value array, `calculateTransforms` from the root with the
identity as parent pose returns (the recursion is structural on the tree), and
for every segment of the tree there is the path from the root to it such that
the returned transform map holds under the segment's name the ordered product,
starting from the identity, of the local poses along that path, each at its
joint's value in the array; this entry is the same for every earlier content
of the map. -/
theorem calculateTransforms_root_entries [Inhabited V] [Mul P] [One P]
    (tree : TreeElement V P) (q_in : List V) (hnames : (TreeElement.names tree).Nodup)
    (seg : TreeElement V P) (hseg : seg ∈ TreeElement.elements tree) :
    ∃ path, IsPath tree path seg ∧
      (∀ transforms : StrMap P,
        StrMap.find (calculateTransforms transforms q_in (some tree) 1) seg.segment.name =
          some (poseAlong q_in 1 path)) ∧
      (∀ transforms transforms' : StrMap P,
        StrMap.find (calculateTransforms transforms q_in (some tree) 1) seg.segment.name =
          StrMap.find (calculateTransforms transforms' q_in (some tree) 1)
            seg.segment.name) := by
  obtain ⟨path, hpath⟩ := exists_path_of_mem_elements tree seg hseg
  have h : ∀ transforms : StrMap P,
      StrMap.find (calculateTransforms transforms q_in (some tree) 1) seg.segment.name =
        some (poseAlong q_in 1 path) := by
    intro transforms
    simp only [calculateTransforms]
    exact (calculateTransformsAt_spec q_in tree 1 transforms hnames).2 path seg hpath
  exact ⟨path, hpath, h, fun t t' => by rw [h t, h t']⟩

/-- Witness of C7 on the chain, for the segment `link2` and the joint values
`[5, 7]`. -/
theorem calculateTransforms_root_entries_witness :
    ∃ path, IsPath chainTree path chainLink2 ∧
      (∀ transforms : StrMap Int,
        StrMap.find (calculateTransforms transforms [5, 7] (some chainTree) 1)
          chainLink2.segment.name =
          some (poseAlong [5, 7] 1 path)) ∧
      (∀ transforms transforms' : StrMap Int,
        StrMap.find (calculateTransforms transforms [5, 7] (some chainTree) 1)
          chainLink2.segment.name =
          StrMap.find (calculateTransforms transforms' [5, 7] (some chainTree) 1)
            chainLink2.segment.name) :=
  calculateTransforms_root_entries chainTree [5, 7] (by decide) chainLink2
    (by
      show chainLink2 ∈ [chainTree, chainLink1, chainLink2]
      simp)

end BulletEnv

/-! ## Attached bodies: properties -/

namespace BulletEnv

variable {V P G : Type}

theorem attachBody_of_attached (d : V) (env : BulletEnv V P G) (info : AttachedBodyInfo)
    (b : AttachedBody G) (h : StrMap.find env.attached_bodies_ info.name = some b) :
    attachBody d env info = (env, [RosLog.error]) := by
  simp [attachBody, h]

theorem attachBody_of_unknown_object (d : V) (env : BulletEnv V P G)
    (info : AttachedBodyInfo) (h : StrMap.find env.attached_bodies_ info.name = none)
    (ho : StrMap.find env.attachable_objects_ info.object_name = none) :
    attachBody d env info = (env, [RosLog.error]) := by
  simp [attachBody, h, ho]

theorem attachBody_of_fresh (d : V) (env : BulletEnv V P G) (info : AttachedBodyInfo)
    (obj : AttachableObject G) (h : StrMap.find env.attached_bodies_ info.name = none)
    (ho : StrMap.find env.attachable_objects_ info.object_name = some obj) :
    attachBody d env info =
      ({ env with
         attached_bodies_ :=
           StrMap.insert env.attached_bodies_ info.name { info := info, obj := obj }
         attached_link2cow_ :=
           StrMap.assign env.attached_link2cow_ info.name
             (COW.setContactDistance (COW.ofAttachedBody { info := info, obj := obj }) d) },
       [RosLog.debug]) := by
  have hf : StrMap.find
      (StrMap.insert env.attached_bodies_ info.name ({ info := info, obj := obj } : AttachedBody G))
      info.name = some { info := info, obj := obj } := by
    rw [StrMap.find_insert]
    simp [h]
  simp only [attachBody, h, ho, hf]
  rfl

/-- Claim C8 as stated fails on the code: in the chain environment with
`gripper_box` attached, `attachBody` of the same info is refused, and the
`detachBody("gripper_box")` that follows removes the body attached earlier
from the attached-body map and from the collision-object registry. -/
theorem attach_detach_removes_earlier_body :
    (StrMap.find chainEnvAttached.attached_bodies_ "gripper_box").isSome = true ∧
    (StrMap.find chainEnvAttached.attached_link2cow_ "gripper_box").isSome = true ∧
    (StrMap.find
      (detachBody (attachBody 0 chainEnvAttached boxInfo).1 boxInfo.name).attached_bodies_
      "gripper_box").isSome = false ∧
    (StrMap.find
      (detachBody (attachBody 0 chainEnvAttached boxInfo).1 boxInfo.name).attached_link2cow_
      "gripper_box").isSome = false := by
  decide

/-- Claim C8, amended: when `info.name` has no entry in the attached-body map
and none in the collision-object registry, `attachBody(info)` followed by
`detachBody(info.name)` gives back the environment it started from; in
particular both maps are exactly as before. -/
theorem attach_then_detach_restores (d : V) (env : BulletEnv V P G)
    (info : AttachedBodyInfo)
    (hbody : StrMap.find env.attached_bodies_ info.name = none)
    (hcow : StrMap.find env.attached_link2cow_ info.name = none) :
    detachBody (attachBody d env info).1 info.name = env := by
  cases ho : StrMap.find env.attachable_objects_ info.object_name with
  | none =>
    rw [attachBody_of_unknown_object d env info hbody ho]
    simp [detachBody, StrMap.erase_of_find_none _ _ hbody, StrMap.erase_of_find_none _ _ hcow]
  | some obj =>
    rw [attachBody_of_fresh d env info obj hbody ho]
    simp [detachBody, StrMap.erase_insert _ _ _ hbody, StrMap.erase_assign _ _ _ hcow]

/-- Witness of the amended C8: `gripper_box` is attached to and detached from
the chain environment in which `box` is stored. -/
theorem attach_then_detach_restores_witness :
    detachBody (attachBody 0 (addAttachableObject chainEnv boxObject).1 boxInfo).1
      boxInfo.name = (addAttachableObject chainEnv boxObject).1 :=
  attach_then_detach_restores 0 (addAttachableObject chainEnv boxObject).1 boxInfo
    (by decide) (by decide)

/-- Claim C9: `attachBody(info)` reports an error exactly when `info.name` is
already attached or `info.object_name` is not a stored attachable object; in
that case the attached-body map, the collision-object registry and the
attachable-object map are unchanged; otherwise the attached-body map holds
under `info.name` the body made of `info` and of the object stored under
`info.object_name`. -/
theorem attachBody_fails_iff (d : V) (env : BulletEnv V P G) (info : AttachedBodyInfo) :
    (RosLog.error ∈ (attachBody d env info).2 ↔
      ((StrMap.find env.attached_bodies_ info.name).isSome = true ∨
        StrMap.find env.attachable_objects_ info.object_name = none)) ∧
    (RosLog.error ∈ (attachBody d env info).2 →
      (attachBody d env info).1.attached_bodies_ = env.attached_bodies_ ∧
      (attachBody d env info).1.attached_link2cow_ = env.attached_link2cow_ ∧
      (attachBody d env info).1.attachable_objects_ = env.attachable_objects_) ∧
    (RosLog.error ∉ (attachBody d env info).2 →
      ∃ obj, StrMap.find env.attachable_objects_ info.object_name = some obj ∧
        StrMap.find (attachBody d env info).1.attached_bodies_ info.name =
          some { info := info, obj := obj }) := by
  cases hb : StrMap.find env.attached_bodies_ info.name with
  | some b =>
    rw [attachBody_of_attached d env info b hb]
    simp
  | none =>
    cases ho : StrMap.find env.attachable_objects_ info.object_name with
    | none =>
      rw [attachBody_of_unknown_object d env info hb ho]
      simp
    | some obj =>
      rw [attachBody_of_fresh d env info obj hb ho]
      simp [StrMap.find_insert, hb]

theorem registryInStep_applyAttachOp (d : V) (env : BulletEnv V P G) (op : AttachOp G)
    (h : RegistryInStep d env) : RegistryInStep d (applyAttachOp d env op) := by
  cases op with
  | addAttachableObject o =>
    simp only [applyAttachOp, addAttachableObject]
    cases StrMap.find env.attachable_objects_ o.name with
    | some _ => exact h
    | none => exact h
  | attachBody info =>
    simp only [applyAttachOp]
    cases hb : StrMap.find env.attached_bodies_ info.name with
    | some b =>
      rw [attachBody_of_attached d env info b hb]
      exact h
    | none =>
      cases ho : StrMap.find env.attachable_objects_ info.object_name with
      | none =>
        rw [attachBody_of_unknown_object d env info hb ho]
        exact h
      | some obj =>
        rw [attachBody_of_fresh d env info obj hb ho]
        intro k
        simp only [StrMap.find_insert, StrMap.find_assign, hb]
        by_cases hk : k = info.name
        · subst hk
          simp
        · simp only [hk, if_false]
          exact h k
  | detachBody name =>
    intro k
    simp only [applyAttachOp, detachBody, StrMap.find_erase]
    by_cases hk : k = name
    · simp [hk]
    · simp only [hk, if_false]
      exact h k

theorem registryInStep_applyAttachOps (d : V) (ops : List (AttachOp G))
    (env : BulletEnv V P G) (h : RegistryInStep d env) :
    RegistryInStep d (applyAttachOps d env ops) := by
  induction ops generalizing env with
  | nil => exact h
  | cons op rest ih =>
    simp only [applyAttachOps, List.foldl_cons]
    exact ih _ (registryInStep_applyAttachOp d env op h)

/-- Claim C10: starting from an environment with no attached body and an empty
collision-object registry, after any sequence of `addAttachableObject`,
`attachBody` and `detachBody` calls a name has an entry in the registry exactly
when it has one in the attached-body map, and the collision object stored
under a name wraps the body stored under that name and has that name as its
ID. -/
theorem attached_bodies_and_registry_same_names (d : V) (env : BulletEnv V P G)
    (hbodies : env.attached_bodies_ = []) (hcows : env.attached_link2cow_ = [])
    (ops : List (AttachOp G)) (k : String) :
    ((StrMap.find (applyAttachOps d env ops).attached_link2cow_ k).isSome =
      (StrMap.find (applyAttachOps d env ops).attached_bodies_ k).isSome) ∧
    (∀ cow, StrMap.find (applyAttachOps d env ops).attached_link2cow_ k = some cow →
      cow.getID = k ∧
      ∃ b, StrMap.find (applyAttachOps d env ops).attached_bodies_ k = some b ∧
        cow.ptr = COWSource.m_ab b) := by
  have h0 : RegistryInStep d env := by
    intro k
    simp [hbodies, hcows, StrMap.find]
  have h := registryInStep_applyAttachOps d ops env h0 k
  obtain ⟨hname, hreg⟩ := h
  refine ⟨?_, ?_⟩
  · rw [hreg]
    cases StrMap.find (applyAttachOps d env ops).attached_bodies_ k <;> rfl
  · intro cow hc
    rw [hreg] at hc
    cases hb : StrMap.find (applyAttachOps d env ops).attached_bodies_ k with
    | none => simp [hb] at hc
    | some b =>
      simp only [hb, Option.map_some', Option.some.injEq] at hc
      subst hc
      refine ⟨?_, b, rfl, rfl⟩
      simp only [COW.getID, COW.setContactDistance, COW.ofAttachedBody]
      exact hname b hb

/-- Witness of C10: in the chain environment `box` is stored, `gripper_box` is
attached twice, a body is attached from an object that is not stored, and a
body that was never attached is detached. -/
theorem attached_bodies_and_registry_same_names_witness :
    ((StrMap.find (applyAttachOps (0 : Int) chainEnv
        [AttachOp.addAttachableObject boxObject, AttachOp.attachBody boxInfo,
         AttachOp.attachBody boxInfo,
         AttachOp.attachBody { boxInfo with name := "other", object_name := "crate" },
         AttachOp.detachBody "none"]).attached_link2cow_ "gripper_box").isSome =
      (StrMap.find (applyAttachOps (0 : Int) chainEnv
        [AttachOp.addAttachableObject boxObject, AttachOp.attachBody boxInfo,
         AttachOp.attachBody boxInfo,
         AttachOp.attachBody { boxInfo with name := "other", object_name := "crate" },
         AttachOp.detachBody "none"]).attached_bodies_ "gripper_box").isSome) ∧
    (∀ cow, StrMap.find (applyAttachOps (0 : Int) chainEnv
        [AttachOp.addAttachableObject boxObject, AttachOp.attachBody boxInfo,
         AttachOp.attachBody boxInfo,
         AttachOp.attachBody { boxInfo with name := "other", object_name := "crate" },
         AttachOp.detachBody "none"]).attached_link2cow_ "gripper_box" = some cow →
      cow.getID = "gripper_box" ∧
      ∃ b, StrMap.find (applyAttachOps (0 : Int) chainEnv
        [AttachOp.addAttachableObject boxObject, AttachOp.attachBody boxInfo,
         AttachOp.attachBody boxInfo,
         AttachOp.attachBody { boxInfo with name := "other", object_name := "crate" },
         AttachOp.detachBody "none"]).attached_bodies_ "gripper_box" = some b ∧
        cow.ptr = COWSource.m_ab b) :=
  attached_bodies_and_registry_same_names 0 chainEnv rfl rfl _ "gripper_box"

theorem initialized_applyAttachOp (d : V) (env : BulletEnv V P G) (op : AttachOp G)
    (h : Initialized env) : Initialized (applyAttachOp d env op) := by
  cases op with
  | addAttachableObject o =>
    simp only [applyAttachOp, addAttachableObject]
    cases StrMap.find env.attachable_objects_ o.name with
    | some _ => exact h
    | none => exact ⟨h.qnr_injective, h.qnr_in_range, h.joints_known⟩
  | attachBody info =>
    simp only [applyAttachOp]
    cases hb : StrMap.find env.attached_bodies_ info.name with
    | some b =>
      rw [attachBody_of_attached d env info b hb]
      exact h
    | none =>
      cases ho : StrMap.find env.attachable_objects_ info.object_name with
      | none =>
        rw [attachBody_of_unknown_object d env info hb ho]
        exact h
      | some obj =>
        rw [attachBody_of_fresh d env info obj hb ho]
        exact ⟨h.qnr_injective, h.qnr_in_range, h.joints_known⟩
  | detachBody name => exact ⟨h.qnr_injective, h.qnr_in_range, h.joints_known⟩

end BulletEnv

/-! ## Attached bodies: lookup, detach, attachable objects -/

namespace BulletEnv

variable {V P G : Type}

/-- Claim C11, evaluated on the code: in the chain environment with
`gripper_box` attached, `getAttachedBody("gripper_box")` returns the stored
body without a report; for the name `ghost`, which is not attached, the error
is reported and the function then returns `body->second` read through `end()`,
not a null or empty result. -/
theorem getAttachedBody_reads_past_end :
    getAttachedBody chainEnvAttached "gripper_box" =
      (Access.value { info := boxInfo, obj := boxObject }, []) ∧
    StrMap.find chainEnvAttached.attached_bodies_ "ghost" = none ∧
    getAttachedBody chainEnvAttached "ghost" = (Access.pastEnd, [RosLog.error]) := by
  decide

/-- Claim C12: `detachBody(name)` is total and reports nothing; afterwards
`name` has no entry in the attached-body map nor in the collision-object
registry, every entry under another name is as before in both, the
attachable objects are untouched, a name absent from both maps leaves the
environment as it was, and a second call changes nothing more. -/
theorem detachBody_idempotent (env : BulletEnv V P G) (name : String) :
    StrMap.find (detachBody env name).attached_bodies_ name = none ∧
    StrMap.find (detachBody env name).attached_link2cow_ name = none ∧
    (∀ k, k ≠ name →
      StrMap.find (detachBody env name).attached_bodies_ k =
        StrMap.find env.attached_bodies_ k ∧
      StrMap.find (detachBody env name).attached_link2cow_ k =
        StrMap.find env.attached_link2cow_ k) ∧
    (detachBody env name).attachable_objects_ = env.attachable_objects_ ∧
    (StrMap.find env.attached_bodies_ name = none →
      StrMap.find env.attached_link2cow_ name = none → detachBody env name = env) ∧
    detachBody (detachBody env name) name = detachBody env name := by
  refine ⟨?_, ?_, ?_, rfl, ?_, ?_⟩
  · simp [detachBody, StrMap.find_erase]
  · simp [detachBody, StrMap.find_erase]
  · intro k hk
    simp [detachBody, StrMap.find_erase, hk]
  · intro hb hc
    simp [detachBody, StrMap.erase_of_find_none _ _ hb, StrMap.erase_of_find_none _ _ hc]
  · simp [detachBody, StrMap.erase_erase]

/-- Claim C13: when an object named `obj.name` is already stored,
`addAttachableObject(obj)` reports an error and leaves the environment as it
was (the earlier object stays); otherwise it reports nothing, the store then
holds `obj` under `obj.name`, every entry under another name is as before,
and the attached bodies and their collision objects are untouched. -/
theorem addAttachableObject_spec (env : BulletEnv V P G) (obj : AttachableObject G) :
    (∀ o, StrMap.find env.attachable_objects_ obj.name = some o →
      addAttachableObject env obj = (env, [RosLog.error])) ∧
    (StrMap.find env.attachable_objects_ obj.name = none →
      (addAttachableObject env obj).2 = [] ∧
      StrMap.find (addAttachableObject env obj).1.attachable_objects_ obj.name = some obj ∧
      (∀ k, k ≠ obj.name →
        StrMap.find (addAttachableObject env obj).1.attachable_objects_ k =
          StrMap.find env.attachable_objects_ k) ∧
      (addAttachableObject env obj).1.attached_bodies_ = env.attached_bodies_ ∧
      (addAttachableObject env obj).1.attached_link2cow_ = env.attached_link2cow_) := by
  refine ⟨?_, ?_⟩
  · intro o h
    simp [addAttachableObject, h]
  · intro h
    refine ⟨?_, ?_, ?_, ?_, ?_⟩
    · simp [addAttachableObject, h]
    · simp [addAttachableObject, h, StrMap.find_insert]
    · intro k hk
      simp [addAttachableObject, h, StrMap.find_insert, hk]
    · simp [addAttachableObject, h]
    · simp [addAttachableObject, h]

end BulletEnv

/-! ## Distance queries and trajectory checks -/

namespace BulletEnv

variable {V P G : Type}

/-! ## Distance results: lemmas -/

theorem toDistanceResultDiscrete_link_names [Inhabited V] (isNaN : V → Bool)
    (env : BulletEnv V P G) (it : BulletDistanceResult V) :
    (toDistanceResultDiscrete isNaN env it).link_names =
      (resultLinkName env it.body_types.1 it.link_names.1,
        resultLinkName env it.body_types.2 it.link_names.2) := by
  simp only [toDistanceResultDiscrete]
  split <;> rfl

theorem toDistanceResultContinuous_link_names [Inhabited V] (isNaN : V → Bool)
    (env : BulletEnv V P G) (it : BulletDistanceResult V) :
    (toDistanceResultContinuous isNaN env it).link_names =
      (resultLinkName env it.body_types.1 it.link_names.1,
        resultLinkName env it.body_types.2 it.link_names.2) := by
  simp only [toDistanceResultContinuous]
  split <;> split <;> rfl

theorem toDistanceResultDiscrete_valid [Inhabited V] (isNaN : V → Bool)
    (env : BulletEnv V P G) (it : BulletDistanceResult V) :
    (toDistanceResultDiscrete isNaN env it).valid =
      !(allNaN isNaN it.nearest_points.1 || allNaN isNaN it.nearest_points.2 ||
        allNaN isNaN it.normal) := by
  simp only [toDistanceResultDiscrete]
  split
  · rename_i h
    simp [h]
  · rename_i h
    simp only [Bool.not_eq_true] at h
    simp [h]

theorem toDistanceResultContinuous_valid [Inhabited V] (isNaN : V → Bool)
    (env : BulletEnv V P G) (it : BulletDistanceResult V) :
    (toDistanceResultContinuous isNaN env it).valid =
      (!(allNaN isNaN it.nearest_points.1 || allNaN isNaN it.nearest_points.2 ||
          allNaN isNaN it.normal) &&
        !(decide (it.cc_type ≠ ContinouseCollisionType.CCType_None) &&
          (allNaN isNaN it.cc_nearest_points.1 || allNaN isNaN it.cc_nearest_points.2))) := by
  simp only [toDistanceResultContinuous]
  generalize allNaN isNaN it.nearest_points.1 = a
  generalize allNaN isNaN it.nearest_points.2 = b
  generalize allNaN isNaN it.normal = c
  cases a <;> cases b <;> cases c <;>
    simp only [Bool.or_self, Bool.or_true, Bool.or_false, Bool.true_or, Bool.false_or,
      Bool.false_eq_true, if_true, if_false] <;>
    generalize allNaN isNaN it.cc_nearest_points.1 = d <;>
    generalize allNaN isNaN it.cc_nearest_points.2 = e <;>
    generalize it.cc_type = t <;>
    cases d <;> cases e <;> cases t <;> rfl

/-! ## Distance results: properties -/

/-- Claim C14 as stated fails on the code: for a narrow-phase result in which
one component of a nearest point (and one of a cast nearest point) is NaN
while the other components are numbers, both conversions leave the valid flag
true. -/
theorem valid_with_a_nan_component :
    Option.isNone partlyNaNResult.nearest_points.1.x = true ∧
    Option.isNone partlyNaNResult.cc_nearest_points.1.y = true ∧
    partlyNaNResult.cc_type ≠ ContinouseCollisionType.CCType_None ∧
    (toDistanceResultDiscrete Option.isNone nanEnv partlyNaNResult).valid = true ∧
    (toDistanceResultContinuous Option.isNone nanEnv partlyNaNResult).valid = true := by
  decide

/-- Claim C14, amended: for every narrow-phase result converted by
`calcDistancesDiscrete` the valid flag is false exactly when all components of
a nearest point or of the normal are NaN; for `calcDistancesContinuous` it is
false exactly then or when the classification is not `CCType_None` and all
components of a cast nearest point are NaN.  Either way every result of the
narrow phase is appended to the output, after the results already there. -/
theorem valid_false_iff_a_vector_all_nan [Inhabited V] [Mul P] [One P]
    (isNaN : V → Bool) (narrow : NarrowPhase V P G) (env : BulletEnv V P G)
    (req : DistanceRequest V) (dists : List (DistanceResult V))
    (it : BulletDistanceResult V) :
    ((toDistanceResultDiscrete isNaN env it).valid = false ↔
      (allNaN isNaN it.nearest_points.1 = true ∨ allNaN isNaN it.nearest_points.2 = true ∨
        allNaN isNaN it.normal = true)) ∧
    ((toDistanceResultContinuous isNaN env it).valid = false ↔
      (allNaN isNaN it.nearest_points.1 = true ∨ allNaN isNaN it.nearest_points.2 = true ∨
        allNaN isNaN it.normal = true ∨
        (it.cc_type ≠ ContinouseCollisionType.CCType_None ∧
          (allNaN isNaN it.cc_nearest_points.1 = true ∨
            allNaN isNaN it.cc_nearest_points.2 = true)))) ∧
    (∃ converted,
      calcDistancesDiscrete isNaN narrow env req dists = dists ++ converted ∧
      converted.length =
        ((narrow.discrete env (getStateNames env req.joint_names req.joint_angles1) req).map
          (fun pair => pair.2.length)).sum ∧
      ∀ pair ∈ narrow.discrete env (getStateNames env req.joint_names req.joint_angles1) req,
        ∀ r ∈ pair.2, toDistanceResultDiscrete isNaN env r ∈ converted) ∧
    (∃ converted,
      calcDistancesContinuous isNaN narrow env req dists = dists ++ converted ∧
      converted.length =
        ((narrow.continuous env (getStateNames env req.joint_names req.joint_angles1)
          (getStateNames env req.joint_names req.joint_angles2) req).map
          (fun pair => pair.2.length)).sum ∧
      ∀ pair ∈ narrow.continuous env (getStateNames env req.joint_names req.joint_angles1)
          (getStateNames env req.joint_names req.joint_angles2) req,
        ∀ r ∈ pair.2, toDistanceResultContinuous isNaN env r ∈ converted) := by
  refine ⟨?_, ?_, ?_, ?_⟩
  · rw [toDistanceResultDiscrete_valid]
    generalize allNaN isNaN it.nearest_points.1 = a
    generalize allNaN isNaN it.nearest_points.2 = b
    generalize allNaN isNaN it.normal = c
    cases a <;> cases b <;> cases c <;> simp
  · rw [toDistanceResultContinuous_valid]
    generalize allNaN isNaN it.nearest_points.1 = a
    generalize allNaN isNaN it.nearest_points.2 = b
    generalize allNaN isNaN it.normal = c
    generalize allNaN isNaN it.cc_nearest_points.1 = d
    generalize allNaN isNaN it.cc_nearest_points.2 = e
    generalize it.cc_type = t
    cases a <;> cases b <;> cases c <;> cases d <;> cases e <;> cases t <;> simp
  · refine ⟨_, rfl, ?_, ?_⟩
    · rw [List.length_flatMap]
      congr 1
      apply List.map_congr_left
      intro pair _
      simp
    · intro pair hp r hr
      exact List.mem_flatMap.mpr ⟨pair, hp, List.mem_map.mpr ⟨r, hr, rfl⟩⟩
  · refine ⟨_, rfl, ?_, ?_⟩
    · rw [List.length_flatMap]
      congr 1
      apply List.map_congr_left
      intro pair _
      simp
    · intro pair hp r hr
      exact List.mem_flatMap.mpr ⟨pair, hp, List.mem_map.mpr ⟨r, hr, rfl⟩⟩

/-- Claim C17: in the result that `calcDistancesDiscrete` or
`calcDistancesContinuous` makes of a narrow-phase result, a side of body type
`ROBOT_ATTACHED` whose name is the name of an attached body carries that
body's parent link name, and a side of any other body type carries the name
of the narrow-phase result unchanged. -/
theorem attached_side_reports_parent_link [Inhabited V] (isNaN : V → Bool)
    (env : BulletEnv V P G) (it : BulletDistanceResult V) :
    (∀ body, it.body_types.1 = BodyType.ROBOT_ATTACHED →
      StrMap.find env.attached_bodies_ it.link_names.1 = some body →
      (toDistanceResultDiscrete isNaN env it).link_names.1 =
        Access.value body.info.parent_link_name ∧
      (toDistanceResultContinuous isNaN env it).link_names.1 =
        Access.value body.info.parent_link_name) ∧
    (∀ body, it.body_types.2 = BodyType.ROBOT_ATTACHED →
      StrMap.find env.attached_bodies_ it.link_names.2 = some body →
      (toDistanceResultDiscrete isNaN env it).link_names.2 =
        Access.value body.info.parent_link_name ∧
      (toDistanceResultContinuous isNaN env it).link_names.2 =
        Access.value body.info.parent_link_name) ∧
    (it.body_types.1 ≠ BodyType.ROBOT_ATTACHED →
      (toDistanceResultDiscrete isNaN env it).link_names.1 = Access.value it.link_names.1 ∧
      (toDistanceResultContinuous isNaN env it).link_names.1 =
        Access.value it.link_names.1) ∧
    (it.body_types.2 ≠ BodyType.ROBOT_ATTACHED →
      (toDistanceResultDiscrete isNaN env it).link_names.2 = Access.value it.link_names.2 ∧
      (toDistanceResultContinuous isNaN env it).link_names.2 =
        Access.value it.link_names.2) := by
  rw [toDistanceResultDiscrete_link_names, toDistanceResultContinuous_link_names]
  refine ⟨?_, ?_, ?_, ?_⟩
  · intro body hty hfind
    simp [resultLinkName, hty, getAttachedBody, hfind, Access.ofIterator, Access.map]
  · intro body hty hfind
    simp [resultLinkName, hty, getAttachedBody, hfind, Access.ofIterator, Access.map]
  · intro hty
    simp [resultLinkName, hty]
  · intro hty
    simp [resultLinkName, hty]

/-! ## Trajectory checks: lemmas -/

theorem calcCollisionsContinuous_append [Inhabited V] [Mul P] [One P] (isNaN : V → Bool)
    (narrow : NarrowPhase V P G) (env : BulletEnv V P G) (req : DistanceRequest V)
    (collisions : List (DistanceResult V)) :
    calcCollisionsContinuous isNaN narrow env req collisions =
      collisions ++ calcCollisionsContinuous isNaN narrow env req [] := by
  simp [calcCollisionsContinuous, calcDistancesContinuous]

theorem allLoop_spec [Inhabited V] [Mul P] [One P] (isNaN : V → Bool)
    (narrow : NarrowPhase V P G) (env : BulletEnv V P G) (rows : List (List V)) :
    ∀ (row : List V) (req : DistanceRequest V) (found : Bool)
      (collisions : List (DistanceResult V)) (issued : List (DistanceRequest V)),
      (allLoop isNaN narrow env row rows req found collisions issued).collisions =
        collisions ++ (List.zip (row :: rows) rows).flatMap (fun seg =>
          calcCollisionsContinuous isNaN narrow env
            { req with joint_angles1 := seg.1, joint_angles2 := seg.2 } []) ∧
      (allLoop isNaN narrow env row rows req found collisions issued).queries =
        issued ++ (List.zip (row :: rows) rows).map (fun seg =>
          { req with joint_angles1 := seg.1, joint_angles2 := seg.2 }) := by
  induction rows with
  | nil =>
    intro row req found collisions issued
    simp [allLoop]
  | cons next rest ih =>
    intro row req found collisions issued
    simp only [allLoop, List.zip_cons_cons, List.flatMap_cons, List.map_cons]
    obtain ⟨h1, h2⟩ := ih next { req with joint_angles1 := row, joint_angles2 := next }
      (if (calcCollisionsContinuous isNaN narrow env
          { req with joint_angles1 := row, joint_angles2 := next } collisions).length > 0
        then true else found)
      (calcCollisionsContinuous isNaN narrow env
        { req with joint_angles1 := row, joint_angles2 := next } collisions)
      (issued ++ [{ req with joint_angles1 := row, joint_angles2 := next }])
    refine ⟨?_, ?_⟩
    · rw [h1, calcCollisionsContinuous_append isNaN narrow env _ collisions]
      simp
    · rw [h2]
      simp

theorem singleLoop_none [Inhabited V] [Mul P] [One P] (isNaN : V → Bool)
    (narrow : NarrowPhase V P G) (env : BulletEnv V P G) (rows : List (List V)) :
    ∀ (row : List V) (req : DistanceRequest V) (issued : List (DistanceRequest V)),
      (∀ seg ∈ List.zip (row :: rows) rows,
        calcCollisionsContinuous isNaN narrow env
          { req with joint_angles1 := seg.1, joint_angles2 := seg.2 } [] = []) →
      singleLoop isNaN narrow env row rows req [] issued =
        { found := false, collision := none,
          queries := issued ++ (List.zip (row :: rows) rows).map (fun seg =>
            { req with joint_angles1 := seg.1, joint_angles2 := seg.2 }) } := by
  induction rows with
  | nil =>
    intro row req issued _
    simp [singleLoop]
  | cons next rest ih =>
    intro row req issued hall
    have h0 := hall (row, next) (by simp)
    simp only at h0
    have hrest := ih next { req with joint_angles1 := row, joint_angles2 := next }
      (issued ++ [{ req with joint_angles1 := row, joint_angles2 := next }])
      (fun seg hseg => hall seg (by
        simp only [List.zip_cons_cons, List.mem_cons]
        exact Or.inr hseg))
    simp only [singleLoop, h0, List.length_nil, gt_iff_lt, lt_self_iff_false, if_false]
    rw [hrest]
    simp

theorem singleLoop_first [Inhabited V] [Mul P] [One P] (isNaN : V → Bool)
    (narrow : NarrowPhase V P G) (env : BulletEnv V P G) (rows : List (List V)) :
    ∀ (row : List V) (req : DistanceRequest V) (issued : List (DistanceRequest V))
      (pre : List (List V × List V)) (seg : List V × List V) (post : List (List V × List V)),
      List.zip (row :: rows) rows = pre ++ seg :: post →
      (∀ s ∈ pre, calcCollisionsContinuous isNaN narrow env
        { req with joint_angles1 := s.1, joint_angles2 := s.2 } [] = []) →
      calcCollisionsContinuous isNaN narrow env
        { req with joint_angles1 := seg.1, joint_angles2 := seg.2 } [] ≠ [] →
      singleLoop isNaN narrow env row rows req [] issued =
        { found := true,
          collision := (calcCollisionsContinuous isNaN narrow env
            { req with joint_angles1 := seg.1, joint_angles2 := seg.2 } []).head?,
          queries := issued ++ (pre ++ [seg]).map (fun s =>
            { req with joint_angles1 := s.1, joint_angles2 := s.2 }) } := by
  induction rows with
  | nil =>
    intro row req issued pre seg post hsplit
    simp at hsplit
  | cons next rest ih =>
    intro row req issued pre seg post hsplit hpre hseg
    simp only [List.zip_cons_cons] at hsplit
    cases pre with
    | nil =>
      simp only [List.nil_append, List.cons.injEq] at hsplit
      obtain ⟨hs, _⟩ := hsplit
      subst hs
      simp only at hseg
      have hlen : (calcCollisionsContinuous isNaN narrow env
          { req with joint_angles1 := row, joint_angles2 := next } []).length > 0 :=
        List.length_pos.mpr hseg
      simp only [singleLoop, hlen, if_true]
      simp
    | cons s0 pre' =>
      simp only [List.cons_append, List.cons.injEq] at hsplit
      obtain ⟨hs, hrest⟩ := hsplit
      subst hs
      have h0 := hpre (row, next) (by simp)
      simp only at h0
      have := ih next { req with joint_angles1 := row, joint_angles2 := next }
        (issued ++ [{ req with joint_angles1 := row, joint_angles2 := next }])
        pre' seg post hrest (fun s hs => hpre s (List.mem_cons_of_mem _ hs)) hseg
      simp only [singleLoop, h0, List.length_nil, gt_iff_lt, lt_self_iff_false, if_false]
      rw [this]
      simp

theorem exists_first_nonempty {α β : Type} (f : α → List β) (l : List α)
    (h : ¬ ∀ s ∈ l, f s = []) :
    ∃ pre seg post, l = pre ++ seg :: post ∧ (∀ s ∈ pre, f s = []) ∧ f seg ≠ [] := by
  induction l with
  | nil => simp at h
  | cons a rest ih =>
    by_cases ha : f a = []
    · have hrest : ¬ ∀ s ∈ rest, f s = [] := by
        intro hall
        apply h
        intro s hs
        rcases List.mem_cons.mp hs with rfl | hs
        · exact ha
        · exact hall s hs
      obtain ⟨pre, seg, post, hsplit, hpre, hseg⟩ := ih hrest
      refine ⟨a :: pre, seg, post, by simp [hsplit], ?_, hseg⟩
      intro s hs
      rcases List.mem_cons.mp hs with rfl | hs
      · exact ha
      · exact hpre s hs
    · exact ⟨[], a, rest, rfl, by simp, ha⟩

theorem segments_append_row (traj : List (List V)) (row : List V) :
    ∃ extra, segments (traj ++ [row]) = segments traj ++ extra := by
  have aux : ∀ (l : List (List V)) (a : List V),
      ∃ extra, List.zip (a :: (l ++ [row])) (l ++ [row]) = List.zip (a :: l) l ++ extra := by
    intro l
    induction l with
    | nil => intro a; exact ⟨[(a, row)], by simp⟩
    | cons b rest ih =>
      intro a
      obtain ⟨extra, he⟩ := ih b
      exact ⟨extra, by simp only [List.cons_append, List.zip_cons_cons, he]⟩
  cases traj with
  | nil => exact ⟨[], by simp [segments]⟩
  | cons a rest =>
    obtain ⟨extra, he⟩ := aux rest a
    exact ⟨extra, by simpa [segments] using he⟩

theorem length_segments (traj : List (List V)) :
    (segments traj).length = traj.length - 1 := by
  simp [segments, List.length_zip]

/-! ## Trajectory checks: properties -/

/-- Claim C15: the single-result overload of
`continuousCollisionCheckTrajectory` hands the segments to
`calcCollisionsContinuous` in order; when `seg` is the first segment whose
query yields a result, it returns true with the first result of that query
and has issued the queries up to `seg` and no later one; when no segment
yields a result it returns false, writes no result and has queried every
segment.  It returns false exactly when no segment yields a result, so for a
trajectory of at most one row. -/
theorem single_result_check_stops_at_first_hit [Inhabited V] [Mul P] [One P]
    (isNaN : V → Bool) (narrow : NarrowPhase V P G) (env : BulletEnv V P G)
    (joint_names link_names : List String) (traj : List (List V)) :
    (∀ pre seg post, segments traj = pre ++ seg :: post →
      (∀ s ∈ pre, segmentResults isNaN narrow env DistanceRequestType.SINGLE
        joint_names link_names s = []) →
      segmentResults isNaN narrow env DistanceRequestType.SINGLE
        joint_names link_names seg ≠ [] →
      continuousCollisionCheckTrajectorySingle isNaN narrow env joint_names link_names traj =
        { found := true,
          collision := (segmentResults isNaN narrow env DistanceRequestType.SINGLE
            joint_names link_names seg).head?,
          queries := (pre ++ [seg]).map
            (segmentRequest env DistanceRequestType.SINGLE joint_names link_names) }) ∧
    ((∀ s ∈ segments traj, segmentResults isNaN narrow env DistanceRequestType.SINGLE
        joint_names link_names s = []) →
      continuousCollisionCheckTrajectorySingle isNaN narrow env joint_names link_names traj =
        { found := false, collision := none,
          queries := (segments traj).map
            (segmentRequest env DistanceRequestType.SINGLE joint_names link_names) }) ∧
    ((continuousCollisionCheckTrajectorySingle isNaN narrow env joint_names link_names
        traj).found = false ↔
      ∀ s ∈ segments traj, segmentResults isNaN narrow env DistanceRequestType.SINGLE
        joint_names link_names s = []) ∧
    (traj.length ≤ 1 →
      (continuousCollisionCheckTrajectorySingle isNaN narrow env joint_names link_names
        traj).found = false) := by
  have hfirst : ∀ pre seg post, segments traj = pre ++ seg :: post →
      (∀ s ∈ pre, segmentResults isNaN narrow env DistanceRequestType.SINGLE
        joint_names link_names s = []) →
      segmentResults isNaN narrow env DistanceRequestType.SINGLE
        joint_names link_names seg ≠ [] →
      continuousCollisionCheckTrajectorySingle isNaN narrow env joint_names link_names traj =
        { found := true,
          collision := (segmentResults isNaN narrow env DistanceRequestType.SINGLE
            joint_names link_names seg).head?,
          queries := (pre ++ [seg]).map
            (segmentRequest env DistanceRequestType.SINGLE joint_names link_names) } := by
    intro pre seg post hsplit hpre hseg
    cases traj with
    | nil => simp [segments] at hsplit
    | cons row rest =>
      have := singleLoop_first isNaN narrow env rest row
        { (default : DistanceRequest V) with
          type := DistanceRequestType.SINGLE, joint_names := joint_names,
          link_names := link_names, acm := env.getAllowedCollisions } [] pre seg post
        hsplit hpre hseg
      simp only [continuousCollisionCheckTrajectorySingle]
      rw [this]
      rfl
  have hnone : (∀ s ∈ segments traj, segmentResults isNaN narrow env
        DistanceRequestType.SINGLE joint_names link_names s = []) →
      continuousCollisionCheckTrajectorySingle isNaN narrow env joint_names link_names traj =
        { found := false, collision := none,
          queries := (segments traj).map
            (segmentRequest env DistanceRequestType.SINGLE joint_names link_names) } := by
    intro hall
    cases traj with
    | nil => simp [continuousCollisionCheckTrajectorySingle, segments]
    | cons row rest =>
      have := singleLoop_none isNaN narrow env rest row
        { (default : DistanceRequest V) with
          type := DistanceRequestType.SINGLE, joint_names := joint_names,
          link_names := link_names, acm := env.getAllowedCollisions } [] hall
      simp only [continuousCollisionCheckTrajectorySingle]
      rw [this]
      rfl
  refine ⟨hfirst, hnone, ⟨?_, ?_⟩, ?_⟩
  · intro hfound
    by_contra hnot
    obtain ⟨pre, seg, post, hsplit, hpre, hseg⟩ := exists_first_nonempty
      (segmentResults isNaN narrow env DistanceRequestType.SINGLE joint_names link_names)
      (segments traj) hnot
    rw [hfirst pre seg post hsplit hpre hseg] at hfound
    simp at hfound
  · intro hall
    rw [hnone hall]
  · intro hlen
    have hsegs : segments traj = [] := by
      apply List.eq_nil_of_length_eq_zero
      rw [length_segments]
      omega
    rw [hnone (by simp [hsegs])]

/-- Claim C16: the result-vector overload of
`continuousCollisionCheckTrajectory` hands every segment of the trajectory to
`calcCollisionsContinuous`, in order and once each (one query less than there
are rows); the vector afterwards is the vector before followed by the results
of the segments in order, so its size is the size before plus the result
counts of the segments, and a trajectory with one more row gives a vector that
starts with the vector of the shorter trajectory. -/
theorem result_vector_check_scans_all [Inhabited V] [Mul P] [One P]
    (isNaN : V → Bool) (narrow : NarrowPhase V P G) (env : BulletEnv V P G)
    (joint_names link_names : List String) (traj : List (List V))
    (collisions : List (DistanceResult V)) :
    (continuousCollisionCheckTrajectoryAll isNaN narrow env joint_names link_names traj
        collisions).queries =
      (segments traj).map
        (segmentRequest env DistanceRequestType.ALL joint_names link_names) ∧
    (continuousCollisionCheckTrajectoryAll isNaN narrow env joint_names link_names traj
        collisions).queries.length = traj.length - 1 ∧
    (continuousCollisionCheckTrajectoryAll isNaN narrow env joint_names link_names traj
        collisions).collisions =
      collisions ++ (segments traj).flatMap
        (segmentResults isNaN narrow env DistanceRequestType.ALL joint_names link_names) ∧
    (continuousCollisionCheckTrajectoryAll isNaN narrow env joint_names link_names traj
        collisions).collisions.length =
      collisions.length + ((segments traj).map (fun seg =>
        (segmentResults isNaN narrow env DistanceRequestType.ALL joint_names link_names
          seg).length)).sum ∧
    (∀ row,
      (continuousCollisionCheckTrajectoryAll isNaN narrow env joint_names link_names traj
        collisions).collisions <+:
      (continuousCollisionCheckTrajectoryAll isNaN narrow env joint_names link_names
        (traj ++ [row]) collisions).collisions) := by
  have hq : ∀ t : List (List V),
      (continuousCollisionCheckTrajectoryAll isNaN narrow env joint_names link_names t
          collisions).queries =
        (segments t).map
          (segmentRequest env DistanceRequestType.ALL joint_names link_names) := by
    intro t
    cases t with
    | nil => simp [continuousCollisionCheckTrajectoryAll, segments]
    | cons row rest =>
      simp only [continuousCollisionCheckTrajectoryAll]
      rw [(allLoop_spec isNaN narrow env rest row _ false collisions []).2]
      rfl
  have hc : ∀ t : List (List V),
      (continuousCollisionCheckTrajectoryAll isNaN narrow env joint_names link_names t
          collisions).collisions =
        collisions ++ (segments t).flatMap
          (segmentResults isNaN narrow env DistanceRequestType.ALL joint_names link_names) := by
    intro t
    cases t with
    | nil => simp [continuousCollisionCheckTrajectoryAll, segments]
    | cons row rest =>
      simp only [continuousCollisionCheckTrajectoryAll]
      rw [(allLoop_spec isNaN narrow env rest row _ false collisions []).1]
      rfl
  refine ⟨hq traj, ?_, hc traj, ?_, ?_⟩
  · rw [hq traj, List.length_map, length_segments]
  · rw [hc traj, List.length_append, List.length_flatMap]
    rfl
  · intro row
    obtain ⟨extra, he⟩ := segments_append_row traj row
    rw [hc traj, hc (traj ++ [row]), he, List.flatMap_append, ← List.append_assoc]
    exact List.prefix_append _ _

end BulletEnv

/-! ## Accessors -/

namespace BulletEnv

variable {V P G : Type}

/-- Claim C18, evaluated on the code: in the chain environment the current
state has no transform for the name `ghost`; `getLinkTransform("ghost")`
leaves the transforms map with a fourth entry, stored under `ghost`, while for
the link `link1` it returns the stored transform and leaves the map as it
was. -/
theorem getLinkTransform_inserts_unknown_link :
    StrMap.find chainEnv.current_state_.transforms "ghost" = none ∧
    chainEnv.current_state_.transforms = [("base", 1), ("link1", 2), ("link2", 2)] ∧
    (getLinkTransform chainEnv "ghost").2.current_state_.transforms =
      [("base", 1), ("ghost", 0), ("link1", 2), ("link2", 2)] ∧
    getCurrentJointValues (getLinkTransform chainEnv "ghost").2 =
      getCurrentJointValues chainEnv ∧
    (getLinkTransform chainEnv "link1").1 = 2 ∧
    (getLinkTransform chainEnv "link1").2.current_state_.transforms =
      chainEnv.current_state_.transforms := by
  decide

theorem index_of_find_some {β : Type} (m : StrMap β) (k : String) (dflt v : β)
    (h : StrMap.find m k = some v) : StrMap.index m k dflt = (v, m) := by
  simp [StrMap.index, h]

theorem getLinkTransform_of_known [Inhabited P] (env : BulletEnv V P G) (link_name : String)
    (t : P) (h : StrMap.find env.current_state_.transforms link_name = some t) :
    getLinkTransform env link_name = (t, env) := by
  simp [getLinkTransform, index_of_find_some _ _ _ _ h]

theorem jointValuesLoop_of_known [Zero V] (names : List String) (joints : StrMap V)
    (h : ∀ n ∈ names, (StrMap.find joints n).isSome = true) :
    (jointValuesLoop names joints).2 = joints := by
  induction names with
  | nil => rfl
  | cons n rest ih =>
    obtain ⟨v, hv⟩ := Option.isSome_iff_exists.mp (h n (List.mem_cons_self _ _))
    simp only [jointValuesLoop, index_of_find_some _ _ _ _ hv]
    exact ih (fun m hm => h m (List.mem_cons_of_mem _ hm))

end BulletEnv

/-! ## Initialization status -/

namespace BulletEnvObject

variable {V P G : Type}

open BulletEnv

/-- Claim C19 as stated fails on the code: after `init` with a null model the
object is not initialized, yet `getState` on a fresh object reads through the
null `current_state_` pointer instead of returning an empty state; and on an
object that an earlier `init` had set up, the queries still run on the tree
of that earlier call: the discrete query returns a result and both trajectory
checks return true. -/
theorem queries_ignore_not_initialized :
    (init 0 freshObject none none).2.1 = false ∧
    (init 0 freshObject none none).1.initialized_ = false ∧
    getState (init 0 freshObject none none).1 ["j1"] [5] = Access.nullDeref ∧
    staleObject.initialized_ = false ∧
    (calcDistancesDiscrete (fun _ => false) touchingNarrow staleObject default []).map
      List.length = Access.value 1 ∧
    (continuousCollisionCheckTrajectorySingle (fun _ => false) touchingNarrow staleObject
      ["j1"] [] [[0], [1]]).map (fun r => r.found) = Access.value true ∧
    (continuousCollisionCheckTrajectoryAll (fun _ => false) touchingNarrow staleObject
      ["j1"] [] [[0], [1]] []).map (fun r => r.found) = Access.value true := by
  refine ⟨rfl, rfl, rfl, rfl, ?_, ?_, ?_⟩ <;> decide

/-- Claim C19, amended: `init` returns false exactly when the model is null,
has no root, or the tree construction fails; the value returned is the value
of `initialized_` afterwards, as `checkInitialized()` gives it; after a failed
`init` the object is not initialized, an error has been reported, and the
other members are as they were.  The query methods do not consult
`initialized_`: each gives the same outcome whatever its value. -/
theorem init_failure_not_initialized [Inhabited V] [Zero V] [Mul P] [One P]
    (d : V) (isNaN : V → Bool) (narrow : NarrowPhase V P G)
    (obj : BulletEnvObject V P G) (urdf_model : Option (UrdfModel V P G))
    (srdf_model : Option SrdfModel) :
    ((init d obj urdf_model srdf_model).2.1 = false ↔
      (urdf_model = none ∨
        ∃ model, urdf_model = some model ∧ (model.root_ = false ∨ model.kdl_tree = none))) ∧
    checkInitialized (init d obj urdf_model srdf_model).1 =
      (init d obj urdf_model srdf_model).2.1 ∧
    ((init d obj urdf_model srdf_model).2.1 = false →
      (init d obj urdf_model srdf_model).1.initialized_ = false ∧
      (init d obj urdf_model srdf_model).1.members = obj.members ∧
      RosLog.error ∈ (init d obj urdf_model srdf_model).2.2) ∧
    (∀ (b : Bool) (joint_names link_names : List String) (joint_values : List V)
        (req : DistanceRequest V) (dists : List (DistanceResult V)) (traj : List (List V)),
      getState { obj with initialized_ := b } joint_names joint_values =
        getState obj joint_names joint_values ∧
      calcDistancesDiscrete isNaN narrow { obj with initialized_ := b } req dists =
        calcDistancesDiscrete isNaN narrow obj req dists ∧
      calcDistancesContinuous isNaN narrow { obj with initialized_ := b } req dists =
        calcDistancesContinuous isNaN narrow obj req dists ∧
      continuousCollisionCheckTrajectorySingle isNaN narrow { obj with initialized_ := b }
          joint_names link_names traj =
        continuousCollisionCheckTrajectorySingle isNaN narrow obj joint_names link_names
          traj ∧
      continuousCollisionCheckTrajectoryAll isNaN narrow { obj with initialized_ := b }
          joint_names link_names traj dists =
        continuousCollisionCheckTrajectoryAll isNaN narrow obj joint_names link_names
          traj dists) := by
  refine ⟨?_, ?_, ?_, ?_⟩
  · cases urdf_model with
    | none => simp [init]
    | some model =>
      cases hr : model.root_ with
      | false => simp [init, hr]
      | true =>
        cases ht : model.kdl_tree with
        | none => simp [init, hr, ht]
        | some tree => simp [init, hr, ht]
  · cases urdf_model with
    | none => simp [init, checkInitialized]
    | some model =>
      cases hr : model.root_ with
      | false => simp [init, checkInitialized, hr]
      | true =>
        cases ht : model.kdl_tree with
        | none => simp [init, checkInitialized, hr, ht]
        | some tree => simp [init, checkInitialized, hr, ht]
  · cases urdf_model with
    | none => simp [init]
    | some model =>
      cases hr : model.root_ with
      | false => simp [init, hr]
      | true =>
        cases ht : model.kdl_tree with
        | none => simp [init, hr, ht]
        | some tree => simp [init, hr, ht]
  · intro b joint_names link_names joint_values req dists traj
    exact ⟨rfl, rfl, rfl, rfl, rfl⟩

/-- Claim C20, evaluated on the code: on a fresh object
`init(urdf_model, nullptr)` returns true for the chain model and false for a
null model, while the one-argument `init(urdf_model)`, which makes the same
call and leaves the object in the same state, ends without a return statement
and hands no value back in either case. -/
theorem one_argument_init_returns_nothing :
    (init 0 freshObject (some chainModel) none).2.1 = true ∧
    (initUrdf 0 freshObject (some chainModel)).2.1 = none ∧
    (initUrdf 0 freshObject (some chainModel)).1.initialized_ = true ∧
    (init 0 freshObject none none).2.1 = false ∧
    (initUrdf 0 freshObject none).2.1 = none ∧
    (initUrdf 0 freshObject none).1.initialized_ = false := by
  decide

theorem init_fresh_members :
    (init 0 freshObject (some chainModel) none).1.members.map
        (fun env => (env.joint_to_qnr_, env.kdl_jnt_array_, env.current_state_.joints,
          env.current_state_.transforms)) =
      some (chainEnv.joint_to_qnr_, chainEnv.kdl_jnt_array_, chainEnv.current_state_.joints,
        chainEnv.current_state_.transforms) := by
  decide

end BulletEnvObject

namespace BulletEnv

variable {V P G S B : Type}

/-! ## Collision object builders: lemmas -/

theorem isStaticLink_iff (active_links : List String) (name : String) :
    isStaticLink active_links name = true ↔ active_links ≠ [] ∧ name ∉ active_links := by
  cases active_links with
  | nil => simp [isStaticLink]
  | cons a rest => simp [isStaticLink]

theorem discreteStep_eq (convertEigenToBt : P → B) (getCollisionShape : COW V G → BtShape S B)
    (contact_distance : V) (state : EnvState V P) (active_links : List String)
    (continuous : Bool) (key frame : String) (source : COW V G)
    (acc : BuilderOutput V G S B) :
    discreteStep convertEigenToBt getCollisionShape contact_distance state active_links
        continuous key frame source acc =
      { acc with
        collision_objects := StrMap.assign acc.collision_objects key
          (discreteEntry convertEigenToBt getCollisionShape contact_distance state
            active_links continuous frame source)
        active_objects :=
          if isStaticLink active_links frame then acc.active_objects
          else acc.active_objects ++ [key] } := by
  cases h : isStaticLink active_links frame <;>
    simp [discreteStep, discreteEntry, h, StaticFilter, KinematicFilter]

theorem discreteRobotLoop_eq_foldl (convertEigenToBt : P → B)
    (getCollisionShape : COW V G → BtShape S B) (contact_distance : V) (state : EnvState V P)
    (active_links : List String) (continuous : Bool) (l : List (String × COW V G))
    (acc : BuilderOutput V G S B) :
    discreteRobotLoop convertEigenToBt getCollisionShape contact_distance state active_links
        continuous l acc =
      l.foldl (fun a e => discreteStep convertEigenToBt getCollisionShape contact_distance
        state active_links continuous e.1 e.1 e.2 a) acc := by
  induction l generalizing acc with
  | nil => rfl
  | cons e rest ih =>
    obtain ⟨k, c⟩ := e
    simp only [discreteRobotLoop, List.foldl_cons]
    exact ih _

theorem discreteAttachedLoop_eq_foldl (convertEigenToBt : P → B)
    (getCollisionShape : COW V G → BtShape S B) (contact_distance : V) (state : EnvState V P)
    (active_links : List String) (continuous : Bool) (l : List (String × COW V G))
    (acc : BuilderOutput V G S B) :
    discreteAttachedLoop convertEigenToBt getCollisionShape contact_distance state
        active_links continuous l acc =
      l.foldl (fun a e => discreteStep convertEigenToBt getCollisionShape contact_distance
        state active_links continuous e.1 (parentLinkName e.2) e.2 a) acc := by
  induction l generalizing acc with
  | nil => rfl
  | cons e rest ih =>
    obtain ⟨k, c⟩ := e
    simp only [discreteAttachedLoop, List.foldl_cons]
    exact ih _

/-- A loop of steps, each of which stores an object under the key of its
registry entry: the object found afterwards under a key that the loop does
not visit is the one found before. -/
theorem foldl_assign_frame {α : Type} (entry : String × α → TransientCOW V G S B)
    (step : BuilderOutput V G S B → String × α → BuilderOutput V G S B)
    (hstep : ∀ a e, (step a e).collision_objects =
      StrMap.assign a.collision_objects e.1 (entry e))
    (l : List (String × α)) (acc : BuilderOutput V G S B) (k : String)
    (hk : k ∉ l.map Prod.fst) :
    StrMap.find (l.foldl step acc).collision_objects k =
      StrMap.find acc.collision_objects k := by
  induction l generalizing acc with
  | nil => rfl
  | cons e rest ih =>
    simp only [List.map_cons, List.mem_cons, not_or] at hk
    simp only [List.foldl_cons]
    rw [ih _ hk.2, hstep, StrMap.find_assign, if_neg hk.1]

/-- In such a loop over a registry with pairwise distinct keys, the object
found afterwards under the key of a registry entry is the one stored for that
entry. -/
theorem foldl_assign_mem {α : Type} (entry : String × α → TransientCOW V G S B)
    (step : BuilderOutput V G S B → String × α → BuilderOutput V G S B)
    (hstep : ∀ a e, (step a e).collision_objects =
      StrMap.assign a.collision_objects e.1 (entry e))
    (l : List (String × α)) (acc : BuilderOutput V G S B) (hnd : (l.map Prod.fst).Nodup)
    (e : String × α) (he : e ∈ l) :
    StrMap.find (l.foldl step acc).collision_objects e.1 = some (entry e) := by
  induction l generalizing acc with
  | nil => simp at he
  | cons x rest ih =>
    simp only [List.map_cons, List.nodup_cons] at hnd
    simp only [List.foldl_cons]
    rcases List.mem_cons.mp he with h | h
    · subst h
      rw [foldl_assign_frame entry step hstep rest _ e.1 hnd.1, hstep, StrMap.find_assign,
        if_pos rfl]
    · exact ih _ hnd.2 h

/-- Every object found after such a loop was found before it or is the one
stored for an entry of the registry. -/
theorem foldl_assign_cases {α : Type} (entry : String × α → TransientCOW V G S B)
    (step : BuilderOutput V G S B → String × α → BuilderOutput V G S B)
    (hstep : ∀ a e, (step a e).collision_objects =
      StrMap.assign a.collision_objects e.1 (entry e))
    (l : List (String × α)) (acc : BuilderOutput V G S B) (k : String)
    (c : TransientCOW V G S B)
    (h : StrMap.find (l.foldl step acc).collision_objects k = some c) :
    StrMap.find acc.collision_objects k = some c ∨ ∃ e ∈ l, e.1 = k ∧ c = entry e := by
  induction l generalizing acc with
  | nil => exact Or.inl h
  | cons x rest ih =>
    simp only [List.foldl_cons] at h
    rcases ih _ h with h1 | ⟨e, he, hk, hc⟩
    · rw [hstep, StrMap.find_assign] at h1
      by_cases hx : k = x.1
      · simp only [hx, if_true, Option.some.injEq] at h1
        exact Or.inr ⟨x, List.mem_cons_self _ _, hx.symm, h1.symm⟩
      · simp only [hx, if_false] at h1
        exact Or.inl h1
    · exact Or.inr ⟨e, List.mem_cons_of_mem _ he, hk, hc⟩

theorem foldl_active_all {α : Type}
    (step : BuilderOutput V G S B → String × α → BuilderOutput V G S B)
    (hstep : ∀ a e, (step a e).active_objects = a.active_objects ++ [e.1])
    (l : List (String × α)) (acc : BuilderOutput V G S B) :
    (l.foldl step acc).active_objects = acc.active_objects ++ l.map Prod.fst := by
  induction l generalizing acc with
  | nil => simp
  | cons x rest ih =>
    simp only [List.foldl_cons, List.map_cons]
    rw [ih, hstep]
    simp

theorem continuousStep_eq [Inv B] [Mul B] (convertEigenToBt : P → B)
    (getCollisionShape : COW V G → BtShape S B) (contact_distance : V)
    (state1 state2 : EnvState V P) (active_links : List String) (key frame : String)
    (source : COW V G) (acc : BuilderOutput V G S B) :
    continuousStep convertEigenToBt getCollisionShape contact_distance state1 state2
        active_links key frame source acc =
      { collision_objects := StrMap.assign acc.collision_objects key
          (continuousEntry convertEigenToBt getCollisionShape contact_distance state1 state2
            active_links frame source)
        active_objects :=
          if isStaticLink active_links frame then acc.active_objects
          else acc.active_objects ++ [key]
        log := acc.log ++ continuousReport getCollisionShape active_links frame source } := by
  cases h : isStaticLink active_links frame
  · cases hs : getCollisionShape source <;>
      simp [continuousStep, continuousEntry, continuousReport, sweptShape, h, hs,
        StaticFilter, KinematicFilter]
  · simp [continuousStep, continuousEntry, continuousReport, h, StaticFilter,
      KinematicFilter]

theorem continuousRobotLoop_eq_foldl [Inv B] [Mul B] (convertEigenToBt : P → B)
    (getCollisionShape : COW V G → BtShape S B) (contact_distance : V)
    (state1 state2 : EnvState V P) (active_links : List String)
    (l : List (String × COW V G)) (acc : BuilderOutput V G S B) :
    continuousRobotLoop convertEigenToBt getCollisionShape contact_distance state1 state2
        active_links l acc =
      l.foldl (fun a e => continuousStep convertEigenToBt getCollisionShape contact_distance
        state1 state2 active_links e.1 e.1 e.2 a) acc := by
  induction l generalizing acc with
  | nil => rfl
  | cons e rest ih =>
    obtain ⟨k, c⟩ := e
    simp only [continuousRobotLoop, List.foldl_cons]
    exact ih _

theorem continuousAttachedLoop_eq_foldl [Inv B] [Mul B] (convertEigenToBt : P → B)
    (getCollisionShape : COW V G → BtShape S B) (contact_distance : V)
    (state1 state2 : EnvState V P) (active_links : List String)
    (l : List (String × COW V G)) (acc : BuilderOutput V G S B) :
    continuousAttachedLoop convertEigenToBt getCollisionShape contact_distance state1 state2
        active_links l acc =
      l.foldl (fun a e => continuousStep convertEigenToBt getCollisionShape contact_distance
        state1 state2 active_links e.1 (parentLinkName e.2) e.2 a) acc := by
  induction l generalizing acc with
  | nil => rfl
  | cons e rest ih =>
    obtain ⟨k, c⟩ := e
    simp only [continuousAttachedLoop, List.foldl_cons]
    exact ih _

theorem constructBulletObjectContinuous_eq_foldl [Inv B] [Mul B] (convertEigenToBt : P → B)
    (getCollisionShape : COW V G → BtShape S B) (env : BulletEnv V P G)
    (acc : BuilderOutput V G S B) (contact_distance : V) (state1 state2 : EnvState V P)
    (active_links : List String) :
    constructBulletObjectContinuous convertEigenToBt getCollisionShape env acc
        contact_distance state1 state2 active_links =
      env.attached_link2cow_.foldl
        (fun a e => continuousStep convertEigenToBt getCollisionShape contact_distance
          state1 state2 active_links e.1 (parentLinkName e.2) e.2 a)
        (env.robot_link2cow_.foldl
          (fun a e => continuousStep convertEigenToBt getCollisionShape contact_distance
            state1 state2 active_links e.1 e.1 e.2 a) acc) := by
  simp only [constructBulletObjectContinuous, continuousAttachedLoop_eq_foldl,
    continuousRobotLoop_eq_foldl]

/-- The object the continuous builder leaves under the key of an attached
body, and under the key of a robot link that is not also the key of an
attached body, for registries with pairwise distinct keys. -/
theorem constructBulletObjectContinuous_entries [Inv B] [Mul B] (convertEigenToBt : P → B)
    (getCollisionShape : COW V G → BtShape S B) (env : BulletEnv V P G)
    (acc : BuilderOutput V G S B) (contact_distance : V) (state1 state2 : EnvState V P)
    (active_links : List String) :
    (∀ key source, (StrMap.keys env.attached_link2cow_).Nodup →
      (key, source) ∈ env.attached_link2cow_ →
      StrMap.find (constructBulletObjectContinuous convertEigenToBt getCollisionShape env acc
          contact_distance state1 state2 active_links).collision_objects key =
        some (continuousEntry convertEigenToBt getCollisionShape contact_distance state1
          state2 active_links (parentLinkName source) source)) ∧
    (∀ key source, (StrMap.keys env.robot_link2cow_).Nodup →
      (key, source) ∈ env.robot_link2cow_ → key ∉ StrMap.keys env.attached_link2cow_ →
      StrMap.find (constructBulletObjectContinuous convertEigenToBt getCollisionShape env acc
          contact_distance state1 state2 active_links).collision_objects key =
        some (continuousEntry convertEigenToBt getCollisionShape contact_distance state1
          state2 active_links key source)) := by
  rw [constructBulletObjectContinuous_eq_foldl]
  refine ⟨?_, ?_⟩
  · intro key source hnd hmem
    exact foldl_assign_mem
      (fun e => continuousEntry convertEigenToBt getCollisionShape contact_distance state1
        state2 active_links (parentLinkName e.2) e.2) _
      (fun a e => by rw [continuousStep_eq]) env.attached_link2cow_ _ hnd (key, source) hmem
  · intro key source hnd hmem hnot
    rw [foldl_assign_frame
      (fun e => continuousEntry convertEigenToBt getCollisionShape contact_distance state1
        state2 active_links (parentLinkName e.2) e.2) _
      (fun a e => by rw [continuousStep_eq]) env.attached_link2cow_ _ key hnot]
    exact foldl_assign_mem
      (fun e => continuousEntry convertEigenToBt getCollisionShape contact_distance state1
        state2 active_links e.1 e.2) _
      (fun a e => by rw [continuousStep_eq]) env.robot_link2cow_ acc hnd (key, source) hmem

theorem continuousEntry_filter [Inv B] [Mul B] (convertEigenToBt : P → B)
    (getCollisionShape : COW V G → BtShape S B) (contact_distance : V)
    (state1 state2 : EnvState V P) (active_links : List String) (frame : String)
    (source : COW V G) :
    (continuousEntry convertEigenToBt getCollisionShape contact_distance state1 state2
        active_links frame source).m_collisionFilterGroup =
      (if isStaticLink active_links frame then StaticFilter else KinematicFilter) ∧
    (continuousEntry convertEigenToBt getCollisionShape contact_distance state1 state2
        active_links frame source).m_collisionFilterMask =
      (if isStaticLink active_links frame then KinematicFilter else StaticFilter) := by
  cases h : isStaticLink active_links frame
  · cases hs : getCollisionShape source <;> simp [continuousEntry, sweptShape, h, hs]
  · simp [continuousEntry, h]

theorem lookupTransform_of_find (convertEigenToBt : P → B) (state : EnvState V P)
    (frame : String) (pose : P) (h : StrMap.find state.transforms frame = some pose) :
    lookupTransform convertEigenToBt state frame = Access.value (convertEigenToBt pose) := by
  simp [lookupTransform, h, Access.ofIterator, Access.map]

theorem continuousEntry_convex [Inv B] [Mul B] (convertEigenToBt : P → B)
    (getCollisionShape : COW V G → BtShape S B) (contact_distance : V)
    (state1 state2 : EnvState V P) (active_links : List String) (frame : String)
    (source : COW V G) (convex : S) (pose1 pose2 : P)
    (hshape : getCollisionShape source = BtShape.convex convex)
    (hactive : isStaticLink active_links frame = false)
    (h1 : StrMap.find state1.transforms frame = some pose1)
    (h2 : StrMap.find state2.transforms frame = some pose2) :
    continuousEntry convertEigenToBt getCollisionShape contact_distance state1 state2
        active_links frame source =
      { cow := COW.setContactDistance source contact_distance
        shape := BuiltShape.castHull convex
          (Access.value (inverseTimes (convertEigenToBt pose1) (convertEigenToBt pose2)))
        world_transform := some (Access.value (convertEigenToBt pose1))
        m_collisionFilterGroup := KinematicFilter
        m_collisionFilterMask := StaticFilter } := by
  simp [continuousEntry, hactive, hshape, sweptShape, Access.map2,
    lookupTransform_of_find _ _ _ _ h1, lookupTransform_of_find _ _ _ _ h2]

theorem continuousEntry_compound [Inv B] [Mul B] (convertEigenToBt : P → B)
    (getCollisionShape : COW V G → BtShape S B) (contact_distance : V)
    (state1 state2 : EnvState V P) (active_links : List String) (frame : String)
    (source : COW V G) (children : List (B × S)) (pose1 pose2 : P)
    (hshape : getCollisionShape source = BtShape.compound children)
    (hactive : isStaticLink active_links frame = false)
    (h1 : StrMap.find state1.transforms frame = some pose1)
    (h2 : StrMap.find state2.transforms frame = some pose2) :
    continuousEntry convertEigenToBt getCollisionShape contact_distance state1 state2
        active_links frame source =
      { cow := COW.setContactDistance source contact_distance
        shape := BuiltShape.castCompound
          (children.map (fun child =>
            (child.1, child.2,
              Access.value (inverseTimes (convertEigenToBt pose1 * child.1)
                (convertEigenToBt pose2 * child.1)))))
        world_transform := some (Access.value (convertEigenToBt pose1))
        m_collisionFilterGroup := KinematicFilter
        m_collisionFilterMask := StaticFilter } := by
  simp [continuousEntry, hactive, hshape, sweptShape, Access.map2,
    lookupTransform_of_find _ _ _ _ h1, lookupTransform_of_find _ _ _ _ h2]

/-- Every object in the map of the continuous builder that the builder has
stored comes out of `continuousEntry`. -/
theorem constructBulletObjectContinuous_cases [Inv B] [Mul B] (convertEigenToBt : P → B)
    (getCollisionShape : COW V G → BtShape S B) (env : BulletEnv V P G)
    (acc : BuilderOutput V G S B) (contact_distance : V) (state1 state2 : EnvState V P)
    (active_links : List String) (key : String) (c : TransientCOW V G S B)
    (h : StrMap.find (constructBulletObjectContinuous convertEigenToBt getCollisionShape env
      acc contact_distance state1 state2 active_links).collision_objects key = some c) :
    StrMap.find acc.collision_objects key = some c ∨
      ∃ frame source, c = continuousEntry convertEigenToBt getCollisionShape contact_distance
        state1 state2 active_links frame source := by
  rw [constructBulletObjectContinuous_eq_foldl] at h
  rcases foldl_assign_cases
      (fun e : String × COW V G => continuousEntry convertEigenToBt getCollisionShape
        contact_distance state1 state2 active_links (parentLinkName e.2) e.2)
      _ (fun a e => by rw [continuousStep_eq]) _ _ key c h with h1 | ⟨e, _, _, hc⟩
  · rcases foldl_assign_cases
        (fun e : String × COW V G => continuousEntry convertEigenToBt getCollisionShape
          contact_distance state1 state2 active_links e.1 e.2)
        _ (fun a e => by rw [continuousStep_eq]) _ _ key c h1 with h2 | ⟨e, _, _, hc⟩
    · exact Or.inl h2
    · exact Or.inr ⟨_, _, hc⟩
  · exact Or.inr ⟨_, _, hc⟩

/-! ## Collision object builders: properties -/

/-- Claim C21: in the discrete builder (`continuous` false) the step made for a
registry entry `key ↦ source` posed by the link `frame` (the link itself for
a robot link, the parent link for an attached body) stores under `key` an
object that, when the active-link list is non-empty and does not hold
`frame`, has group STATIC and mask KINEMATIC, the list of active objects
staying as it is, and otherwise has group KINEMATIC and mask
STATIC|KINEMATIC, `key` being appended to the list of active objects.  The
builder makes this step for every entry of the robot-link registry and then
of the attached-body registry; with pairwise distinct keys the object found
in the end under the key of an attached body, or of a robot link that is not
also the key of an attached body, is the one stored for it; and with an empty
active-link list every key is appended to the list of active objects. -/
theorem discrete_builder_groups_and_masks (convertEigenToBt : P → B)
    (getCollisionShape : COW V G → BtShape S B) (env : BulletEnv V P G)
    (acc : BuilderOutput V G S B) (contact_distance : V) (state : EnvState V P)
    (active_links : List String) :
    (∀ (key frame : String) (source : COW V G) (acc' : BuilderOutput V G S B),
      (active_links ≠ [] ∧ frame ∉ active_links →
        ∃ e, StrMap.find (discreteStep convertEigenToBt getCollisionShape contact_distance
            state active_links false key frame source acc').collision_objects key = some e ∧
          e.m_collisionFilterGroup = StaticFilter ∧
          e.m_collisionFilterMask = KinematicFilter ∧
          (discreteStep convertEigenToBt getCollisionShape contact_distance state
            active_links false key frame source acc').active_objects = acc'.active_objects) ∧
      (¬ (active_links ≠ [] ∧ frame ∉ active_links) →
        ∃ e, StrMap.find (discreteStep convertEigenToBt getCollisionShape contact_distance
            state active_links false key frame source acc').collision_objects key = some e ∧
          e.m_collisionFilterGroup = KinematicFilter ∧
          e.m_collisionFilterMask = StaticFilter ||| KinematicFilter ∧
          (discreteStep convertEigenToBt getCollisionShape contact_distance state
            active_links false key frame source acc').active_objects =
            acc'.active_objects ++ [key])) ∧
    constructBulletObjectDiscrete convertEigenToBt getCollisionShape env acc contact_distance
        state active_links false =
      env.attached_link2cow_.foldl
        (fun a e => discreteStep convertEigenToBt getCollisionShape contact_distance state
          active_links false e.1 (parentLinkName e.2) e.2 a)
        (env.robot_link2cow_.foldl
          (fun a e => discreteStep convertEigenToBt getCollisionShape contact_distance state
            active_links false e.1 e.1 e.2 a) acc) ∧
    (∀ key source, (StrMap.keys env.attached_link2cow_).Nodup →
      (key, source) ∈ env.attached_link2cow_ →
      StrMap.find (constructBulletObjectDiscrete convertEigenToBt getCollisionShape env acc
          contact_distance state active_links false).collision_objects key =
        some (discreteEntry convertEigenToBt getCollisionShape contact_distance state
          active_links false (parentLinkName source) source)) ∧
    (∀ key source, (StrMap.keys env.robot_link2cow_).Nodup →
      (key, source) ∈ env.robot_link2cow_ → key ∉ StrMap.keys env.attached_link2cow_ →
      StrMap.find (constructBulletObjectDiscrete convertEigenToBt getCollisionShape env acc
          contact_distance state active_links false).collision_objects key =
        some (discreteEntry convertEigenToBt getCollisionShape contact_distance state
          active_links false key source)) ∧
    (active_links = [] →
      (constructBulletObjectDiscrete convertEigenToBt getCollisionShape env acc
          contact_distance state active_links false).active_objects =
        acc.active_objects ++ StrMap.keys env.robot_link2cow_ ++
          StrMap.keys env.attached_link2cow_) := by
  have hbuild : constructBulletObjectDiscrete convertEigenToBt getCollisionShape env acc
        contact_distance state active_links false =
      env.attached_link2cow_.foldl
        (fun a e => discreteStep convertEigenToBt getCollisionShape contact_distance state
          active_links false e.1 (parentLinkName e.2) e.2 a)
        (env.robot_link2cow_.foldl
          (fun a e => discreteStep convertEigenToBt getCollisionShape contact_distance state
            active_links false e.1 e.1 e.2 a) acc) := by
    simp only [constructBulletObjectDiscrete, discreteAttachedLoop_eq_foldl,
      discreteRobotLoop_eq_foldl]
  refine ⟨?_, hbuild, ?_, ?_, ?_⟩
  · intro key frame source acc'
    rw [discreteStep_eq]
    refine ⟨?_, ?_⟩
    · intro h
      have hs := (isStaticLink_iff active_links frame).mpr h
      refine ⟨_, StrMap.find_assign _ _ _ _ |>.trans (if_pos rfl), ?_, ?_, ?_⟩ <;>
        simp [discreteEntry, hs]
    · intro h
      have hs : isStaticLink active_links frame = false := by
        cases hc : isStaticLink active_links frame with
        | false => rfl
        | true => exact absurd ((isStaticLink_iff active_links frame).mp hc) h
      refine ⟨_, StrMap.find_assign _ _ _ _ |>.trans (if_pos rfl), ?_, ?_, ?_⟩ <;>
        simp [discreteEntry, hs]
  · intro key source hnd hmem
    rw [hbuild]
    exact foldl_assign_mem
      (fun e => discreteEntry convertEigenToBt getCollisionShape contact_distance state
        active_links false (parentLinkName e.2) e.2) _
      (fun a e => by rw [discreteStep_eq]) env.attached_link2cow_ _ hnd (key, source) hmem
  · intro key source hnd hmem hnot
    rw [hbuild]
    rw [foldl_assign_frame
      (fun e => discreteEntry convertEigenToBt getCollisionShape contact_distance state
        active_links false (parentLinkName e.2) e.2) _
      (fun a e => by rw [discreteStep_eq]) env.attached_link2cow_ _ key hnot]
    exact foldl_assign_mem
      (fun e => discreteEntry convertEigenToBt getCollisionShape contact_distance state
        active_links false e.1 e.2) _
      (fun a e => by rw [discreteStep_eq]) env.robot_link2cow_ acc hnd (key, source) hmem
  · intro hempty
    subst hempty
    rw [hbuild]
    have hs : ∀ n, isStaticLink [] n = false := fun n => by simp [isStaticLink]
    rw [foldl_active_all _ (fun a e => by rw [discreteStep_eq]; simp [hs]),
      foldl_active_all _ (fun a e => by rw [discreteStep_eq]; simp [hs])]
    rfl

/-- Claim C22, evaluated on the code: the continuous builder is run on the
chain with every link active, between the initial state and the state with
`j1 = 5`.  The start-state transform of `link2` is 2, but `link2` has a shape
that is neither convex nor compound, and its entry of the transient map has
no world transform set; the entry of the convex `link1` is posed at its
start-state transform. -/
theorem other_shape_entry_is_not_posed :
    StrMap.find chainEnvLinks.current_state_.transforms "link2" = some 2 ∧
    (StrMap.find (constructBulletObjectContinuous chainConvert chainShapes chainEnvLinks {} 0
        chainEnvLinks.current_state_ chainStateMoved []).collision_objects "link2").map
      (fun e => e.world_transform) = some none ∧
    (StrMap.find (constructBulletObjectContinuous chainConvert chainShapes chainEnvLinks {} 0
        chainEnvLinks.current_state_ chainStateMoved []).collision_objects "link1").map
      (fun e => e.world_transform) = some (some (Access.value (chainConvert 2))) := by
  decide

/-- Claim C23: in the continuous builder let the registry entry `key ↦ source`
be active and have a compound shape with children `(g_i, s_i)`, and let
`pose1`, `pose2` be the transforms of its frame in the start and the end
state, `tf1` and `tf2` as `btTransform`s.  Then the step stores under `key` an
object whose shape is a new compound with as many children, child `i` with
the same local transform `g_i`, made of `s_i` and swept by
`inverse(tf1 * g_i) * (tf2 * g_i)`; its world transform is `tf1`; that
relative transform equals `inverse(g_i) * inverse(tf1) * tf2 * g_i`, and is
the identity when `tf1 = tf2`.  For registries with pairwise distinct keys
this is the object the builder leaves under the key. -/
theorem compound_entry_is_swept [Group B] (convertEigenToBt : P → B)
    (getCollisionShape : COW V G → BtShape S B) (env : BulletEnv V P G)
    (acc : BuilderOutput V G S B) (contact_distance : V) (state1 state2 : EnvState V P)
    (active_links : List String) (key frame : String) (source : COW V G)
    (children : List (B × S)) (pose1 pose2 : P)
    (hshape : getCollisionShape source = BtShape.compound children)
    (hactive : isStaticLink active_links frame = false)
    (h1 : StrMap.find state1.transforms frame = some pose1)
    (h2 : StrMap.find state2.transforms frame = some pose2) :
    ∃ e cs, StrMap.find (continuousStep convertEigenToBt getCollisionShape contact_distance
        state1 state2 active_links key frame source acc).collision_objects key = some e ∧
      e.shape = BuiltShape.castCompound cs ∧
      cs.length = children.length ∧
      cs.map (fun c => c.1) = children.map (fun child => child.1) ∧
      cs.map (fun c => c.2.1) = children.map (fun child => child.2) ∧
      cs.map (fun c => c.2.2) = children.map (fun child =>
        Access.value ((convertEigenToBt pose1 * child.1)⁻¹ *
          (convertEigenToBt pose2 * child.1))) ∧
      e.world_transform = some (Access.value (convertEigenToBt pose1)) ∧
      (∀ g : B, (convertEigenToBt pose1 * g)⁻¹ * (convertEigenToBt pose2 * g) =
        g⁻¹ * (convertEigenToBt pose1)⁻¹ * convertEigenToBt pose2 * g) ∧
      (convertEigenToBt pose1 = convertEigenToBt pose2 →
        cs.map (fun c => c.2.2) = children.map (fun _ => Access.value (1 : B))) ∧
      ((StrMap.keys env.robot_link2cow_).Nodup → (key, source) ∈ env.robot_link2cow_ →
        key ∉ StrMap.keys env.attached_link2cow_ → frame = key →
        StrMap.find (constructBulletObjectContinuous convertEigenToBt getCollisionShape env
          acc contact_distance state1 state2 active_links).collision_objects key = some e) ∧
      ((StrMap.keys env.attached_link2cow_).Nodup → (key, source) ∈ env.attached_link2cow_ →
        frame = parentLinkName source →
        StrMap.find (constructBulletObjectContinuous convertEigenToBt getCollisionShape env
          acc contact_distance state1 state2 active_links).collision_objects key = some e) := by
  have hentry := continuousEntry_compound convertEigenToBt getCollisionShape contact_distance
    state1 state2 active_links frame source children pose1 pose2 hshape hactive h1 h2
  have hall := constructBulletObjectContinuous_entries convertEigenToBt getCollisionShape env
    acc contact_distance state1 state2 active_links
  refine ⟨continuousEntry convertEigenToBt getCollisionShape contact_distance state1 state2
    active_links frame source, children.map (fun child =>
      (child.1, child.2,
        Access.value (inverseTimes (convertEigenToBt pose1 * child.1)
          (convertEigenToBt pose2 * child.1)))), ?_, ?_, ?_, ?_, ?_, ?_, ?_, ?_, ?_, ?_, ?_⟩
  · rw [continuousStep_eq]
    exact (StrMap.find_assign _ _ _ _).trans (if_pos rfl)
  · rw [hentry]
  · simp
  · simp [Function.comp_def]
  · simp [Function.comp_def]
  · simp [Function.comp_def, inverseTimes]
  · rw [hentry]
  · intro g
    simp [mul_assoc]
  · intro heq
    simp [Function.comp_def, inverseTimes, heq, mul_assoc]
  · intro hnd hmem hnot hframe
    rw [hframe]
    exact hall.2 key source hnd hmem hnot
  · intro hnd hmem hframe
    rw [hframe]
    exact hall.1 key source hnd hmem

/-- Witness of C23 on the chain with `gripper_box` attached to `link2`: the
body is a compound of two children, `link2` is the only active link, and its
transform is 2 in the initial state and 7 in the state with `j1 = 5`. -/
theorem compound_entry_is_swept_witness :
    ∃ e cs, StrMap.find (continuousStep chainConvert chainShapes (0 : Int)
        chainEnvGripper.current_state_ chainStateMoved ["link2"] "gripper_box" "link2"
        { ptr := COWSource.m_ab { info := boxInfo, obj := boxObject },
          contact_distance := some 0 }
        {}).collision_objects "gripper_box" = some e ∧
      e.shape = BuiltShape.castCompound cs ∧
      cs.length = [(Multiplicative.ofAdd (1 : Int), 3), (Multiplicative.ofAdd 2, 4)].length ∧
      cs.map (fun c => c.1) = [Multiplicative.ofAdd (1 : Int), Multiplicative.ofAdd 2] ∧
      cs.map (fun c => c.2.1) = [3, 4] ∧
      cs.map (fun c => c.2.2) =
        [(Multiplicative.ofAdd (1 : Int), 3), (Multiplicative.ofAdd 2, 4)].map (fun child =>
          Access.value ((chainConvert 2 * child.1)⁻¹ * (chainConvert 7 * child.1))) ∧
      e.world_transform = some (Access.value (chainConvert 2)) ∧
      (∀ g : Multiplicative Int, (chainConvert 2 * g)⁻¹ * (chainConvert 7 * g) =
        g⁻¹ * (chainConvert 2)⁻¹ * chainConvert 7 * g) ∧
      (chainConvert 2 = chainConvert 7 →
        cs.map (fun c => c.2.2) =
          [(Multiplicative.ofAdd (1 : Int), 3), (Multiplicative.ofAdd 2, 4)].map
            (fun _ => Access.value (1 : Multiplicative Int))) ∧
      ((StrMap.keys chainEnvGripper.robot_link2cow_).Nodup →
        (("gripper_box",
          { ptr := COWSource.m_ab { info := boxInfo, obj := boxObject },
            contact_distance := some 0 }) : String × COW Int Nat) ∈
          chainEnvGripper.robot_link2cow_ →
        "gripper_box" ∉ StrMap.keys chainEnvGripper.attached_link2cow_ →
        "link2" = "gripper_box" →
        StrMap.find (constructBulletObjectContinuous chainConvert chainShapes chainEnvGripper
          {} 0 chainEnvGripper.current_state_ chainStateMoved ["link2"]).collision_objects
          "gripper_box" = some e) ∧
      ((StrMap.keys chainEnvGripper.attached_link2cow_).Nodup →
        (("gripper_box",
          { ptr := COWSource.m_ab { info := boxInfo, obj := boxObject },
            contact_distance := some 0 }) : String × COW Int Nat) ∈
          chainEnvGripper.attached_link2cow_ →
        "link2" = parentLinkName
          ({ ptr := COWSource.m_ab { info := boxInfo, obj := boxObject },
             contact_distance := some 0 } : COW Int Nat) →
        StrMap.find (constructBulletObjectContinuous chainConvert chainShapes chainEnvGripper
          {} 0 chainEnvGripper.current_state_ chainStateMoved ["link2"]).collision_objects
          "gripper_box" = some e) :=
  compound_entry_is_swept chainConvert chainShapes chainEnvGripper {} 0
    chainEnvGripper.current_state_ chainStateMoved ["link2"] "gripper_box" "link2"
    { ptr := COWSource.m_ab { info := boxInfo, obj := boxObject }, contact_distance := some 0 }
    [(Multiplicative.ofAdd 1, 3), (Multiplicative.ofAdd 2, 4)] 2 7
    (by decide) (by decide) (by decide) (by decide)

/-- Claim C24: in the continuous builder let the registry entry `key ↦ source`
have a single convex shape and be active, and let `pose1` and `pose2` be the
transforms of its frame (the link, or the parent link of an attached body) in
the start and the end state.  Then the step stores under `key` an object
whose shape is the cast shape of that convex shape with the relative
transform `inverse(pose1) * pose2` and whose world transform is `pose1`; and
for registries with pairwise distinct keys this is the object the builder
leaves under the key of a robot link (not also the key of an attached body)
and of an attached body. -/
theorem convex_entry_is_swept [Inv B] [Mul B] (convertEigenToBt : P → B)
    (getCollisionShape : COW V G → BtShape S B) (env : BulletEnv V P G)
    (acc : BuilderOutput V G S B) (contact_distance : V) (state1 state2 : EnvState V P)
    (active_links : List String) (key frame : String) (source : COW V G) (convex : S)
    (pose1 pose2 : P)
    (hshape : getCollisionShape source = BtShape.convex convex)
    (hactive : isStaticLink active_links frame = false)
    (h1 : StrMap.find state1.transforms frame = some pose1)
    (h2 : StrMap.find state2.transforms frame = some pose2) :
    ∃ e, StrMap.find (continuousStep convertEigenToBt getCollisionShape contact_distance
        state1 state2 active_links key frame source acc).collision_objects key = some e ∧
      e.shape = BuiltShape.castHull convex
        (Access.value ((convertEigenToBt pose1)⁻¹ * convertEigenToBt pose2)) ∧
      e.world_transform = some (Access.value (convertEigenToBt pose1)) ∧
      ((StrMap.keys env.robot_link2cow_).Nodup → (key, source) ∈ env.robot_link2cow_ →
        key ∉ StrMap.keys env.attached_link2cow_ → frame = key →
        StrMap.find (constructBulletObjectContinuous convertEigenToBt getCollisionShape env
          acc contact_distance state1 state2 active_links).collision_objects key = some e) ∧
      ((StrMap.keys env.attached_link2cow_).Nodup → (key, source) ∈ env.attached_link2cow_ →
        frame = parentLinkName source →
        StrMap.find (constructBulletObjectContinuous convertEigenToBt getCollisionShape env
          acc contact_distance state1 state2 active_links).collision_objects key = some e) := by
  have hentry := continuousEntry_convex convertEigenToBt getCollisionShape contact_distance
    state1 state2 active_links frame source convex pose1 pose2 hshape hactive h1 h2
  have hall := constructBulletObjectContinuous_entries convertEigenToBt getCollisionShape env
    acc contact_distance state1 state2 active_links
  refine ⟨continuousEntry convertEigenToBt getCollisionShape contact_distance state1 state2
    active_links frame source, ?_, ?_, ?_, ?_, ?_⟩
  · rw [continuousStep_eq]
    exact (StrMap.find_assign _ _ _ _).trans (if_pos rfl)
  · rw [hentry]; rfl
  · rw [hentry]
  · intro hnd hmem hnot hframe
    rw [hframe]
    exact hall.2 key source hnd hmem hnot
  · intro hnd hmem hframe
    rw [hframe]
    exact hall.1 key source hnd hmem

/-- Witness of C24 on the chain: `link1` is convex and active, with transform
2 in the initial state and 7 in the state with `j1 = 5`. -/
theorem convex_entry_is_swept_witness :
    ∃ e, StrMap.find (continuousStep chainConvert chainShapes (0 : Int)
        chainEnvLinks.current_state_ chainStateMoved [] "link1" "link1"
        { ptr := COWSource.m_link "link1", contact_distance := some 0 }
        {}).collision_objects "link1" = some e ∧
      e.shape = BuiltShape.castHull 5
        (Access.value ((chainConvert 2)⁻¹ * chainConvert 7)) ∧
      e.world_transform = some (Access.value (chainConvert 2)) ∧
      ((StrMap.keys chainEnvLinks.robot_link2cow_).Nodup →
        (("link1", { ptr := COWSource.m_link "link1", contact_distance := some 0 }) :
          String × COW Int Nat) ∈ chainEnvLinks.robot_link2cow_ →
        "link1" ∉ StrMap.keys chainEnvLinks.attached_link2cow_ → "link1" = "link1" →
        StrMap.find (constructBulletObjectContinuous chainConvert chainShapes chainEnvLinks
          {} 0 chainEnvLinks.current_state_ chainStateMoved []).collision_objects "link1" =
          some e) ∧
      ((StrMap.keys chainEnvLinks.attached_link2cow_).Nodup →
        (("link1", { ptr := COWSource.m_link "link1", contact_distance := some 0 }) :
          String × COW Int Nat) ∈ chainEnvLinks.attached_link2cow_ →
        "link1" = parentLinkName
          ({ ptr := COWSource.m_link "link1", contact_distance := some 0 } : COW Int Nat) →
        StrMap.find (constructBulletObjectContinuous chainConvert chainShapes chainEnvLinks
          {} 0 chainEnvLinks.current_state_ chainStateMoved []).collision_objects "link1" =
          some e) :=
  convex_entry_is_swept chainConvert chainShapes chainEnvLinks {} 0
    chainEnvLinks.current_state_ chainStateMoved [] "link1" "link1"
    { ptr := COWSource.m_link "link1", contact_distance := some 0 } 5 2 7
    (by decide) (by decide) (by decide) (by decide)

/-- Claim C25, evaluated on the code: in the same run the error for `link2` is
reported, and yet `link2` is on the list of active objects and the transient
map holds under `link2` an object with its shape as it was, not swept. -/
theorem other_shape_entry_is_carried_on :
    (constructBulletObjectContinuous chainConvert chainShapes chainEnvLinks {} 0
        chainEnvLinks.current_state_ chainStateMoved []).log = [RosLog.error] ∧
    (constructBulletObjectContinuous chainConvert chainShapes chainEnvLinks {} 0
        chainEnvLinks.current_state_ chainStateMoved []).active_objects = ["link1", "link2"] ∧
    (StrMap.find (constructBulletObjectContinuous chainConvert chainShapes chainEnvLinks {} 0
        chainEnvLinks.current_state_ chainStateMoved []).collision_objects "link2").map
      (fun e => e.shape) = some (BuiltShape.unchanged (BtShape.other 7)) := by
  decide

/-- Claim C28: the continuous builder gives an active entry group KINEMATIC
and mask STATIC and a static entry group STATIC and mask KINEMATIC, in the
step and so in every object it leaves in a map that was empty before; two
objects that are both active or both static are no candidate pair under the
group/mask rule; and with an empty list of active links no two objects of the
map are a candidate pair. -/
theorem continuous_builder_groups_and_masks [Inv B] [Mul B] (convertEigenToBt : P → B)
    (getCollisionShape : COW V G → BtShape S B) (env : BulletEnv V P G)
    (contact_distance : V) (state1 state2 : EnvState V P) (active_links : List String) :
    (∀ key frame source (acc : BuilderOutput V G S B),
      ∃ e, StrMap.find (continuousStep convertEigenToBt getCollisionShape contact_distance
          state1 state2 active_links key frame source acc).collision_objects key = some e ∧
        (isStaticLink active_links frame = true →
          e.m_collisionFilterGroup = StaticFilter ∧
          e.m_collisionFilterMask = KinematicFilter) ∧
        (isStaticLink active_links frame = false →
          e.m_collisionFilterGroup = KinematicFilter ∧
          e.m_collisionFilterMask = StaticFilter)) ∧
    (∀ key e, StrMap.find (constructBulletObjectContinuous convertEigenToBt getCollisionShape
        env {} contact_distance state1 state2 active_links).collision_objects key = some e →
      (e.m_collisionFilterGroup = KinematicFilter ∧ e.m_collisionFilterMask = StaticFilter) ∨
      (e.m_collisionFilterGroup = StaticFilter ∧ e.m_collisionFilterMask = KinematicFilter)) ∧
    (∀ a b : TransientCOW V G S B,
      a.m_collisionFilterGroup = KinematicFilter → a.m_collisionFilterMask = StaticFilter →
      b.m_collisionFilterGroup = KinematicFilter → b.m_collisionFilterMask = StaticFilter →
      needsCollision a b = false) ∧
    (∀ a b : TransientCOW V G S B,
      a.m_collisionFilterGroup = StaticFilter → a.m_collisionFilterMask = KinematicFilter →
      b.m_collisionFilterGroup = StaticFilter → b.m_collisionFilterMask = KinematicFilter →
      needsCollision a b = false) ∧
    (∀ key1 key2 e1 e2,
      StrMap.find (constructBulletObjectContinuous convertEigenToBt getCollisionShape
        env {} contact_distance state1 state2 []).collision_objects key1 = some e1 →
      StrMap.find (constructBulletObjectContinuous convertEigenToBt getCollisionShape
        env {} contact_distance state1 state2 []).collision_objects key2 = some e2 →
      needsCollision e1 e2 = false) := by
  have hkk : ∀ a b : TransientCOW V G S B,
      a.m_collisionFilterGroup = KinematicFilter → a.m_collisionFilterMask = StaticFilter →
      b.m_collisionFilterGroup = KinematicFilter → b.m_collisionFilterMask = StaticFilter →
      needsCollision a b = false := by
    intro a b ha1 ha2 hb1 hb2
    simp only [needsCollision, ha1, ha2, hb1, hb2]
    decide
  have hactive : ∀ key (e : TransientCOW V G S B),
      StrMap.find (constructBulletObjectContinuous convertEigenToBt getCollisionShape
        env {} contact_distance state1 state2 []).collision_objects key = some e →
      e.m_collisionFilterGroup = KinematicFilter ∧ e.m_collisionFilterMask = StaticFilter := by
    intro key e h
    rcases constructBulletObjectContinuous_cases _ _ _ _ _ _ _ _ _ _ h with h0 | ⟨f, s, hc⟩
    · simp [StrMap.find] at h0
    · have hf := continuousEntry_filter convertEigenToBt getCollisionShape contact_distance
        state1 state2 [] f s
      rw [← hc] at hf
      simpa [isStaticLink] using hf
  refine ⟨?_, ?_, hkk, ?_, ?_⟩
  · intro key frame source acc
    have hf := continuousEntry_filter convertEigenToBt getCollisionShape contact_distance
      state1 state2 active_links frame source
    refine ⟨continuousEntry convertEigenToBt getCollisionShape contact_distance state1 state2
      active_links frame source, ?_, ?_, ?_⟩
    · rw [continuousStep_eq]
      exact (StrMap.find_assign _ _ _ _).trans (if_pos rfl)
    · intro hs
      simpa [hs] using hf
    · intro hs
      simpa [hs] using hf
  · intro key e h
    rcases constructBulletObjectContinuous_cases _ _ _ _ _ _ _ _ _ _ h with h0 | ⟨f, s, hc⟩
    · simp [StrMap.find] at h0
    · have hf := continuousEntry_filter convertEigenToBt getCollisionShape contact_distance
        state1 state2 active_links f s
      rw [← hc] at hf
      cases hs : isStaticLink active_links f
      · left; simpa [hs] using hf
      · right; simpa [hs] using hf
  · intro a b ha1 ha2 hb1 hb2
    simp only [needsCollision, ha1, ha2, hb1, hb2]
    decide
  · intro key1 key2 e1 e2 he1 he2
    exact hkk e1 e2 (hactive key1 e1 he1).1 (hactive key1 e1 he1).2 (hactive key2 e2 he2).1
      (hactive key2 e2 he2).2

/-- Claim C29, evaluated on the code: `chainEnvStray` is reached from the
initialized chain by `addAttachableObject` and `attachBody`, neither of
which reports an error; the parent link name `nowhere` of the attached body `stray` is not
a segment of the kinematic tree, the state `getState` computes has no
transform for it, and both builders read the transform of `stray` through
the past-the-end iterator. -/
theorem attached_parent_link_is_not_checked :
    (addAttachableObject chainEnvLinks boxObject).2 = [] ∧
    (attachBody (0 : Int) (addAttachableObject chainEnvLinks boxObject).1 strayInfo).2 =
      [RosLog.debug] ∧
    "nowhere" ∉ chainEnvStray.kdl_tree_.names ∧
    (StrMap.find chainEnvStray.attached_bodies_ "stray").map
      (fun ab => ab.info.parent_link_name) = some "nowhere" ∧
    StrMap.keys (getStateNames chainEnvStray ["j1"] [5]).transforms =
      ["base", "link1", "link2"] ∧
    (StrMap.find (constructBulletObjectDiscrete chainConvert chainShapes chainEnvStray {} 0
        (getStateNames chainEnvStray ["j1"] [5]) [] false).collision_objects "stray").map
      (fun e => e.world_transform) = some (some Access.pastEnd) ∧
    (StrMap.find (constructBulletObjectContinuous chainConvert chainShapes chainEnvStray {} 0
        chainEnvStray.current_state_ (getStateNames chainEnvStray ["j1"] [5])
        []).collision_objects "stray").map
      (fun e => (e.shape, e.world_transform)) =
      some (BuiltShape.castHull 5 Access.pastEnd, some Access.pastEnd) := by
  decide

end BulletEnv

/-! ## Trajectory display and collect-all check: properties -/

namespace BulletEnv

variable {V P G : Type}

/-- Claim C26, evaluated on the code: in the chain environment (joints `j1`,
`j2` at indices 0 and 1) the name `zz` is no joint of the model and
`setState(["zz"], [9])` changes no joint value.  After
`plotTrajectory("plot", ["zz"], traj)` with a one-row, one-column `traj` the
map `joint_to_qnr_` has an entry `zz ↦ 0`, and the same `setState` call now
writes 9 into slot 0 of the joint-value array, the slot of `j1`, and changes
the transforms of the current state. -/
theorem plotTrajectory_inserts_unknown_joint :
    StrMap.find chainEnv.joint_to_qnr_ "zz" = none ∧
    chainEnv.joint_to_qnr_ = [("j1", 0), ("j2", 1)] ∧
    (setStateNames chainEnv ["zz"] [9]).kdl_jnt_array_ = [0, 0] ∧
    (setStateNames chainEnv ["zz"] [9]).current_state_.transforms =
      [("base", 1), ("link1", 2), ("link2", 2)] ∧
    (plotTrajectory chainEnv "plot" ["zz"] [[5]]).map (fun env => env.joint_to_qnr_) =
      some [("j1", 0), ("j2", 1), ("zz", 0)] ∧
    (plotTrajectory chainEnv "plot" ["zz"] [[5]]).map
      (fun env => (setStateNames env ["zz"] [9]).kdl_jnt_array_) = some [9, 0] ∧
    (plotTrajectory chainEnv "plot" ["zz"] [[5]]).map
      (fun env => (setStateNames env ["zz"] [9]).current_state_.transforms) =
      some [("base", 1), ("link1", 11), ("link2", 11)] := by
  decide

theorem allLoop_found [Inhabited V] [Mul P] [One P] (isNaN : V → Bool)
    (narrow : NarrowPhase V P G) (env : BulletEnv V P G) (rows : List (List V)) :
    ∀ (row : List V) (req : DistanceRequest V) (found : Bool)
      (collisions : List (DistanceResult V)) (issued : List (DistanceRequest V)),
      (allLoop isNaN narrow env row rows req found collisions issued).found = true ↔
        found = true ∨ (rows ≠ [] ∧
          (allLoop isNaN narrow env row rows req found collisions issued).collisions ≠ []) := by
  induction rows with
  | nil =>
    intro row req found collisions issued
    simp [allLoop]
  | cons next rest ih =>
    intro row req found collisions issued
    simp only [allLoop, ne_eq, not_false_eq_true, true_and, reduceCtorEq]
    rw [ih]
    cases hc : calcCollisionsContinuous isNaN narrow env
        { req with joint_angles1 := row, joint_angles2 := next } collisions with
    | nil =>
      simp only [List.length_nil, gt_iff_lt, lt_self_iff_false, if_false]
      constructor
      · rintro (h | ⟨_, h⟩)
        · exact Or.inl h
        · exact Or.inr h
      · rintro (h | h)
        · exact Or.inl h
        · refine Or.inr ⟨?_, h⟩
          intro hrest
          apply h
          subst hrest
          simp [allLoop]
    | cons c cs =>
      simp only [List.length_cons, gt_iff_lt, Nat.zero_lt_succ, if_true, true_or, true_iff]
      right
      rw [(allLoop_spec isNaN narrow env rest _ _ _ _ _).1]
      simp

/-- Claim C27, on the code: the result-vector overload of
`continuousCollisionCheckTrajectory` returns true exactly when the trajectory
has a segment and the vector is not empty after the call, whether or not the
call appended to it.  With a narrow phase that finds nothing, a trajectory of
two rows and a vector holding one result of an earlier query, the call makes
one query, appends nothing and returns true; with an empty vector it returns
false. -/
theorem collect_all_found_from_vector_size [Inhabited V] [Mul P] [One P]
    (isNaN : V → Bool) (narrow : NarrowPhase V P G) (env : BulletEnv V P G)
    (joint_names link_names : List String) (traj : List (List V))
    (collisions : List (DistanceResult V)) :
    ((continuousCollisionCheckTrajectoryAll isNaN narrow env joint_names link_names traj
        collisions).found = true ↔
      2 ≤ traj.length ∧
      (continuousCollisionCheckTrajectoryAll isNaN narrow env joint_names link_names traj
        collisions).collisions ≠ []) ∧
    (continuousCollisionCheckTrajectoryAll (fun _ => false) quietNarrow chainEnv ["j1"] []
        [[0], [1]] [staleResult]).found = true ∧
    (continuousCollisionCheckTrajectoryAll (fun _ => false) quietNarrow chainEnv ["j1"] []
        [[0], [1]] [staleResult]).collisions = [staleResult] ∧
    (continuousCollisionCheckTrajectoryAll (fun _ => false) quietNarrow chainEnv ["j1"] []
        [[0], [1]] [staleResult]).queries.length = 1 ∧
    (continuousCollisionCheckTrajectoryAll (fun _ => false) quietNarrow chainEnv ["j1"] []
        [[0], [1]] []).found = false := by
  refine ⟨?_, by decide, by decide, by decide, by decide⟩
  cases traj with
  | nil => simp [continuousCollisionCheckTrajectoryAll]
  | cons row rest =>
    simp only [continuousCollisionCheckTrajectoryAll]
    rw [allLoop_found]
    cases rest with
    | nil => simp
    | cons next rest => simp

end BulletEnv

/-! ## Cartesian velocity term: properties -/

namespace CartVelCalculator

variable {R : Type}

/-- Claim C30: for `dof_vals` of `2 * n_dof` entries let `p0` and `p1` be the
translations forward kinematics gives for the first and for the second
`n_dof` entries.  `CartVelCalculator` returns the six entries
`p1 - p0 - limit` (x, y, z) and `p0 - p1 - limit` (x, y, z); over a commutative
ordered ring all six are at most 0 exactly when each coordinate of `p1 - p0` has
absolute value at most `limit`. -/
theorem cart_vel_values_and_sign [LinearOrderedCommRing R] (c : CartVelCalculator R)
    (dof_vals : List R) (hlen : dof_vals.length = 2 * c.numJoints) :
    c.apply dof_vals =
      [(c.calcFwdKin (dof_vals.drop c.numJoints) c.link_).x -
          (c.calcFwdKin (dof_vals.take c.numJoints) c.link_).x - c.limit_,
       (c.calcFwdKin (dof_vals.drop c.numJoints) c.link_).y -
          (c.calcFwdKin (dof_vals.take c.numJoints) c.link_).y - c.limit_,
       (c.calcFwdKin (dof_vals.drop c.numJoints) c.link_).z -
          (c.calcFwdKin (dof_vals.take c.numJoints) c.link_).z - c.limit_,
       (c.calcFwdKin (dof_vals.take c.numJoints) c.link_).x -
          (c.calcFwdKin (dof_vals.drop c.numJoints) c.link_).x - c.limit_,
       (c.calcFwdKin (dof_vals.take c.numJoints) c.link_).y -
          (c.calcFwdKin (dof_vals.drop c.numJoints) c.link_).y - c.limit_,
       (c.calcFwdKin (dof_vals.take c.numJoints) c.link_).z -
          (c.calcFwdKin (dof_vals.drop c.numJoints) c.link_).z - c.limit_] ∧
    ((∀ v ∈ c.apply dof_vals, v ≤ 0) ↔
      |(c.calcFwdKin (dof_vals.drop c.numJoints) c.link_).x -
          (c.calcFwdKin (dof_vals.take c.numJoints) c.link_).x| ≤ c.limit_ ∧
      |(c.calcFwdKin (dof_vals.drop c.numJoints) c.link_).y -
          (c.calcFwdKin (dof_vals.take c.numJoints) c.link_).y| ≤ c.limit_ ∧
      |(c.calcFwdKin (dof_vals.drop c.numJoints) c.link_).z -
          (c.calcFwdKin (dof_vals.take c.numJoints) c.link_).z| ≤ c.limit_) := by
  have hdrop : dof_vals.length - c.numJoints = c.numJoints := by omega
  simp only [apply, topRows, bottomRows, hdrop, true_and]
  simp only [List.mem_cons, List.mem_singleton, forall_eq_or_imp, forall_eq, List.not_mem_nil,
    false_implies, implies_true, and_true, abs_le]
  constructor
  · rintro ⟨h1, h2, h3, h4, h5, h6⟩
    refine ⟨⟨?_, ?_⟩, ⟨?_, ?_⟩, ⟨?_, ?_⟩⟩ <;> linarith
  · rintro ⟨⟨h1, h2⟩, ⟨h3, h4⟩, ⟨h5, h6⟩⟩
    refine ⟨?_, ?_, ?_, ?_, ?_, ?_⟩ <;> linarith

/-- Witness of C30: the sliding calculator with limit 2 on the joint values 1
and 3. -/
theorem cart_vel_values_and_sign_witness :
    slideCalculator.apply [1, 3] = [0, -2, -2, -4, -2, -2] ∧
    ((∀ v ∈ slideCalculator.apply [1, 3], v ≤ 0) ↔
      |(3 : Int) - 1| ≤ 2 ∧ |(0 : Int) - 0| ≤ 2 ∧ |(0 : Int) - 0| ≤ 2) :=
  cart_vel_values_and_sign slideCalculator [1, 3] (by decide)

end CartVelCalculator

end TrajOpt
